import Mathlib

/-!
# Estray: work dispatch over websockets

A shallow embedding of `payload.hpp` and `async_websocket_server.hpp`.

* A value of the C++ type `double` is a number or NaN. The numbers are represented by
  integers, since only their order and equality are used by the code modelled here
  (an infinity takes part in the order like any number); NaN compares false with every
  value, itself included.
* `std::size_t` and `std::atomic<std::size_t>` are 64-bit unsigned: every increment
  and decrement is taken modulo `SIZE_MODULUS`.
* The Boost.Serialization archive is an external library: a serialised message is
  either the archive of a container or bytes on which de-serialisation throws.
* A C++ exception is an explicit `completion.thrown` result that carries the state
  reached when it was thrown.
* Asynchronous operations are kept as the list of operations outstanding on a
  session; a completion handler is one atomic step of the event loop.
* Library calls are taken by their contract: `std::sort` yields the sorted arrangement
  where its requirement on the comparison is met,
  `std::uniform_int_distribution` a value of its range, and the Boost lock-free queue is
  a bounded first-in first-out list.
-/

namespace Estray

/-! ## payload.hpp -/

/-- Modelled from the spec: the enumeration `payload_command` is declared in `misc.hpp`,
which is not among the sources; the spec (section 3) lists exactly these six variants. -/
inductive payload_command where
  | NONE
  | GETDATA
  | NODATA
  | COMPUTE
  | RESULT
  | ERROR
  deriving DecidableEq

/-- Modelled from the spec: the enumeration `payload_type` is declared in `misc.hpp`,
which is not among the sources; `run()` switches over exactly these three values. -/
inductive payload_type where
  | container
  | sleep
  | command
  deriving DecidableEq

/-- The number of values of `std::size_t` (64 bits). -/
def SIZE_MODULUS : Nat := 2 ^ 64

/-- The decrement of a `std::size_t`: one less, and the largest value from 0. -/
def size_t_decrement (n : Nat) : Nat :=
  if n = 0 then SIZE_MODULUS - 1 else n - 1

/-- A value of the C++ type `double`, as far as comparisons go: a number or NaN. -/
inductive double where
  | number (x : Int)
  | nan
  deriving DecidableEq

instance : Coe Int double := ⟨double.number⟩

instance (n : Nat) : OfNat double n := ⟨double.number n⟩

/-- The comparison `a < b` of two values of type `double`: false when one is NaN. -/
def double.lt : double → double → Bool
  | .number x, .number y => decide (x < y)
  | _, _ => false

/-- The comparison `a <= b` of two values of type `double`: false when one is NaN. -/
def double.le : double → double → Bool
  | .number x, .number y => decide (x ≤ y)
  | _, _ => false

instance : LT double := ⟨fun a b => double.lt a b = true⟩

instance : LE double := ⟨fun a b => double.le a b = true⟩

instance (a b : double) : Decidable (a < b) :=
  inferInstanceAs (Decidable (double.lt a b = true))

instance (a b : double) : Decidable (a ≤ b) :=
  inferInstanceAs (Decidable (double.le a b = true))

/-- The class `stored_number`: one `double`. -/
structure stored_number where
  m_secret : double
  deriving DecidableEq

/-- The accessor `stored_number::value()`. -/
def stored_number.value (self : stored_number) : double := self.m_secret

/-- The classes derived from `payload_base`: `random_container_payload` holds `m_data`,
`sleep_payload` holds `m_sleep_time`. -/
inductive payload_base where
  | random_container_payload (m_data : List stored_number)
  | sleep_payload (m_sleep_time : double)
  deriving DecidableEq

/-- The algorithm `std::is_sorted(first, last, comp)`: no element compares `comp`-before
its predecessor. -/
def is_sorted {α : Type} (comp : α → α → Bool) : List α → Bool
  | [] => true
  | [_] => true
  | x :: y :: rest => if comp y x then false else is_sorted comp (y :: rest)

/-- The virtual `is_processed_()` reached through `payload_base::is_processed()`:
`std::is_sorted` with the comparison `x->value() < y->value()` for a container, the
constant `true` for a sleep payload. -/
def payload_base.is_processed : payload_base → Bool
  | .random_container_payload m_data =>
      is_sorted (fun x_ptr y_ptr => decide (x_ptr.value < y_ptr.value)) m_data
  | .sleep_payload _ => true

/-- The class `command_container`: a command and an owned payload pointer
(`none` is `nullptr`). -/
structure command_container where
  m_command : payload_command
  m_payload_ptr : Option payload_base
  deriving DecidableEq

/-- The method `command_container::reset(command, payload_ptr)`: the old payload is
deleted and replaced. The one-argument call of the source passes `nullptr`. -/
def command_container.reset (_self : command_container) (command : payload_command)
    (payload_ptr : Option payload_base) : command_container :=
  { m_command := command, m_payload_ptr := payload_ptr }

/-- The method `command_container::get_command()`. -/
def command_container.get_command (self : command_container) : payload_command :=
  self.m_command

/-- The method `command_container::set_command(command)`. -/
def command_container.set_command (self : command_container) (command : payload_command) :
    command_container :=
  { self with m_command := command }

/-- The method `command_container::is_processed()`: `false` without a payload. -/
def command_container.is_processed (self : command_container) : Bool :=
  match self.m_payload_ptr with
  | some payload => payload.is_processed
  | none => false

/-- A serialised message as it travels in a websocket frame: the archive of a container,
or bytes from which the archive cannot be read. -/
inductive wire_string where
  | archive (c : command_container)
  | malformed
  deriving DecidableEq

/-- The method `command_container::to_string()`. -/
def command_container.to_string (self : command_container) : wire_string :=
  .archive self

/-- The method `command_container::from_string(descr)`: the archive is read into a local
container that is then moved into `*this`; a failing archive throws and leaves `*this`
as it was. -/
def command_container.from_string (_self : command_container) (descr : wire_string) :
    Except String command_container :=
  match descr with
  | .archive c => .ok c
  | .malformed => .error "archive exception"

/-! ## async_websocket_server.hpp: the session -/

/-- How a call ends: it returns, or an exception leaves it. -/
inductive completion where
  | returned
  | thrown (what : String)
  deriving DecidableEq

/-- The asynchronous operations a session starts on its websocket. -/
inductive async_op where
  | accept
  | read
  | write
  deriving DecidableEq

/-- The error code handed to `when_read`. -/
inductive read_error_code where
  | success
  | closed
  | failure
  deriving DecidableEq

/-- The three callbacks a session is constructed with, over the state `σ` of whoever
provides them. `f_get_next_payload_item` takes the pointer by reference and gives back
its return value and the pointer after the call. -/
structure session_callbacks (σ : Type) where
  f_get_next_payload_item : Option payload_base → σ → Bool × Option payload_base × σ
  f_check_server_stopped : σ → Bool
  f_server_sign_on : Bool → σ → completion × σ

/-- The class `async_websocket_server_session`: the state of the stream (`m_ws`: whether
it is open, the close code it was closed with, the operations outstanding on it), the
container and the buffer. -/
structure async_websocket_server_session where
  m_ws_is_open : Bool
  m_ws_close_code : Option String
  outstanding : List async_op
  m_command_container : command_container
  m_buffer : List wire_string
  deriving DecidableEq

/-- The call `beast::buffers_to_string(m_buffer.data())`: the bytes held by the buffer.
A buffer that holds exactly one message yields it; anything else is not an archive. -/
def buffers_to_string : List wire_string → wire_string
  | [message] => message
  | _ => .malformed

/-- The session as its constructor leaves it. -/
def async_websocket_server_session.init : async_websocket_server_session :=
  { m_ws_is_open := false, m_ws_close_code := none, outstanding := [],
    m_command_container := { m_command := .NONE, m_payload_ptr := none },
    m_buffer := [] }

/-- The method `async_start_read()`. -/
def async_websocket_server_session.async_start_read (self : async_websocket_server_session) :
    async_websocket_server_session :=
  { self with outstanding := self.outstanding ++ [.read] }

/-- The method `async_start_write()`. -/
def async_websocket_server_session.async_start_write (self : async_websocket_server_session) :
    async_websocket_server_session :=
  { self with outstanding := self.outstanding ++ [.write] }

/-- The method `getAndSerializeWorkItem()`: the callback is called with a null pointer;
the container becomes `(COMPUTE, item)` when it returns `true` and a non-null pointer,
`(NODATA, nullptr)` otherwise. -/
def async_websocket_server_session.getAndSerializeWorkItem {σ : Type}
    (cb : session_callbacks σ) (self : async_websocket_server_session) (s : σ) :
    wire_string × async_websocket_server_session × σ :=
  match cb.f_get_next_payload_item none s with
  | (true, some plb, s1) =>
      let c := self.m_command_container.reset .COMPUTE (some plb)
      (c.to_string, { self with m_command_container := c }, s1)
  | (_, _, s1) =>
      let c := self.m_command_container.reset .NODATA none
      (c.to_string, { self with m_command_container := c }, s1)

/-- The method `process_request()`. -/
def async_websocket_server_session.process_request {σ : Type}
    (cb : session_callbacks σ) (self : async_websocket_server_session) (s : σ) :
    completion × async_websocket_server_session × σ :=
  match self.m_command_container.from_string (buffers_to_string self.m_buffer) with
  | .error _ =>
      (.thrown "process_request(): Caught exception while de-serializing", self, s)
  | .ok c =>
      let self1 := { self with m_command_container := c, m_buffer := [] }
      match self1.m_command_container.get_command with
      | .GETDATA | .ERROR =>
          let (message, self2, s2) := self1.getAndSerializeWorkItem cb s
          (.returned, { self2 with m_buffer := self2.m_buffer ++ [message] }, s2)
      | .RESULT =>
          if !self1.m_command_container.is_processed then
            (.thrown "process_request(): Returned payload is unprocessed", self1, s)
          else
            let (message, self2, s2) := self1.getAndSerializeWorkItem cb s
            (.returned, { self2 with m_buffer := self2.m_buffer ++ [message] }, s2)
      | _ =>
          (.thrown "process_request(): Got unknown or invalid command", self1, s)

/-- The method `do_close(ec, where)`: an open stream is closed with
`close_code::protocol_error`, then the session signs off. -/
def async_websocket_server_session.do_close {σ : Type}
    (cb : session_callbacks σ) (self : async_websocket_server_session) (s : σ) :
    completion × async_websocket_server_session × σ :=
  let self1 :=
    if self.m_ws_is_open then
      { self with m_ws_is_open := false, m_ws_close_code := some "protocol_error" }
    else self
  let (r, s1) := cb.f_server_sign_on false s
  (r, self1, s1)

/-- The handler `when_connection_accepted(ec)`; `ws_open` is whether the stream is open
once the handshake has completed with an error. -/
def async_websocket_server_session.when_connection_accepted {σ : Type}
    (cb : session_callbacks σ) (ec : Bool) (ws_open : Bool)
    (self : async_websocket_server_session) (s : σ) :
    completion × async_websocket_server_session × σ :=
  let self0 := { self with outstanding := self.outstanding.erase .accept }
  if ec then
    async_websocket_server_session.do_close cb { self0 with m_ws_is_open := ws_open } s
  else
    match cb.f_server_sign_on true s with
    | (.returned, s1) => (.returned, { self0 with m_ws_is_open := true }.async_start_read, s1)
    | (.thrown what, s1) => (.thrown what, { self0 with m_ws_is_open := true }, s1)

/-- The handler `when_read(ec, bytes)`; `message` is what the read put into the buffer and
`ws_open` is whether the stream is open once the read has completed with an error. -/
def async_websocket_server_session.when_read {σ : Type}
    (cb : session_callbacks σ) (ec : read_error_code) (ws_open : Bool) (message : wire_string)
    (self : async_websocket_server_session) (s : σ) :
    completion × async_websocket_server_session × σ :=
  let self0 := { self with outstanding := self.outstanding.erase .read }
  match ec with
  | .closed => (.returned, { self0 with m_ws_is_open := false }, s)
  | .failure =>
      async_websocket_server_session.do_close cb { self0 with m_ws_is_open := ws_open } s
  | .success =>
      match async_websocket_server_session.process_request cb
          { self0 with m_buffer := self0.m_buffer ++ [message] } s with
      | (.returned, self1, s1) => (.returned, self1.async_start_write, s1)
      | (.thrown what, self1, s1) => (.thrown what, self1, s1)

/-- The handler `when_written(ec, bytes)`. -/
def async_websocket_server_session.when_written {σ : Type}
    (cb : session_callbacks σ) (ec : Bool)
    (self : async_websocket_server_session) (s : σ) :
    completion × async_websocket_server_session × σ :=
  let self0 := { self with outstanding := self.outstanding.erase .write }
  if ec then (.returned, self0, s)
  else
    let self1 := { self0 with m_buffer := [] }
    if cb.f_check_server_stopped s then (.returned, self1, s)
    else (.returned, self1.async_start_read, s)

/-! ## async_websocket_server.hpp: the server -/

/-- The class `async_websocket_server`: the counters, the stop flag, the configuration,
the payload queue (front of the list is popped next), whether the acceptor is open and
whether an `async_accept` is outstanding on it. -/
structure async_websocket_server where
  m_n_listener_threads : Nat
  m_n_active_sessions : Nat
  m_n_packages_served : Nat
  m_n_max_packages_served : Nat
  m_full_queue_sleep_ms : Nat
  m_max_queue_size : Nat
  m_server_stopped : Bool
  m_payload_type : payload_type
  m_n_producer_threads : Nat
  m_container_size : Nat
  m_sleep_time : double
  m_payload_queue : List payload_base
  m_acceptor_is_open : Bool
  accept_outstanding : Bool
  deriving DecidableEq

/-- Modelled from the spec: `m_payload_queue` is a `boost::lockfree::queue` with
`fixed_sized<true>`, whose code is not among the sources; section 4.2 gives `pop` as
yielding an item when there is one. The call `m_payload_queue.pop(plb_ptr)`: the front
item, or `false` with the pointer untouched when the queue is empty. -/
def queue_pop (queue : List payload_base) (plb_ptr : Option payload_base) :
    Bool × Option payload_base × List payload_base :=
  match queue with
  | item :: rest => (true, some item, rest)
  | [] => (false, plb_ptr, [])

/-- Modelled from the spec: `m_payload_queue` is a `boost::lockfree::queue` with
`fixed_sized<true>`, whose code is not among the sources; section 4.2 gives `push` as
returning `false` when the queue is full, the item staying with the caller. The call
`m_payload_queue.push(ptr)` on the queue constructed with `max_queue_size`: `false` and
no change when the queue is full. -/
def queue_push (max_queue_size : Nat) (queue : List payload_base) (item : payload_base) :
    Bool × List payload_base :=
  if queue.length < max_queue_size then (true, queue ++ [item]) else (false, queue)

/-- The method `getNextPayloadItem(plb_ptr)`: after a successful pop the counter is
post-incremented and its previous value compared with the maximum; at or above the
maximum the stop flag is set and the acceptor closed. -/
def async_websocket_server.getNextPayloadItem (self : async_websocket_server)
    (plb_ptr : Option payload_base) : Bool × Option payload_base × async_websocket_server :=
  match queue_pop self.m_payload_queue plb_ptr with
  | (true, popped, rest) =>
      let previous := self.m_n_packages_served
      let self1 :=
        { self with
          m_payload_queue := rest
          m_n_packages_served := (previous + 1) % SIZE_MODULUS }
      if previous < self.m_n_max_packages_served then
        (true, popped, self1)
      else
        (true, popped, { self1 with m_server_stopped := true, m_acceptor_is_open := false })
  | (false, unchanged_ptr, _) => (false, unchanged_ptr, self)

/-- The method `server_stopped()`. -/
def async_websocket_server.server_stopped (self : async_websocket_server) : Bool :=
  self.m_server_stopped

/-- The third lambda that `when_accepted` hands to a session (the sign-on callback). -/
def async_websocket_server.session_sign_on (sign_on : Bool) (self : async_websocket_server) :
    completion × async_websocket_server :=
  if sign_on then
    (.returned,
      { self with m_n_active_sessions := (self.m_n_active_sessions + 1) % SIZE_MODULUS })
  else if 0 = self.m_n_active_sessions then
    (.thrown "when_accepted(): Tried to decrement #sessions which is already 0", self)
  else
    (.returned,
      { self with
        m_n_active_sessions := size_t_decrement self.m_n_active_sessions })

/-- The three lambdas `when_accepted` constructs a session with. -/
def server_callbacks : session_callbacks async_websocket_server where
  f_get_next_payload_item := fun plb_ptr self => self.getNextPayloadItem plb_ptr
  f_check_server_stopped := fun self => self.server_stopped
  f_server_sign_on := async_websocket_server.session_sign_on

/-- The local variables of one producer thread: `produce_new_container`, the pointer
(`sc_ptr` or `sp_ptr`) and whether the loop has been left. -/
structure producer_thread where
  produce_new_container : Bool
  ptr : Option payload_base
  finished : Bool
  deriving DecidableEq

/-- The producer thread before its first iteration. -/
def producer_thread.init : producer_thread :=
  { produce_new_container := true, ptr := none, finished := false }

/-- The body of the loop shared by both producers, from the fabrication on: `fresh` is
the item that `new` yields when one is made. The pointer is null only before the first
fabrication, when `produce_new_container` is still true. -/
def producer_body (fresh : payload_base) (p : producer_thread)
    (self : async_websocket_server) : producer_thread × async_websocket_server :=
  let p1 := if p.produce_new_container then { p with ptr := some fresh } else p
  match p1.ptr with
  | none => (p1, self)
  | some item =>
      match queue_push self.m_max_queue_size self.m_payload_queue item with
      | (true, queue) =>
          ({ p1 with produce_new_container := true }, { self with m_payload_queue := queue })
      | (false, _) =>
          if self.m_server_stopped then ({ p1 with finished := true }, self)
          else ({ p1 with produce_new_container := false }, self)

/-- One iteration of `container_payload_producer` (`while (true)`). -/
def async_websocket_server.container_payload_producer (fresh : payload_base)
    (p : producer_thread) (self : async_websocket_server) :
    producer_thread × async_websocket_server :=
  if p.finished then (p, self) else producer_body fresh p self

/-- One iteration of `sleep_payload_producer` (`while (!m_server_stopped)`). -/
def async_websocket_server.sleep_payload_producer (fresh : payload_base)
    (p : producer_thread) (self : async_websocket_server) :
    producer_thread × async_websocket_server :=
  if p.finished then (p, self)
  else if self.m_server_stopped then ({ p with finished := true }, self)
  else producer_body fresh p self

/-- The server process while `m_io_context.run()` is executing: the server object, the
sessions created so far, the producer threads, and the exception that has left a handler
(and with it the event loop), if any. -/
structure world where
  server : async_websocket_server
  sessions : List async_websocket_server_session
  producers : List producer_thread
  uncaught : Option String
  deriving DecidableEq

/-- An exception that leaves `run()`: its message, the number of producer threads
started by then, and whether the first accept has been issued. -/
structure run_exception where
  what : String
  n_producers_started : Nat
  accept_issued : Bool
  deriving DecidableEq

/-- The value of `max_size()` of a `std::vector<std::thread>`, here that of a 64-bit
platform where a `std::thread` takes 8 bytes: (2^63 - 1) / 8. A call of `reserve` with a
larger argument throws `std::length_error`. -/
def THREAD_VECTOR_MAX_SIZE : Nat := 1152921504606846975

/-- The method `run()` up to the call of `m_io_context.run()`: the counter and the stop
flag are reset, the acceptor is opened (`acceptor_ec` is the error of open, bind or
listen), room is reserved for the producer threads, the producers are started (or the
configuration error thrown), the first accept is issued, and room is reserved for
`m_n_listener_threads - 1` context threads. `none` is the early return after `fail`. The
event loop of the model runs the handlers of all its threads. Memory and threads are
taken to be available for every count that `reserve` accepts. -/
def async_websocket_server.run (self : async_websocket_server) (acceptor_ec : Bool) :
    Except run_exception (Option world) :=
  let self1 := { self with m_n_packages_served := 0, m_server_stopped := false }
  if acceptor_ec then .ok none
  else
    let self2 := { self1 with m_acceptor_is_open := true }
    if THREAD_VECTOR_MAX_SIZE < self2.m_n_producer_threads then
      .error { what := "vector::reserve", n_producers_started := 0, accept_issued := false }
    else
      match self2.m_payload_type with
      | .command =>
          .error
            { what := "run(): Got invalid payload_type command"
              n_producers_started := 0
              accept_issued := false }
      | _ =>
          if THREAD_VECTOR_MAX_SIZE < size_t_decrement self2.m_n_listener_threads then
            .error
              { what := "vector::reserve"
                n_producers_started := self2.m_n_producer_threads
                accept_issued := true }
          else
            .ok (some
              { server := { self2 with accept_outstanding := true }
                sessions := []
                producers := List.replicate self2.m_n_producer_threads producer_thread.init
                uncaught := none })

/-- The handler `when_accepted(ec, socket)` of the server: nothing when stopped; a session
is made and started (its handshake accept is outstanding) when there is no error; the
accept is re-armed unless stopped. -/
def async_websocket_server.when_accepted (ec : Bool) (w : world) : world :=
  let srv := { w.server with accept_outstanding := false }
  if srv.m_server_stopped then { w with server := srv }
  else
    let sessions :=
      if ec then w.sessions
      else w.sessions ++
        [{ async_websocket_server_session.init with outstanding := [.accept] }]
    { w with server := { srv with accept_outstanding := true }, sessions := sessions }

/-- The completions the event loop and the producer threads can execute. -/
inductive event where
  | accepted (ec : Bool)
  | connection_accepted (i : Nat) (ec : Bool) (ws_open : Bool)
  | read (i : Nat) (ec : read_error_code) (ws_open : Bool) (message : wire_string)
  | written (i : Nat) (ec : Bool)
  | producer (j : Nat) (fresh : payload_base)
  deriving DecidableEq

/-- Runs a handler of session `i` when the operation `op` is outstanding on it; an
exception that leaves the handler leaves the event loop. -/
def run_session_handler (i : Nat) (op : async_op)
    (handler : async_websocket_server_session → async_websocket_server →
      completion × async_websocket_server_session × async_websocket_server)
    (w : world) : world :=
  match w.sessions.get? i with
  | none => w
  | some session =>
      if op ∈ session.outstanding then
        match handler session w.server with
        | (.returned, session1, srv1) =>
            { w with server := srv1, sessions := w.sessions.set i session1 }
        | (.thrown what, session1, srv1) =>
            { w with server := srv1, sessions := w.sessions.set i session1,
                     uncaught := some what }
      else w

/-- One step of the running server: the completion handler of an outstanding operation,
or one loop iteration of a producer thread. Nothing runs once an exception has left the
event loop, and a completion for an operation that is not outstanding does not occur. -/
def step (e : event) (w : world) : world :=
  match w.uncaught with
  | some _ => w
  | none =>
      match e with
      | .accepted ec =>
          if w.server.accept_outstanding then async_websocket_server.when_accepted ec w
          else w
      | .connection_accepted i ec ws_open =>
          run_session_handler i .accept
            (async_websocket_server_session.when_connection_accepted server_callbacks ec ws_open) w
      | .read i ec ws_open message =>
          run_session_handler i .read
            (async_websocket_server_session.when_read server_callbacks ec ws_open message) w
      | .written i ec =>
          run_session_handler i .write
            (async_websocket_server_session.when_written server_callbacks ec) w
      | .producer j fresh =>
          match w.producers.get? j with
          | none => w
          | some p =>
              let (p1, srv1) :=
                match w.server.m_payload_type with
                | .sleep => w.server.sleep_payload_producer fresh p
                | _ => w.server.container_payload_producer fresh p
              { w with server := srv1, producers := w.producers.set j p1 }

/-- Runs a sequence of events, first to last. -/
def run_events (es : List event) (w : world) : world :=
  es.foldl (fun acc e => step e acc) w

/-- The states of one run: what `run()` starts the event loop with, and every state a
step leads to from there. -/
inductive reachable (cfg : async_websocket_server) : world → Prop where
  | start (w : world) (h : cfg.run false = .ok (some w)) : reachable cfg w
  | next (e : event) (w : world) (h : reachable cfg w) : reachable cfg (step e w)

/-- The callbacks `cb` with a count of the calls of `f_get_next_payload_item` added to
the state they act on. -/
def counting_callbacks {σ : Type} (cb : session_callbacks σ) : session_callbacks (σ × Nat) where
  f_get_next_payload_item := fun plb_ptr s =>
    let r := cb.f_get_next_payload_item plb_ptr s.1
    (r.1, r.2.1, (r.2.2, s.2 + 1))
  f_check_server_stopped := fun s => cb.f_check_server_stopped s.1
  f_server_sign_on := fun sign_on s =>
    let r := cb.f_server_sign_on sign_on s.1
    (r.1, (r.2, s.2))

/-- The container `getAndSerializeWorkItem` resets to, given what the callback returned
and left in the pointer. -/
def work_item_container (r : Bool) (plb_ptr : Option payload_base) : command_container :=
  match r, plb_ptr with
  | true, some plb => { m_command := .COMPUTE, m_payload_ptr := some plb }
  | _, _ => { m_command := .NODATA, m_payload_ptr := none }

/-- A server object as its constructor leaves it for the given threshold, payload type
and queue capacity, with one producer thread and two listener threads. -/
def configured_server (n_max_packages_served : Nat) (type : payload_type)
    (max_queue_size : Nat) : async_websocket_server :=
  { m_n_listener_threads := 2
    m_n_active_sessions := 0
    m_n_packages_served := 0
    m_n_max_packages_served := n_max_packages_served
    m_full_queue_sleep_ms := 5
    m_max_queue_size := max_queue_size
    m_server_stopped := false
    m_payload_type := type
    m_n_producer_threads := 1
    m_container_size := 2
    m_sleep_time := 1
    m_payload_queue := []
    m_acceptor_is_open := false
    accept_outstanding := false }

/-- A server whose served-count is the largest `std::size_t` and whose queue holds one
item. -/
def saturated_server : async_websocket_server :=
  { configured_server 0 .sleep 4 with
    m_n_packages_served := SIZE_MODULUS - 1
    m_payload_queue := [.sleep_payload 1] }

/-- A server whose session count is the largest `std::size_t`. -/
def crowded_server : async_websocket_server :=
  { configured_server 0 .sleep 4 with m_n_active_sessions := SIZE_MODULUS - 1 }

/-- The stop flag, the served-count and its threshold are the same in both servers. -/
def same_counters (a b : async_websocket_server) : Prop :=
  b.m_server_stopped = a.m_server_stopped ∧
  b.m_n_packages_served = a.m_n_packages_served ∧
  b.m_n_max_packages_served = a.m_n_max_packages_served

/-! ## The client and one conversation -/

/-- The requirement that `std::sort(first, last, comp)` puts on `comp` for the elements
of the range: a strict weak ordering, that is, irreflexive, transitive, and with a
transitive incomparability. -/
def strict_weak_ordering {α : Type} (comp : α → α → Bool) (range : List α) : Prop :=
  (∀ x ∈ range, comp x x = false) ∧
  (∀ x ∈ range, ∀ y ∈ range, ∀ z ∈ range,
    comp x y = true → comp y z = true → comp x z = true) ∧
  (∀ x ∈ range, ∀ y ∈ range, ∀ z ∈ range,
    comp x y = false → comp y x = false → comp y z = false → comp z y = false →
      comp x z = false ∧ comp z x = false)

instance {α : Type} (comp : α → α → Bool) (range : List α) :
    Decidable (strict_weak_ordering comp range) :=
  inferInstanceAs (Decidable (
    (∀ x ∈ range, comp x x = false) ∧
    (∀ x ∈ range, ∀ y ∈ range, ∀ z ∈ range,
      comp x y = true → comp y z = true → comp x z = true) ∧
    (∀ x ∈ range, ∀ y ∈ range, ∀ z ∈ range,
      comp x y = false → comp y x = false → comp y z = false → comp z y = false →
        comp x z = false ∧ comp z x = false)))

/-- The algorithm `std::sort(first, last, comp)` with the comparison
`x->value() < y->value()`: the elements arranged so that none is less than an earlier
one, which for a strict weak ordering is the ascending order of value. Where the
requirement on the comparison fails (see `random_container_payload.sort`) the standard
leaves the outcome open, and the arrangement given here is then only one of the possible
ones. -/
def std_sort (m_data : List stored_number) : List stored_number :=
  m_data.insertionSort (fun x y => ¬ (y.value < x.value))

/-- The method `random_container_payload::sort()`: the sorted data, or `none` where the
call of `std::sort` has no defined behaviour because the comparison is no strict weak
ordering on the values (a NaN beside two different numbers). -/
def random_container_payload.sort (m_data : List stored_number) :
    Option (List stored_number) :=
  if strict_weak_ordering (fun x y => decide (x.value < y.value)) m_data then
    some (std_sort m_data)
  else none

/-- The data holds no NaN. -/
def nan_free (m_data : List stored_number) : Prop :=
  ∀ x ∈ m_data, x.value ≠ double.nan

instance (m_data : List stored_number) : Decidable (nan_free m_data) :=
  inferInstanceAs (Decidable (∀ x ∈ m_data, x.value ≠ double.nan))

/-- The virtual `process_()` reached through `payload_base::process()`: a container sorts
its data, a sleep payload blocks the caller and stays as it is. -/
def payload_base.process : payload_base → payload_base
  | .random_container_payload m_data => .random_container_payload (std_sort m_data)
  | .sleep_payload m_sleep_time => .sleep_payload m_sleep_time

/-- The method `command_container::process()`: throws without a payload. -/
def command_container.process (self : command_container) : completion × command_container :=
  match self.m_payload_ptr with
  | some payload => (.returned, { self with m_payload_ptr := some payload.process })
  | none =>
      (.thrown "command_container::process(): No processing possible as m_payload_ptr is empty.",
        self)

/-- The method `async_websocket_client::process_request(in_data)`, on the container of
the client: the outcome, the container afterwards and the message handed to
`async_start_write`, if any. The sleep before a GETDATA leaves the container alone and
is not part of this state. -/
def async_websocket_client.process_request (m_command_container : command_container)
    (in_data : wire_string) : completion × command_container × Option wire_string :=
  match m_command_container.from_string in_data with
  | .error what => (.thrown what, m_command_container, none)
  | .ok c =>
      match c.get_command with
      | .COMPUTE =>
          match c.process with
          | (.returned, c1) =>
              let c2 := c1.set_command .RESULT
              (.returned, c2, some c2.to_string)
          | (.thrown what, c1) => (.thrown what, c1, none)
      | .NODATA | .ERROR =>
          let c1 := c.reset .GETDATA none
          (.returned, c1, some c1.to_string)
      | _ =>
          (.thrown "async_websocket_client::process_request(): Got unknown or invalid command",
            c, none)

/-- One client talking to session 0 of a server: the server process, the container of
the client, the message the client has written and the server has not read yet, and the
number of COMPUTE messages the server has written so far. -/
structure conversation where
  w : world
  client : command_container
  message : Option wire_string
  dispatched : Nat
  deriving DecidableEq

/-- The item every producer iteration of the conversations below fabricates. -/
def fresh_item : payload_base :=
  .random_container_payload [{ m_secret := 2 }, { m_secret := 1 }]

/-- Whether a message written by the server is a COMPUTE. -/
def is_compute : wire_string → Bool
  | .archive c => decide (c.m_command = .COMPUTE)
  | .malformed => false

/-- One exchange of a conversation in which the queue always has an item: a producer
iteration, the read of the message of the client by session 0, the write of the answer,
and the processing of that answer by the client. Nothing happens when the client has
written nothing or session 0 has no read outstanding. -/
def conversation_round (st : conversation) : conversation :=
  match st.message, st.w.sessions.get? 0 with
  | some message, some session =>
      if async_op.read ∈ session.outstanding then
        let w1 := step (.producer 0 fresh_item) st.w
        let w2 := step (.read 0 .success true message) w1
        let w3 := step (.written 0 false) w2
        match w2.sessions.get? 0 with
        | some session2 =>
            let answer := buffers_to_string session2.m_buffer
            let r := async_websocket_client.process_request st.client answer
            { w := w3, client := r.2.1, message := r.2.2,
              dispatched := if is_compute answer then st.dispatched + 1 else st.dispatched }
        | none => st
      else st
  | _, _ => st

/-- The server of `ready_world`. -/
def ready_server (n_max k : Nat) : async_websocket_server :=
  { configured_server n_max .container 4 with
    m_n_active_sessions := 1
    m_n_packages_served := k
    m_acceptor_is_open := true
    accept_outstanding := true }

/-- The world in which one session has signed on and waits for a request, after `k`
items have been served to it. -/
def ready_world (n_max k : Nat) : world :=
  { server := ready_server n_max k
    sessions :=
      [{ m_ws_is_open := true, m_ws_close_code := none, outstanding := [.read],
         m_command_container :=
           if k = 0 then { m_command := .NONE, m_payload_ptr := none }
           else { m_command := .COMPUTE, m_payload_ptr := some fresh_item },
         m_buffer := [] }]
    producers :=
      [{ produce_new_container := true,
         ptr := if k = 0 then none else some fresh_item,
         finished := false }]
    uncaught := none }

/-- The conversation of a well-behaved client after `k` exchanges: it opened with GETDATA
and has answered every COMPUTE with the RESULT of processing it. -/
def ready_conversation (n_max k : Nat) : conversation :=
  { w := ready_world n_max k
    client :=
      if k = 0 then { m_command := .GETDATA, m_payload_ptr := none }
      else { m_command := .RESULT, m_payload_ptr := some fresh_item.process }
    message :=
      some (command_container.to_string
        (if k = 0 then { m_command := .GETDATA, m_payload_ptr := none }
         else { m_command := .RESULT, m_payload_ptr := some fresh_item.process }))
    dispatched := k }

/-- The conversation once the server has stopped: the served-count is `served`, session 0
has nothing outstanding, and the client has written a RESULT nobody reads. -/
def stopped_conversation (n_max served : Nat) : conversation :=
  { w :=
      { server :=
          { ready_server n_max served with
            m_server_stopped := true
            m_acceptor_is_open := false }
        sessions :=
          [{ m_ws_is_open := true, m_ws_close_code := none, outstanding := [],
             m_command_container :=
               { m_command := .COMPUTE, m_payload_ptr := some fresh_item },
             m_buffer := [] }]
        producers :=
          [{ produce_new_container := true, ptr := some fresh_item, finished := false }]
        uncaught := none }
    client := { m_command := .RESULT, m_payload_ptr := some fresh_item.process }
    message :=
      some (command_container.to_string
        { m_command := .RESULT, m_payload_ptr := some fresh_item.process })
    dispatched := n_max + 1 }

/-! ## Runs of the server -/

/-- The state a run reaches: `run()` up to the event loop, then the events `es`. `none`
when `run()` does not get to the event loop. -/
def run_trace (cfg : async_websocket_server) (es : List event) : Option world :=
  match cfg.run false with
  | .ok (some w0) => some (run_events es w0)
  | _ => none

/-- The largest value `m_n_active_sessions` takes in the states the events `es` lead
through from `w`, the first and the last included. -/
def active_sessions_peak (es : List event) (w : world) : Nat :=
  match es with
  | [] => w.server.m_n_active_sessions
  | e :: rest => max w.server.m_n_active_sessions (active_sessions_peak rest (step e w))

/-- The request GETDATA as a client writes it. -/
def getdata_message : wire_string :=
  command_container.to_string { m_command := .GETDATA, m_payload_ptr := none }

/-- A client connects, the handshake succeeds, and its first frame is a COMPUTE with a
container payload. -/
def rogue_compute_trace : List event :=
  [.accepted false, .connection_accepted 0 false true,
    .read 0 .success true
      (command_container.to_string { m_command := .COMPUTE, m_payload_ptr := some fresh_item })]

/-- A client connects, the handshake succeeds, and its first frame is a RESULT whose
payload is not sorted. -/
def rogue_result_trace : List event :=
  [.accepted false, .connection_accepted 0 false true,
    .read 0 .success true
      (command_container.to_string { m_command := .RESULT, m_payload_ptr := some fresh_item })]

/-- Three connections are accepted; the handshakes of the first and the third succeed,
the one of the second fails; two items are produced; the first and the third session each
read a GETDATA. -/
def overshoot_trace : List event :=
  [.accepted false, .accepted false, .accepted false,
    .connection_accepted 0 false true, .connection_accepted 1 true false,
    .connection_accepted 2 false true,
    .producer 0 fresh_item, .producer 0 fresh_item,
    .read 0 .success true getdata_message, .read 2 .success true getdata_message]

/-- A session is accepted, signs on, and its read completes with the close of the
websocket by the peer. -/
def close_frame_trace : List event :=
  [.accepted false, .connection_accepted 0 false true, .read 0 .closed false .malformed]

/-- A session is accepted, signs on, answers a GETDATA with NODATA, and the write fails. -/
def write_error_trace : List event :=
  [.accepted false, .connection_accepted 0 false true,
    .read 0 .success true getdata_message, .written 0 true]

/-- A session is accepted, signs on, serves the item that trips the threshold 0, and
stops after its write. -/
def stop_after_write_trace : List event :=
  [.accepted false, .connection_accepted 0 false true, .producer 0 fresh_item,
    .read 0 .success true getdata_message, .written 0 false]

/-- A first session is accepted and signs on; the handshake of a second one fails. -/
def failed_handshake_trace : List event :=
  [.accepted false, .accepted false, .connection_accepted 0 false true,
    .connection_accepted 1 true false]

/-- The only connection is accepted and its handshake fails. -/
def lone_failed_handshake_trace : List event :=
  [.accepted false, .connection_accepted 0 true false]

/-- The state of a run with the largest threshold in which 2^64 - 1 items have been served
to one session and one more item has just been queued. -/
def overflow_world : world :=
  step (.producer 0 fresh_item) (ready_world (SIZE_MODULUS - 1) (SIZE_MODULUS - 1))

/-- The read of the next RESULT of the client by session 0. -/
def overflow_event : event :=
  .read 0 .success true
    (command_container.to_string
      { m_command := .RESULT, m_payload_ptr := some fresh_item.process })

/-! ## The queue and the producers, observed -/

/-- An operation on the work queue. -/
inductive queue_op where
  | push (item : payload_base)
  | pop
  deriving DecidableEq

/-- The queue after one operation. -/
def queue_apply (max_queue_size : Nat) (queue : List payload_base) :
    queue_op → List payload_base
  | .push item => (queue_push max_queue_size queue item).2
  | .pop => (queue_pop queue none).2.2

/-- The queue after a sequence of operations on the empty queue the constructor makes. -/
def queue_run (max_queue_size : Nat) (ops : List queue_op) : List payload_base :=
  ops.foldl (queue_apply max_queue_size) []

/-- The item a producer iteration offers to `push`: the one just fabricated when
`produce_new_container` is set, the one it still holds otherwise. -/
def offered_item (fresh : payload_base) (p : producer_thread) : Option payload_base :=
  if p.produce_new_container then some fresh else p.ptr

/-- A producer thread together with what it has done so far: the items it has fabricated
and the items it has pushed successfully, oldest first. -/
structure producer_record where
  thread : producer_thread
  fabricated : List payload_base
  pushed : List payload_base
  deriving DecidableEq

/-- The record of a thread that has not started its loop. -/
def producer_record.init : producer_record :=
  { thread := producer_thread.init, fabricated := [], pushed := [] }

/-- One loop iteration, recorded. The iteration meets the server in the state `input.2`
(other threads push and pop in between) and `new` would yield `input.1`; an item counts
as fabricated when the iteration runs with `produce_new_container` set, and as pushed
when the queue has grown by it. -/
def producer_record.iterate
    (iteration : payload_base → producer_thread → async_websocket_server →
      producer_thread × async_websocket_server)
    (record : producer_record) (input : payload_base × async_websocket_server) :
    producer_record :=
  { thread := (iteration input.1 record.thread input.2).1
    fabricated :=
      if record.thread.produce_new_container then record.fabricated ++ [input.1]
      else record.fabricated
    pushed :=
      record.pushed ++
        (iteration input.1 record.thread input.2).2.m_payload_queue.drop
          input.2.m_payload_queue.length }

/-- The item a thread holds back for its next iteration, if any. -/
def producer_thread.held (p : producer_thread) : List payload_base :=
  if p.produce_new_container then [] else p.ptr.toList

/-- The record of a running thread is consistent: the loop has not been left, a thread
with `produce_new_container` cleared holds an item, and the fabricated items are the
pushed ones followed by the one held back. -/
def producer_record.consistent (record : producer_record) : Prop :=
  record.thread.finished = false ∧
  (record.thread.produce_new_container = false → record.thread.ptr ≠ none) ∧
  record.fabricated = record.pushed ++ record.thread.held

/-- The two producer loops, as iterations. -/
def is_producer_loop
    (iteration : payload_base → producer_thread → async_websocket_server →
      producer_thread × async_websocket_server) : Prop :=
  iteration = async_websocket_server.container_payload_producer ∨
  iteration = async_websocket_server.sleep_payload_producer

/-- The record of a thread after the iterations `inputs`, first to last. -/
def producer_record.run
    (iteration : payload_base → producer_thread → async_websocket_server →
      producer_thread × async_websocket_server)
    (inputs : List (payload_base × async_websocket_server)) : producer_record :=
  inputs.foldl (producer_record.iterate iteration) producer_record.init

/-- A queue of capacity 1 that is full. -/
def full_server : async_websocket_server :=
  { configured_server 3 .container 1 with m_payload_queue := [.sleep_payload 1] }

/-! ## The operations outstanding on a session -/

/-- The operations outstanding on session `i`; none on a session that does not exist. -/
def outstanding_at (w : world) (i : Nat) : List async_op :=
  match w.sessions.get? i with
  | some session => session.outstanding
  | none => []

/-- The data operation of session `i` that the event `e` completes successfully in the
state `w`, if it is one: a read or write that is outstanding and completes without error
while the event loop is running. -/
def successful_completion (i : Nat) (e : event) (w : world) : Option async_op :=
  match w.uncaught, e with
  | none, .read j .success _ _ =>
      if j = i ∧ async_op.read ∈ outstanding_at w i then some .read else none
  | none, .written j false =>
      if j = i ∧ async_op.write ∈ outstanding_at w i then some .write else none
  | _, _ => none

/-- The successful data completions of session `i` while the events `es` are executed
from `w`, in order. -/
def successful_completions (i : Nat) : List event → world → List async_op
  | [], _ => []
  | e :: es, w =>
      (successful_completion i e w).toList ++ successful_completions i es (step e w)

/-- The sequence starts with `expected` and goes on read, write, read, write in turn. -/
def alternating : async_op → List async_op → Prop
  | _, [] => True
  | expected, op :: rest =>
      op = expected ∧ (expected = .read ∨ expected = .write) ∧
        alternating (if expected = .read then .write else .read) rest

/-- What the completions still to come of a session look like, given what is outstanding
on it (`none`: the session has not been created yet): nothing after a session with
nothing outstanding, a write first when a write is outstanding, a read first otherwise. -/
def follows (pending : Option (List async_op)) (l : List async_op) : Prop :=
  match pending with
  | some [] => l = []
  | some [.write] => alternating .write l
  | _ => alternating .read l

/-- What is outstanding on session `i`, `none` for a session that does not exist. -/
def pending_at (w : world) (i : Nat) : Option (List async_op) :=
  (w.sessions.get? i).map (fun session => session.outstanding)

/-- The moves of one session in one step, as what is outstanding before, the successful
data completion the step is (if any), and what is outstanding after. -/
def session_transition (before : Option (List async_op)) (done : Option async_op)
    (after : Option (List async_op)) : Prop :=
  (before = none ∧ done = none ∧ after = some [.accept]) ∨
  (before = some [.accept] ∧ done = none ∧ (after = some [.read] ∨ after = some [])) ∨
  (before = some [.read] ∧ done = some .read ∧ (after = some [.write] ∨ after = some [])) ∨
  (before = some [.read] ∧ done = none ∧ after = some []) ∨
  (before = some [.write] ∧ done = some .write ∧ (after = some [.read] ∨ after = some [])) ∨
  (before = some [.write] ∧ done = none ∧ after = some []) ∨
  (after = before ∧ done = none)

/-! ## async_websocket_server.hpp: the client as a whole -/

/-- The call `dist(engine)` of a `std::uniform_int_distribution<>(a, b)`: by the C++
standard an integer between `a` and `b`, both included; `raw` stands for what the engine
yields. -/
def uniform_int_distribution (a b : Int) (raw : Nat) : Int :=
  a + (raw : Int) % (b - a + 1)

/-- The class `async_websocket_client` from the moment the websocket handshake has been
started: the container, the two buffers, whether the handshake is outstanding, the reads
and writes outstanding on `m_ws`, the `process_request` tasks posted to `m_io_context`
(each with its `in_data`), and the exception that has left a handler, if any. Two
records of what it has done: the messages handed to `async_write` and the milliseconds
passed to `sleep_for`, oldest first. -/
structure async_websocket_client where
  m_command_container : command_container
  m_out_buffer : List wire_string
  m_in_buffer : List wire_string
  handshake_outstanding : Bool
  outstanding : List async_op
  posted : List wire_string
  uncaught : Option String
  sent : List wire_string
  slept : List Int
  deriving DecidableEq

/-- The client once `when_connected` has started the handshake. -/
def async_websocket_client.connected : async_websocket_client :=
  { m_command_container := { m_command := .NONE, m_payload_ptr := none }
    m_out_buffer := []
    m_in_buffer := []
    handshake_outstanding := true
    outstanding := []
    posted := []
    uncaught := none
    sent := []
    slept := [] }

/-- The method `async_websocket_client::async_start_write(message)`: the out-buffer is
cleared and filled with the message, and the write is started. -/
def async_websocket_client.async_start_write (message : wire_string)
    (self : async_websocket_client) : async_websocket_client :=
  { self with
    m_out_buffer := [message]
    outstanding := self.outstanding ++ [.write]
    sent := self.sent ++ [message] }

/-- The method `async_websocket_client::async_start_read()`. -/
def async_websocket_client.async_start_read (self : async_websocket_client) :
    async_websocket_client :=
  { self with outstanding := self.outstanding ++ [.read] }

/-- The handler `async_websocket_client::when_handshake_succeeded(ec)`: the container is
reset to GETDATA and written, and the read cycle is started. -/
def async_websocket_client.when_handshake_succeeded (ec : Bool)
    (self : async_websocket_client) : async_websocket_client :=
  let self0 := { self with handshake_outstanding := false }
  if ec then self0
  else
    let c := self0.m_command_container.reset .GETDATA none
    ({ self0 with m_command_container := c }.async_start_write c.to_string).async_start_read

/-- The handler `async_websocket_client::when_written(ec, bytes)`. -/
def async_websocket_client.when_written (ec : Bool) (self : async_websocket_client) :
    async_websocket_client :=
  let self0 := { self with outstanding := self.outstanding.erase .write }
  if ec then self0 else { self0 with m_out_buffer := [] }

/-- The handler `async_websocket_client::when_read(ec, bytes)`; `message` is what the
read put into the in-buffer. The processing is posted, the buffer cleared and the next
read started. -/
def async_websocket_client.when_read (ec : Bool) (message : wire_string)
    (self : async_websocket_client) : async_websocket_client :=
  let self0 := { self with outstanding := self.outstanding.erase .read }
  if ec then self0
  else
    let self1 := { self0 with m_in_buffer := self0.m_in_buffer ++ [message] }
    { self1 with
      posted := self1.posted ++ [buffers_to_string self1.m_in_buffer]
      m_in_buffer := [] }.async_start_read

/-- The task `async_websocket_client::process_request(in_data)` on the whole client;
`raw` is what the random engine yields should the distribution be called. -/
def async_websocket_client.process_request_task (raw : Nat) (in_data : wire_string)
    (self : async_websocket_client) : completion × async_websocket_client :=
  match self.m_command_container.from_string in_data with
  | .error what => (.thrown what, self)
  | .ok c =>
      let self1 := { self with m_command_container := c }
      match self1.m_command_container.get_command with
      | .COMPUTE =>
          match self1.m_command_container.process with
          | (.returned, c1) =>
              let c2 := c1.set_command .RESULT
              (.returned, { self1 with m_command_container := c2 }.async_start_write c2.to_string)
          | (.thrown what, c1) => (.thrown what, { self1 with m_command_container := c1 })
      | .NODATA | .ERROR =>
          let self2 := { self1 with slept := self1.slept ++ [uniform_int_distribution 10 50 raw] }
          let c1 := self2.m_command_container.reset .GETDATA none
          (.returned, { self2 with m_command_container := c1 }.async_start_write c1.to_string)
      | _ =>
          (.thrown "async_websocket_client::process_request(): Got unknown or invalid command",
            self1)

/-- The completions and tasks the event loop of the client can execute; `process k raw`
runs the posted task number `k`. -/
inductive client_event where
  | handshake_succeeded (ec : Bool)
  | read (ec : Bool) (message : wire_string)
  | written (ec : Bool)
  | process (k : Nat) (raw : Nat)
  deriving DecidableEq

/-- One step of the running client: the handler of an outstanding operation or a posted
task. Nothing runs once an exception has left the event loop. -/
def client_step (e : client_event) (c : async_websocket_client) : async_websocket_client :=
  match c.uncaught with
  | some _ => c
  | none =>
      match e with
      | .handshake_succeeded ec =>
          if c.handshake_outstanding then c.when_handshake_succeeded ec else c
      | .read ec message =>
          if async_op.read ∈ c.outstanding then c.when_read ec message else c
      | .written ec =>
          if async_op.write ∈ c.outstanding then c.when_written ec else c
      | .process k raw =>
          match c.posted.get? k with
          | none => c
          | some in_data =>
              match async_websocket_client.process_request_task raw in_data
                  { c with posted := c.posted.eraseIdx k } with
              | (.returned, c1) => c1
              | (.thrown what, c1) => { c1 with uncaught := some what }

/-- Runs a sequence of client events from the connected client, first to last. -/
def client_run (es : List client_event) : async_websocket_client :=
  es.foldl (fun acc e => client_step e acc) async_websocket_client.connected

/-- The containers a server session may send: COMPUTE with a payload, NODATA without. -/
def server_message (m : wire_string) : Prop :=
  ∃ c, m = .archive c ∧
    ((c.m_command = .COMPUTE ∧ c.m_payload_ptr ≠ none) ∨
      (c.m_command = .NODATA ∧ c.m_payload_ptr = none))

/-- The containers a client may send after its first: RESULT with a payload, GETDATA
without. -/
def client_message (m : wire_string) : Prop :=
  ∃ c, m = .archive c ∧
    ((c.m_command = .RESULT ∧ c.m_payload_ptr ≠ none) ∨
      (c.m_command = .GETDATA ∧ c.m_payload_ptr = none))

/-- What a session hands to `async_write` is a single message the server may send. -/
def session_sends_ok (session : async_websocket_server_session) : Prop :=
  async_op.write ∈ session.outstanding →
    ∃ m, session.m_buffer = [m] ∧ server_message m

/-- The messages a client has sent follow the grammar: none yet, with nothing outstanding
and nothing posted, or a first (GETDATA, no payload) followed by messages the client may
send. -/
def client_sent_ok (c : async_websocket_client) : Prop :=
  (c.sent = [] ∧ c.outstanding = [] ∧ c.posted = []) ∨
  ∃ rest,
    c.sent = command_container.to_string { m_command := .GETDATA, m_payload_ptr := none } ::
      rest ∧
    ∀ m ∈ rest, client_message m

/-- The world `run()` starts the event loop with for three packages, containers and a
queue of four. -/
def example_start : world :=
  { server :=
      { configured_server 3 .container 4 with
        m_acceptor_is_open := true, accept_outstanding := true }
    sessions := []
    producers := [producer_thread.init]
    uncaught := none }

/-- A session is accepted, signs on and reads a GETDATA while the queue is empty. -/
def nodata_trace : List event :=
  [.accepted false, .connection_accepted 0 false true,
    .read 0 .success true getdata_message]

/-- A client whose handshake succeeds, that reads a NODATA and processes it. -/
def client_nodata_trace : List client_event :=
  [.handshake_succeeded false,
    .read false (command_container.to_string { m_command := .NODATA, m_payload_ptr := none }),
    .process 0 7]

/-! ## The stop flag and the accept -/

/-- The states of one run in which no increment of the served-count has wrapped: every
step is taken from a state whose counter is below the largest `std::size_t`. -/
inductive reachable_without_overflow (cfg : async_websocket_server) : world → Prop where
  | start (w : world) (h : cfg.run false = .ok (some w)) : reachable_without_overflow cfg w
  | next (e : event) (w : world) (h : reachable_without_overflow cfg w)
      (hroom : w.server.m_n_packages_served + 1 < SIZE_MODULUS) :
      reachable_without_overflow cfg (step e w)

/-- The event loop has no work left: no accept is outstanding on the acceptor and no
operation on any session. -/
def out_of_work (w : world) : Prop :=
  w.server.accept_outstanding = false ∧ ∀ session ∈ w.sessions, session.outstanding = []

/-- The world `run()` starts the event loop with for threshold 0, containers and a queue
of four. -/
def zero_start : world :=
  { server :=
      { configured_server 0 .container 4 with
        m_acceptor_is_open := true, accept_outstanding := true }
    sessions := []
    producers := [producer_thread.init]
    uncaught := none }

/-! ## The operations outstanding on the client -/

/-- The frame of a server that has no work. -/
def nodata_message : wire_string :=
  command_container.to_string { m_command := .NODATA, m_payload_ptr := none }

/-- The handshake succeeds, the GETDATA is written, and the peer then sends two frames
without waiting for a reply to the first; both are processed. -/
def burst_trace : List client_event :=
  [.handshake_succeeded false, .written false, .read false nodata_message,
    .read false nodata_message, .process 0 7, .process 0 9]

/-- The events of a client whose peer answers the GETDATA with one NODATA frame, which
the client then processes. -/
def serial_trace : List client_event :=
  [.handshake_succeeded false, .written false, .read false nodata_message, .process 0 7]

/-- The event is no frame that arrives while the client still has a write outstanding or
a frame waiting to be processed: the peer sends a frame only once the client has written
its answer to the previous one. -/
def peer_waits (e : client_event) (c : async_websocket_client) : Prop :=
  match e with
  | .read false _ => async_op.write ∉ c.outstanding ∧ c.posted = []
  | _ => True

/-- Every event of the sequence, executed from `c`, is one of a peer that waits. -/
def peer_serial : List client_event → async_websocket_client → Prop
  | [], _ => True
  | e :: es, c => peer_waits e c ∧ peer_serial es (client_step e c)

/-- The reads of the client are in order: at most one is outstanding, and nothing is
outstanding or posted while the handshake is. -/
def client_reads_ok (c : async_websocket_client) : Prop :=
  c.outstanding.count .read ≤ 1 ∧
  (c.handshake_outstanding = true → c.outstanding = [] ∧ c.posted = [])

/-- The writes of the client are in order: a write outstanding and a frame waiting to be
processed exclude each other, and there is at most one of either. -/
def client_writes_ok (c : async_websocket_client) : Prop :=
  c.outstanding.count .write + c.posted.length ≤ 1

/-! ## main.cpp and the start of the server -/

/-- The largest value of `int` (32 bits). -/
def INT_MAX : Nat := 2 ^ 31 - 1

/-- The constructor of `async_websocket_server`, the address and the port left out.
`hardware_concurrency` is what `std::thread::hardware_concurrency()` returns (0 when the
value is not computable). The member `m_io_context` is initialised with
`boost::numeric_cast<int>(m_n_listener_threads)`, which throws when the count does not
fit an `int`. -/
def async_websocket_server.make (hardware_concurrency n_context_threads n_producer_threads
    n_max_packages_served : Nat) (type : payload_type) (container_size : Nat)
    (sleep_time : double) (full_queue_sleep_ms max_queue_size : Nat) :
    Except String async_websocket_server :=
  let n_listener_threads :=
    if n_context_threads > 0 then n_context_threads else hardware_concurrency
  if INT_MAX < n_listener_threads then .error "bad numeric conversion: positive overflow"
  else
    .ok
      { m_n_listener_threads := n_listener_threads
        m_n_active_sessions := 0
        m_n_packages_served := 0
        m_n_max_packages_served := n_max_packages_served
        m_full_queue_sleep_ms := full_queue_sleep_ms
        m_max_queue_size := max_queue_size
        m_server_stopped := false
        m_payload_type := type
        m_n_producer_threads :=
          (if n_producer_threads > 0 then n_producer_threads else hardware_concurrency)
        m_container_size := container_size
        m_sleep_time := sleep_time
        m_payload_queue := []
        m_acceptor_is_open := false
        accept_outstanding := false }

/-- The number of threads `run()` puts into `m_context_thread_vec`: the argument of
`reserve` and the bound of the loop over `t_cnt`, `m_n_listener_threads - 1` computed in
`std::size_t`. -/
def async_websocket_server.n_context_threads_spawned (self : async_websocket_server) : Nat :=
  size_t_decrement self.m_n_listener_threads

/-- The number of threads that call `m_io_context.run()`: the spawned ones and the thread
that called `run()`. -/
def async_websocket_server.n_event_loop_threads (self : async_websocket_server) : Nat :=
  self.n_context_threads_spawned + 1

/-- The server the constructor makes when both thread counts are left at 0 and the
hardware concurrency is not computable. -/
def unknown_concurrency_server : async_websocket_server :=
  { configured_server 3 .container 4 with
    m_n_listener_threads := 0
    m_n_producer_threads := 0 }

/-! ## The constructor of a random container -/

/-- The number of values of `unsigned int` (32 bits). -/
def UINT_MODULUS : Nat := 2 ^ 32

/-- The method `random_container_payload::add(p)`. -/
def random_container_payload.add (m_data : List stored_number) (p : stored_number) :
    List stored_number :=
  m_data ++ [p]

/-- The loop `for (unsigned int i = 0; i < size; i++)` of the constructor of
`random_container_payload`, from the counter `i` on: the comparison is made in
`std::size_t`, the increment in `unsigned int`. `draw k` is the value the call number `k`
of `dist(rng)` yields, a number. The first argument bounds the number of loop tests; `none` says
that the loop has not been left within the bound. -/
def random_container_payload.constructor_loop (size : Nat) (draw : Nat → Int) :
    Nat → Nat → List stored_number → Option (List stored_number)
  | 0, _, _ => none
  | fuel + 1, i, m_data =>
      if i < size then
        random_container_payload.constructor_loop size draw fuel ((i + 1) % UINT_MODULUS)
          (random_container_payload.add m_data { m_secret := draw m_data.length })
      else some m_data

/-- The constructor `random_container_payload(size, dist, rng)`, with a bound on the
number of loop tests. -/
def random_container_payload.make (size : Nat) (draw : Nat → Int) (fuel : Nat) :
    Option payload_base :=
  (random_container_payload.constructor_loop size draw fuel 0 []).map
    payload_base.random_container_payload

/-! ## The producers after the stop -/

/-- The events that are loop iterations of producer threads. -/
def is_producer_event : event → Bool
  | .producer _ _ => true
  | _ => false

/-- The number of loop iterations of the producer thread `j` among the events. -/
def iterations_of (j : Nat) : List event → Nat
  | [] => 0
  | .producer k _ :: es => (if k = j then 1 else 0) + iterations_of j es
  | _ :: es => iterations_of j es

/-- The producer thread `j` has left its loop. -/
def producer_finished (w : world) (j : Nat) : Prop :=
  ∃ p, w.producers.get? j = some p ∧ p.finished = true

/-- A stopped server whose queue has one free slot, with one container producer that has
not yet run. -/
def stopping_world : world :=
  { server :=
      { configured_server 3 .container 2 with
        m_payload_queue := [.sleep_payload 1]
        m_server_stopped := true }
    sessions := []
    producers := [producer_thread.init]
    uncaught := none }

/-! ## The sign-off on several threads -/

/-- Two connections are accepted and the handshake of the first succeeds: the first
session has signed on and reads, the handshake of the second is outstanding. -/
def race_start_trace : List event :=
  [.accepted false, .accepted false, .connection_accepted 0 false true]

/-- Where a call of the sign-on lambda with `sign_on = false` stands: before the
comparison `0 == m_n_active_sessions`, after the comparison has found the count different
from 0, or at its end. The comparison and the decrement `m_n_active_sessions--` are two
operations on the atomic counter, and the sessions run on strands of their own on the
threads of the event loop, so that operations of other calls can come between them. -/
inductive sign_off_call where
  | called
  | checked
  | returned
  | thrown
  deriving DecidableEq

/-- The next operation of a call of the lambda with `sign_on = false`, on the counter as
it is at that moment. -/
def sign_off_call.advance (call : sign_off_call) (m_n_active_sessions : Nat) :
    sign_off_call × Nat :=
  match call with
  | .called =>
      if 0 = m_n_active_sessions then (.thrown, m_n_active_sessions)
      else (.checked, m_n_active_sessions)
  | .checked => (.returned, size_t_decrement m_n_active_sessions)
  | .returned => (.returned, m_n_active_sessions)
  | .thrown => (.thrown, m_n_active_sessions)

/-- Calls of the lambda with `sign_on = false` that run on different threads: the
schedule names, operation by operation, the call that runs next. -/
def sign_off_run : List Nat → List sign_off_call × Nat → List sign_off_call × Nat
  | [], state => state
  | k :: schedule, (calls, m_n_active_sessions) =>
      match calls.get? k with
      | none => sign_off_run schedule (calls, m_n_active_sessions)
      | some call =>
          sign_off_run schedule
            (calls.set k (call.advance m_n_active_sessions).1,
              (call.advance m_n_active_sessions).2)

/-- How a call has ended, as a `sign_off_call`. -/
def sign_off_call.of_completion : completion → sign_off_call
  | .returned => .returned
  | .thrown _ => .thrown

/-! ## The archive -/

/-- Modelled from the spec: the archive classes of Boost.Serialization are not among the
sources; section 4.1 requires of the codec that it preserves the command tag, the payload
variant and its fields. One item of an archive, as the `serialize` functions hand them
over: the command, a null pointer, the exported class of the object a pointer leads to,
the size of a vector, or a `double`. -/
inductive archive_item where
  | command (m_command : payload_command)
  | null_pointer
  | class_random_container_payload
  | class_sleep_payload
  | count (n : Nat)
  | value (x : double)
  deriving DecidableEq

/-- Modelled from the spec: what the archive stores for the vector `m_data`, element by
element; `stored_number::serialize` names the one field `m_secret`. -/
def stored_number.serialize : List stored_number → List archive_item
  | [] => []
  | x :: rest => .value x.m_secret :: stored_number.serialize rest

/-- Modelled from the spec: what the archive stores for the payload behind
`m_payload_ptr`: the exported class, then the fields that `serialize` of that class
names, which are `m_data` for `random_container_payload` and `m_sleep_time` for
`sleep_payload` (`payload_base::serialize` names none). -/
def payload_base.serialize : payload_base → List archive_item
  | .random_container_payload m_data =>
      .class_random_container_payload :: .count m_data.length ::
        stored_number.serialize m_data
  | .sleep_payload m_sleep_time => [.class_sleep_payload, .value m_sleep_time]

/-- Modelled from the spec: what the archive stores for a container;
`command_container::serialize` names `m_command` and then `m_payload_ptr`. -/
def command_container.serialize (self : command_container) : List archive_item :=
  .command self.m_command ::
    (match self.m_payload_ptr with
      | none => [.null_pointer]
      | some payload => payload.serialize)

/-- Modelled from the spec: reading `n` elements of the vector `m_data` back from an
archive; the result is the elements and the items that follow them. -/
def stored_number.load : Nat → List archive_item →
    Option (List stored_number × List archive_item)
  | 0, items => some ([], items)
  | n + 1, .value x :: items =>
      match stored_number.load n items with
      | some (m_data, rest) => some ({ m_secret := x } :: m_data, rest)
      | none => none
  | _ + 1, _ => none

/-- Modelled from the spec: reading the pointer `m_payload_ptr` back from an archive;
the result is the pointer and the items that follow. -/
def payload_base.load : List archive_item →
    Option (Option payload_base × List archive_item)
  | .null_pointer :: rest => some (none, rest)
  | .class_random_container_payload :: .count n :: items =>
      match stored_number.load n items with
      | some (m_data, rest) => some (some (.random_container_payload m_data), rest)
      | none => none
  | .class_sleep_payload :: .value m_sleep_time :: rest =>
      some (some (.sleep_payload m_sleep_time), rest)
  | _ => none

/-- Modelled from the spec: reading a container back from an archive, `m_command` and
then `m_payload_ptr`; items that do not make up exactly one container are a codec
error. -/
def command_container.load : List archive_item → Except String command_container
  | .command m_command :: items =>
      match payload_base.load items with
      | some (m_payload_ptr, []) =>
          .ok { m_command := m_command, m_payload_ptr := m_payload_ptr }
      | _ => .error "archive exception"
  | _ => .error "archive exception"

/-- Modelled from the spec: the message that the items of an archive stand for. -/
def wire_string.of_archive (items : List archive_item) : wire_string :=
  match command_container.load items with
  | .ok c => .archive c
  | .error _ => .malformed

/-! ## Theorems -/

/-- The state in which `run()` enters the event loop. -/
theorem run_start (cfg : async_websocket_server) (w0 : world)
    (hrun : cfg.run false = .ok (some w0)) :
    w0 =
      { server :=
          { cfg with
            m_n_packages_served := 0
            m_server_stopped := false
            m_acceptor_is_open := true
            accept_outstanding := true }
        sessions := []
        producers := List.replicate cfg.m_n_producer_threads producer_thread.init
        uncaught := none } ∧
    cfg.m_payload_type ≠ .command ∧
    cfg.m_n_producer_threads ≤ THREAD_VECTOR_MAX_SIZE ∧
    size_t_decrement cfg.m_n_listener_threads ≤ THREAD_VECTOR_MAX_SIZE := by
  unfold async_websocket_server.run at hrun
  simp only [Bool.false_eq_true, if_false] at hrun
  by_cases hp : THREAD_VECTOR_MAX_SIZE < cfg.m_n_producer_threads
  · rw [if_pos hp] at hrun
    cases hrun
  · rw [if_neg hp] at hrun
    by_cases hl : THREAD_VECTOR_MAX_SIZE < size_t_decrement cfg.m_n_listener_threads
    · cases ht : cfg.m_payload_type <;> rw [ht] at hrun <;> simp only [if_pos hl] at hrun <;>
        cases hrun
    · cases ht : cfg.m_payload_type <;> rw [ht] at hrun <;> simp only [if_neg hl] at hrun
      · injection hrun with hrun
        injection hrun with hrun
        exact ⟨hrun.symm, by simp, by omega, by omega⟩
      · injection hrun with hrun
        injection hrun with hrun
        exact ⟨hrun.symm, by simp, by omega, by omega⟩
      · cases hrun

/-- What `getAndSerializeWorkItem` computes, in one equation. -/
theorem getAndSerializeWorkItem_eq {σ : Type} (cb : session_callbacks σ)
    (self : async_websocket_server_session) (s : σ) :
    self.getAndSerializeWorkItem cb s =
      ((work_item_container (cb.f_get_next_payload_item none s).1
          (cb.f_get_next_payload_item none s).2.1).to_string,
        { self with m_command_container :=
            (work_item_container (cb.f_get_next_payload_item none s).1
              (cb.f_get_next_payload_item none s).2.1) },
        (cb.f_get_next_payload_item none s).2.2) := by
  unfold async_websocket_server_session.getAndSerializeWorkItem
  rcases h : cb.f_get_next_payload_item none s with ⟨b, p, s1⟩
  cases b <;> cases p <;> simp [work_item_container, command_container.reset]

/-- What `process_request` computes on a request it accepts. -/
theorem process_request_accepted {σ : Type} (cb : session_callbacks σ)
    (self : async_websocket_server_session) (s : σ) (c : command_container)
    (hdec : buffers_to_string self.m_buffer = .archive c)
    (hcmd : c.m_command = .GETDATA ∨ c.m_command = .ERROR ∨
      (c.m_command = .RESULT ∧ c.is_processed = true)) :
    self.process_request cb s =
      (.returned,
        { self with
          m_command_container :=
            (work_item_container (cb.f_get_next_payload_item none s).1
              (cb.f_get_next_payload_item none s).2.1)
          m_buffer :=
            [(work_item_container (cb.f_get_next_payload_item none s).1
              (cb.f_get_next_payload_item none s).2.1).to_string] },
        (cb.f_get_next_payload_item none s).2.2) := by
  obtain ⟨cmd, ptr⟩ := c
  simp only at hcmd
  unfold async_websocket_server_session.process_request
  rw [hdec]
  rcases hcmd with h | h | ⟨h, hp⟩ <;> subst h <;>
    simp [command_container.from_string, command_container.get_command,
      getAndSerializeWorkItem_eq, *]

/-- C1: for a request whose decoded command is GETDATA, ERROR, or RESULT with a processed
payload, `process_request` returns, the callback has been applied exactly once (the
provider state is the one after one call, and a call counter goes up by one), the buffer
holds the container (COMPUTE, item) when the callback returned true with a non-null item
and the container (NODATA, no payload) otherwise, and the whole outcome equals the outcome
for a plain GETDATA request in the same state. -/
theorem C1_process_request_response {σ : Type} (cb : session_callbacks σ)
    (self : async_websocket_server_session) (s : σ) (n : Nat) (c : command_container)
    (hdec : buffers_to_string self.m_buffer = .archive c)
    (hcmd : c.m_command = .GETDATA ∨ c.m_command = .ERROR ∨
      (c.m_command = .RESULT ∧ c.is_processed = true)) :
    (self.process_request cb s).1 = .returned ∧
    (self.process_request cb s).2.2 = (cb.f_get_next_payload_item none s).2.2 ∧
    (self.process_request (counting_callbacks cb) (s, n)).2.2.2 = n + 1 ∧
    (∀ item : payload_base,
      (cb.f_get_next_payload_item none s).1 = true →
      (cb.f_get_next_payload_item none s).2.1 = some item →
      (self.process_request cb s).2.1.m_buffer =
        [command_container.to_string { m_command := .COMPUTE, m_payload_ptr := some item }]) ∧
    (¬ ((cb.f_get_next_payload_item none s).1 = true ∧
        (cb.f_get_next_payload_item none s).2.1 ≠ none) →
      (self.process_request cb s).2.1.m_buffer =
        [command_container.to_string { m_command := .NODATA, m_payload_ptr := none }]) ∧
    self.process_request cb s =
      async_websocket_server_session.process_request cb
        { self with m_buffer := [command_container.to_string
            { m_command := .GETDATA, m_payload_ptr := none }] } s := by
  have hG : buffers_to_string
      ({ self with m_buffer := [command_container.to_string
            { m_command := .GETDATA, m_payload_ptr := none }] } :
        async_websocket_server_session).m_buffer =
      .archive { m_command := .GETDATA, m_payload_ptr := none } := rfl
  rw [process_request_accepted cb self s c hdec hcmd,
    process_request_accepted (counting_callbacks cb) self (s, n) c hdec hcmd,
    process_request_accepted cb _ s _ hG (Or.inl rfl)]
  refine ⟨rfl, rfl, rfl, ?_, ?_, rfl⟩
  · intro item h1 h2
    simp [h1, h2, work_item_container]
  · intro h
    rcases hr : cb.f_get_next_payload_item none s with ⟨b, p, s1⟩
    rw [hr] at h
    cases b <;> cases p <;> simp_all [work_item_container]

/-- What `process_request` does on a request it rejects: it throws, and the provider of
the callbacks is left as it was. -/
theorem process_request_rejected {σ : Type} (cb : session_callbacks σ)
    (self : async_websocket_server_session) (s : σ) (c : command_container)
    (hdec : buffers_to_string self.m_buffer = .archive c)
    (hcmd : ¬ (c.m_command = .GETDATA ∨ c.m_command = .ERROR ∨
      (c.m_command = .RESULT ∧ c.is_processed = true))) :
    (∃ what, (self.process_request cb s).1 = .thrown what) ∧
    (self.process_request cb s).2.2 = s := by
  obtain ⟨cmd, ptr⟩ := c
  simp only at hcmd
  unfold async_websocket_server_session.process_request
  rw [hdec]
  cases cmd <;>
    simp_all [command_container.from_string, command_container.get_command]

/-- C2: for a successfully decoded incoming container, `process_request` of a server
session throws if and only if the command is none of GETDATA, ERROR, RESULT, or it is
RESULT and the payload is absent or not processed; and whenever it throws, the server is
left as it was: the queue, `m_n_packages_served` and `m_server_stopped` are unchanged. -/
theorem C2_process_request_failure (self : async_websocket_server_session)
    (srv : async_websocket_server) (c : command_container)
    (hdec : buffers_to_string self.m_buffer = .archive c) :
    ((∃ what, (self.process_request server_callbacks srv).1 = .thrown what) ↔
      ((c.m_command ≠ .GETDATA ∧ c.m_command ≠ .ERROR ∧ c.m_command ≠ .RESULT) ∨
        (c.m_command = .RESULT ∧
          (c.m_payload_ptr = none ∨
            ∃ p, c.m_payload_ptr = some p ∧ p.is_processed = false)))) ∧
    (∀ what, (self.process_request server_callbacks srv).1 = .thrown what →
      (self.process_request server_callbacks srv).2.2.m_payload_queue = srv.m_payload_queue ∧
      (self.process_request server_callbacks srv).2.2.m_n_packages_served =
        srv.m_n_packages_served ∧
      (self.process_request server_callbacks srv).2.2.m_server_stopped =
        srv.m_server_stopped ∧
      (self.process_request server_callbacks srv).2.2 = srv) := by
  by_cases hcmd : c.m_command = .GETDATA ∨ c.m_command = .ERROR ∨
      (c.m_command = .RESULT ∧ c.is_processed = true)
  · have hok := process_request_accepted server_callbacks self srv c hdec hcmd
    constructor
    · constructor
      · rintro ⟨what, hw⟩
        rw [hok] at hw
        cases hw
      · intro h
        exfalso
        obtain ⟨cmd, ptr⟩ := c
        rcases hcmd with h1 | h1 | ⟨h1, h2⟩
        · simp_all
        · simp_all
        · cases ptr <;> simp_all [command_container.is_processed]
    · intro what hw
      rw [hok] at hw
      cases hw
  · obtain ⟨hthrow, hsame⟩ := process_request_rejected server_callbacks self srv c hdec hcmd
    constructor
    · constructor
      · intro _
        obtain ⟨cmd, ptr⟩ := c
        cases cmd <;> cases ptr <;> simp_all [command_container.is_processed]
      · intro _
        exact hthrow
    · intro what _
      rw [hsame]
      exact ⟨rfl, rfl, rfl, rfl⟩

/-- C4, as stated, fails where the counter is the largest `std::size_t`: the pop succeeds
and the post-increment wraps `m_n_packages_served` to 0 instead of increasing it by 1. -/
theorem C4_counterexample :
    (saturated_server.getNextPayloadItem none).1 = true ∧
    saturated_server.m_n_packages_served = 18446744073709551615 ∧
    (saturated_server.getNextPayloadItem none).2.2.m_n_packages_served = 0 ∧
    (saturated_server.getNextPayloadItem none).2.2.m_n_packages_served ≠
      saturated_server.m_n_packages_served + 1 := by
  decide

/-- C4, amended: when the pop succeeds `getNextPayloadItem` returns true with the front
item, the counter becomes its successor modulo 2^64 (an increase by exactly 1 unless it
was 2^64 - 1), the stop flag is set and the acceptor closed exactly when the previous
count was at or above the maximum, and both are left unchanged otherwise; when the pop
fails it returns false and changes nothing. -/
theorem C4_getNextPayloadItem (srv : async_websocket_server) (plb_ptr : Option payload_base) :
    (∀ item rest, srv.m_payload_queue = item :: rest →
      (srv.getNextPayloadItem plb_ptr).1 = true ∧
      (srv.getNextPayloadItem plb_ptr).2.1 = some item ∧
      (srv.getNextPayloadItem plb_ptr).2.2.m_payload_queue = rest ∧
      (srv.getNextPayloadItem plb_ptr).2.2.m_n_packages_served =
        (srv.m_n_packages_served + 1) % SIZE_MODULUS ∧
      (srv.m_n_packages_served + 1 < SIZE_MODULUS →
        (srv.getNextPayloadItem plb_ptr).2.2.m_n_packages_served =
          srv.m_n_packages_served + 1) ∧
      (srv.m_n_max_packages_served ≤ srv.m_n_packages_served →
        (srv.getNextPayloadItem plb_ptr).2.2.m_server_stopped = true ∧
        (srv.getNextPayloadItem plb_ptr).2.2.m_acceptor_is_open = false) ∧
      (srv.m_n_packages_served < srv.m_n_max_packages_served →
        (srv.getNextPayloadItem plb_ptr).2.2.m_server_stopped = srv.m_server_stopped ∧
        (srv.getNextPayloadItem plb_ptr).2.2.m_acceptor_is_open = srv.m_acceptor_is_open)) ∧
    (srv.m_payload_queue = [] →
      srv.getNextPayloadItem plb_ptr = (false, plb_ptr, srv)) := by
  constructor
  · intro item rest hq
    unfold async_websocket_server.getNextPayloadItem queue_pop
    rw [hq]
    by_cases hlt : srv.m_n_packages_served < srv.m_n_max_packages_served
    · have hnle : ¬ srv.m_n_max_packages_served ≤ srv.m_n_packages_served := by omega
      simp only [hlt, hnle, if_true, true_and, true_implies, false_implies, implies_true,
        and_true]
      intro h
      exact Nat.mod_eq_of_lt h
    · have hle : srv.m_n_max_packages_served ≤ srv.m_n_packages_served := by omega
      simp only [hlt, hle, if_false, true_and, true_implies, false_implies, implies_true,
        and_true]
      intro h
      exact Nat.mod_eq_of_lt h
  · intro hq
    unfold async_websocket_server.getNextPayloadItem queue_pop
    rw [hq]

/-- Witness of C4: a server below the threshold with a queued item hands it out and counts
one more. -/
theorem C4_getNextPayloadItem_witness :
    ({ configured_server 3 .sleep 4 with
        m_payload_queue := [.sleep_payload 1] }.getNextPayloadItem none).2.2.m_n_packages_served
      = 0 + 1 :=
  ((C4_getNextPayloadItem
      { configured_server 3 .sleep 4 with m_payload_queue := [.sleep_payload 1] } none).1
    (.sleep_payload 1) [] rfl).2.2.2.2.1 (by decide)

/-- Where the session count is the largest `std::size_t`, signing on wraps
`m_n_active_sessions` around to 0 instead of increasing it by 1. -/
theorem session_sign_on_wraps :
    crowded_server.m_n_active_sessions = 18446744073709551615 ∧
    (crowded_server.session_sign_on true).1 = .returned ∧
    (crowded_server.session_sign_on true).2.m_n_active_sessions = 0 ∧
    (crowded_server.session_sign_on true).2.m_n_active_sessions ≠
      crowded_server.m_n_active_sessions + 1 := by
  decide

/-- A call of the sign-on callback that no other call interferes with: called with `true`
it returns and makes the count its successor modulo 2^64 (an increase by exactly 1 unless
it was 2^64 - 1); called with `false` at a count above 0 it returns and decreases the
count by exactly 1; called with `false` at count 0 it throws and leaves the server, count
included, as it was. -/
theorem session_sign_on_alone (srv : async_websocket_server) :
    ((srv.session_sign_on true).1 = .returned ∧
      (srv.session_sign_on true).2.m_n_active_sessions =
        (srv.m_n_active_sessions + 1) % SIZE_MODULUS ∧
      (srv.m_n_active_sessions + 1 < SIZE_MODULUS →
        (srv.session_sign_on true).2.m_n_active_sessions = srv.m_n_active_sessions + 1)) ∧
    (0 < srv.m_n_active_sessions →
      (srv.session_sign_on false).1 = .returned ∧
      (srv.session_sign_on false).2.m_n_active_sessions + 1 = srv.m_n_active_sessions) ∧
    (srv.m_n_active_sessions = 0 →
      (∃ what, (srv.session_sign_on false).1 = .thrown what) ∧
      (srv.session_sign_on false).2 = srv ∧
      (srv.session_sign_on false).2.m_n_active_sessions = 0) := by
  refine ⟨⟨rfl, rfl, ?_⟩, ?_, ?_⟩
  · intro h
    simp only [async_websocket_server.session_sign_on, if_true]
    exact Nat.mod_eq_of_lt h
  · intro hpos
    have hne : ¬ (0 = srv.m_n_active_sessions) := by omega
    have hne2 : ¬ (srv.m_n_active_sessions = 0) := by omega
    simp only [async_websocket_server.session_sign_on, hne, hne2, if_false,
      Bool.false_eq_true, size_t_decrement, true_and]
    omega
  · intro hzero
    simp [async_websocket_server.session_sign_on, hzero]

/-- C8: two sessions sign off on different threads at a count of 1. When both
comparisons with 0 run before either decrement, both calls return and the count wraps
around to 2^64 - 1; when one call runs after the other, the second one throws and the
count stays 0. A call that runs alone is the callback as one step. Such a state is
reached in a run: with one session signed on and the handshake of a second one
outstanding the count is 1, the server has two listener threads, and the failure of the
read of the first session and the failure of the handshake of the second each sign
off. -/
theorem C8_sign_off_race :
    (run_trace (configured_server 3 .container 4) race_start_trace).map
      (fun w =>
        (w.server.m_n_active_sessions, w.server.m_n_listener_threads,
          (step (.read 0 .failure false .malformed) w).server.m_n_active_sessions,
          (step (.connection_accepted 1 true false) w).server.m_n_active_sessions)) =
      some (1, 2, 0, 0) ∧
    sign_off_run [0, 1, 0, 1] ([.called, .called], 1) =
      ([.returned, .returned], 18446744073709551615) ∧
    (sign_off_run [0, 1, 0, 1] ([.called, .called], 1)).2 = SIZE_MODULUS - 1 ∧
    sign_off_run [0, 0, 1, 1] ([.called, .called], 1) = ([.returned, .thrown], 0) ∧
    ∀ srv : async_websocket_server,
      sign_off_run [0, 0] ([.called], srv.m_n_active_sessions) =
        ([sign_off_call.of_completion (srv.session_sign_on false).1],
          (srv.session_sign_on false).2.m_n_active_sessions) := by
  refine ⟨by decide, by decide, by decide, by decide, fun srv => ?_⟩
  by_cases hzero : 0 = srv.m_n_active_sessions
  · simp [sign_off_run, sign_off_call.advance, async_websocket_server.session_sign_on,
      sign_off_call.of_completion, hzero.symm]
  · simp [sign_off_run, sign_off_call.advance, async_websocket_server.session_sign_on,
      sign_off_call.of_completion, hzero]

/-- The sign-on callback touches neither the stop flag nor the served-count. -/
theorem session_sign_on_same_counters (sign_on : Bool) (srv : async_websocket_server) :
    same_counters srv (srv.session_sign_on sign_on).2 := by
  unfold async_websocket_server.session_sign_on same_counters
  split
  · exact ⟨rfl, rfl, rfl⟩
  · split <;> exact ⟨rfl, rfl, rfl⟩

/-- The server after `do_close` is the server after a sign-off. -/
theorem do_close_server {σ : Type} (cb : session_callbacks σ)
    (self : async_websocket_server_session) (s : σ) :
    (self.do_close cb s).2.2 = (cb.f_server_sign_on false s).2 := by
  unfold async_websocket_server_session.do_close
  rfl

/-- The handler `when_connection_accepted` leaves the counters alone. -/
theorem when_connection_accepted_same_counters (ec ws_open : Bool)
    (self : async_websocket_server_session) (srv : async_websocket_server) :
    same_counters srv
      (self.when_connection_accepted server_callbacks ec ws_open srv).2.2 := by
  unfold async_websocket_server_session.when_connection_accepted
  cases ec
  · simp only [Bool.false_eq_true, if_false]
    have h := session_sign_on_same_counters true srv
    change same_counters srv (server_callbacks.f_server_sign_on true srv).2 at h
    rcases hr : server_callbacks.f_server_sign_on true srv with ⟨r, s1⟩
    rw [hr] at h
    cases r <;> exact h
  · simp only [if_true]
    rw [do_close_server]
    exact session_sign_on_same_counters false srv

/-- The server after `process_request` is the server as it was, or the server after one
call of `getNextPayloadItem`. -/
theorem process_request_server (self : async_websocket_server_session)
    (srv : async_websocket_server) :
    (self.process_request server_callbacks srv).2.2 = srv ∨
    (self.process_request server_callbacks srv).2.2 = (srv.getNextPayloadItem none).2.2 := by
  cases hdec : buffers_to_string self.m_buffer with
  | malformed =>
      left
      unfold async_websocket_server_session.process_request
      rw [hdec]
      rfl
  | archive c =>
      by_cases hcmd : c.m_command = .GETDATA ∨ c.m_command = .ERROR ∨
          (c.m_command = .RESULT ∧ c.is_processed = true)
      · right
        rw [process_request_accepted server_callbacks self srv c hdec hcmd]
        rfl
      · left
        exact (process_request_rejected server_callbacks self srv c hdec hcmd).2

/-- The server after `when_read` has the counters it had, or is the server after one call
of `getNextPayloadItem`. -/
theorem when_read_server (ec : read_error_code) (ws_open : Bool) (message : wire_string)
    (self : async_websocket_server_session) (srv : async_websocket_server) :
    same_counters srv (self.when_read server_callbacks ec ws_open message srv).2.2 ∨
    (self.when_read server_callbacks ec ws_open message srv).2.2 =
      (srv.getNextPayloadItem none).2.2 := by
  unfold async_websocket_server_session.when_read
  cases ec
  · simp only
    rcases process_request_server
      { m_ws_is_open := self.m_ws_is_open, m_ws_close_code := self.m_ws_close_code,
        outstanding := self.outstanding.erase .read,
        m_command_container := self.m_command_container,
        m_buffer := self.m_buffer ++ [message] } srv with h | h
    · left
      rcases hr : async_websocket_server_session.process_request server_callbacks
        { m_ws_is_open := self.m_ws_is_open, m_ws_close_code := self.m_ws_close_code,
          outstanding := self.outstanding.erase .read,
          m_command_container := self.m_command_container,
          m_buffer := self.m_buffer ++ [message] } srv with ⟨r, self1, s1⟩
      rw [hr] at h
      simp only at h
      subst h
      cases r <;> exact ⟨rfl, rfl, rfl⟩
    · right
      rcases hr : async_websocket_server_session.process_request server_callbacks
        { m_ws_is_open := self.m_ws_is_open, m_ws_close_code := self.m_ws_close_code,
          outstanding := self.outstanding.erase .read,
          m_command_container := self.m_command_container,
          m_buffer := self.m_buffer ++ [message] } srv with ⟨r, self1, s1⟩
      rw [hr] at h
      simp only at h
      cases r <;> exact h
  · left
    exact ⟨rfl, rfl, rfl⟩
  · left
    simp only
    rw [do_close_server]
    exact session_sign_on_same_counters false srv

/-- The handler `when_written` leaves the server as it was. -/
theorem when_written_server {σ : Type} (cb : session_callbacks σ) (ec : Bool)
    (self : async_websocket_server_session) (s : σ) :
    (self.when_written cb ec s).2.2 = s := by
  unfold async_websocket_server_session.when_written
  cases ec
  · simp only [Bool.false_eq_true, if_false]
    split <;> rfl
  · rfl

/-- A producer iteration changes at most the queue. -/
theorem producer_body_same_counters (fresh : payload_base) (p : producer_thread)
    (srv : async_websocket_server) :
    same_counters srv (producer_body fresh p srv).2 := by
  unfold producer_body queue_push
  simp only
  split
  · exact ⟨rfl, rfl, rfl⟩
  · split
    · split at * <;> simp_all [same_counters]
    · split at * <;> simp_all [same_counters] <;> split <;> simp

/-- Every server has the counters it has. -/
theorem same_counters_refl (srv : async_websocket_server) : same_counters srv srv :=
  ⟨rfl, rfl, rfl⟩

/-- The server after a session handler has run is the server as it was, or the server
the handler returned for some session. -/
theorem run_session_handler_server (i : Nat) (op : async_op)
    (handler : async_websocket_server_session → async_websocket_server →
      completion × async_websocket_server_session × async_websocket_server)
    (w : world) :
    (run_session_handler i op handler w).server = w.server ∨
    ∃ session, (run_session_handler i op handler w).server = (handler session w.server).2.2 := by
  unfold run_session_handler
  cases hs : w.sessions.get? i with
  | none => exact Or.inl rfl
  | some session =>
      simp only
      by_cases hop : op ∈ session.outstanding
      · right
        refine ⟨session, ?_⟩
        simp only [hop, if_true]
        rcases handler session w.server with ⟨r, session1, srv1⟩
        cases r <;> rfl
      · left
        simp only [hop, if_false]

/-- The server after `when_accepted` has the counters it had. -/
theorem when_accepted_same_counters (ec : Bool) (w : world) :
    same_counters w.server (async_websocket_server.when_accepted ec w).server := by
  unfold async_websocket_server.when_accepted
  simp only
  split <;> exact ⟨rfl, rfl, rfl⟩

/-- One step leaves the counters of the server as they were, or leaves the server that
one call of `getNextPayloadItem` yields. -/
theorem step_server (e : event) (w : world) :
    same_counters w.server (step e w).server ∨
    (step e w).server = (w.server.getNextPayloadItem none).2.2 := by
  unfold step
  cases hu : w.uncaught with
  | some what => exact Or.inl (same_counters_refl _)
  | none =>
      cases e with
      | accepted ec =>
          simp only
          split
          · exact Or.inl (when_accepted_same_counters ec w)
          · exact Or.inl (same_counters_refl _)
      | connection_accepted i ec ws_open =>
          simp only
          rcases run_session_handler_server i .accept
            (async_websocket_server_session.when_connection_accepted server_callbacks ec ws_open)
            w with h | ⟨session, h⟩
          · rw [h]
            exact Or.inl (same_counters_refl _)
          · rw [h]
            exact Or.inl (when_connection_accepted_same_counters ec ws_open session w.server)
      | read i ec ws_open message =>
          simp only
          rcases run_session_handler_server i .read
            (async_websocket_server_session.when_read server_callbacks ec ws_open message)
            w with h | ⟨session, h⟩
          · rw [h]
            exact Or.inl (same_counters_refl _)
          · rw [h]
            exact when_read_server ec ws_open message session w.server
      | written i ec =>
          simp only
          rcases run_session_handler_server i .write
            (async_websocket_server_session.when_written server_callbacks ec)
            w with h | ⟨session, h⟩
          · rw [h]
            exact Or.inl (same_counters_refl _)
          · rw [h, when_written_server]
            exact Or.inl (same_counters_refl _)
      | producer j fresh =>
          simp only
          cases hp : w.producers.get? j with
          | none => exact Or.inl (same_counters_refl _)
          | some p =>
              left
              simp only
              cases ht : w.server.m_payload_type with
              | sleep =>
                  simp only
                  unfold async_websocket_server.sleep_payload_producer
                  split
                  · exact same_counters_refl _
                  · split
                    · exact same_counters_refl _
                    · exact producer_body_same_counters fresh p w.server
              | container =>
                  simp only
                  unfold async_websocket_server.container_payload_producer
                  split
                  · exact same_counters_refl _
                  · exact producer_body_same_counters fresh p w.server
              | command =>
                  simp only
                  unfold async_websocket_server.container_payload_producer
                  split
                  · exact same_counters_refl _
                  · exact producer_body_same_counters fresh p w.server

/-- The method `getNextPayloadItem` never clears the stop flag. -/
theorem getNextPayloadItem_stopped (srv : async_websocket_server)
    (plb_ptr : Option payload_base) (h : srv.m_server_stopped = true) :
    (srv.getNextPayloadItem plb_ptr).2.2.m_server_stopped = true := by
  unfold async_websocket_server.getNextPayloadItem queue_pop
  cases srv.m_payload_queue with
  | nil => exact h
  | cons item rest =>
      simp only
      split
      · exact h
      · rfl

/-- One step never clears the stop flag. -/
theorem step_stopped (e : event) (w : world) (h : w.server.m_server_stopped = true) :
    (step e w).server.m_server_stopped = true := by
  rcases step_server e w with hs | hs
  · rw [hs.1]
    exact h
  · rw [hs]
    exact getNextPayloadItem_stopped w.server none h

/-- C9: `run()` starts the event loop with `m_server_stopped` false, and from a state in
which `m_server_stopped` is true no sequence of operations of the server (accept,
handshake, read, write completions with `getNextPayloadItem` and the sign-on callback, and
producer iterations) leads to a state in which it is false. -/
theorem C9_server_stopped_never_reset (cfg : async_websocket_server) (w0 : world)
    (hrun : cfg.run false = .ok (some w0)) (es : List event) (w : world)
    (hstopped : w.server.m_server_stopped = true) :
    w0.server.m_server_stopped = false ∧
    (run_events es w).server.m_server_stopped = true := by
  constructor
  · rw [(run_start cfg w0 hrun).1]
  · induction es generalizing w with
    | nil => exact hstopped
    | cons e rest ih =>
        exact ih (step e w) (step_stopped e w hstopped)


/-- The item of the conversations is processed once the client has processed it. -/
theorem fresh_item_process_is_processed : fresh_item.process.is_processed = true := by
  decide

/-- Below the threshold an exchange serves one item and leaves the session reading. -/
theorem conversation_round_ready (n_max k : Nat) (hk : k < n_max)
    (hmax : k + 1 < SIZE_MODULUS) :
    conversation_round (ready_conversation n_max k) = ready_conversation n_max (k + 1) := by
  have hmod : (k + 1) % SIZE_MODULUS = k + 1 := Nat.mod_eq_of_lt hmax
  have hp := fresh_item_process_is_processed
  by_cases hz : k = 0
  · subst hz
    simp [conversation_round, ready_conversation, ready_world, ready_server, step,
      run_session_handler, configured_server,
      async_websocket_server.container_payload_producer, producer_body, queue_push,
      async_websocket_server_session.when_read, async_websocket_server_session.when_written,
      async_websocket_server_session.process_request, buffers_to_string,
      command_container.from_string, command_container.get_command,
      async_websocket_server_session.getAndSerializeWorkItem, server_callbacks,
      async_websocket_server.getNextPayloadItem, queue_pop, hk, hmod,
      async_websocket_server_session.async_start_write,
      async_websocket_server_session.async_start_read,
      command_container.reset, command_container.to_string,
      async_websocket_server.server_stopped, is_compute,
      async_websocket_client.process_request, command_container.process,
      command_container.set_command, command_container.is_processed]
  · simp [conversation_round, ready_conversation, ready_world, ready_server, step,
      run_session_handler, configured_server,
      async_websocket_server.container_payload_producer, producer_body, queue_push,
      async_websocket_server_session.when_read, async_websocket_server_session.when_written,
      async_websocket_server_session.process_request, buffers_to_string,
      command_container.from_string, command_container.get_command,
      async_websocket_server_session.getAndSerializeWorkItem, server_callbacks,
      async_websocket_server.getNextPayloadItem, queue_pop, hk, hmod, hz, hp,
      async_websocket_server_session.async_start_write,
      async_websocket_server_session.async_start_read,
      command_container.reset, command_container.to_string,
      async_websocket_server.server_stopped, is_compute,
      async_websocket_client.process_request, command_container.process,
      command_container.set_command, command_container.is_processed]


/-- At the threshold an exchange still serves one item, sets the stop flag and leaves the
session with nothing outstanding. -/
theorem conversation_round_threshold (n_max : Nat) :
    conversation_round (ready_conversation n_max n_max) =
      stopped_conversation n_max ((n_max + 1) % SIZE_MODULUS) := by
  have hp := fresh_item_process_is_processed
  by_cases hz : n_max = 0
  · subst hz
    simp [conversation_round, ready_conversation, stopped_conversation, ready_world,
    ready_server, step, run_session_handler, configured_server,
    async_websocket_server.container_payload_producer, producer_body, queue_push,
    async_websocket_server_session.when_read, async_websocket_server_session.when_written,
    async_websocket_server_session.process_request, buffers_to_string,
    command_container.from_string, command_container.get_command,
    async_websocket_server_session.getAndSerializeWorkItem, server_callbacks,
    async_websocket_server.getNextPayloadItem, queue_pop,
    async_websocket_server_session.async_start_write,
    async_websocket_server_session.async_start_read,
    command_container.reset, command_container.to_string,
    async_websocket_server.server_stopped, is_compute,
    async_websocket_client.process_request, command_container.process,
    command_container.set_command, command_container.is_processed]
  · simp [conversation_round, ready_conversation, stopped_conversation, ready_world,
    ready_server, step, run_session_handler, configured_server,
    async_websocket_server.container_payload_producer, producer_body, queue_push,
    async_websocket_server_session.when_read, async_websocket_server_session.when_written,
    async_websocket_server_session.process_request, buffers_to_string,
    command_container.from_string, command_container.get_command,
    async_websocket_server_session.getAndSerializeWorkItem, server_callbacks,
    async_websocket_server.getNextPayloadItem, queue_pop,
    async_websocket_server_session.async_start_write,
    async_websocket_server_session.async_start_read,
    command_container.reset, command_container.to_string,
    async_websocket_server.server_stopped, is_compute,
    async_websocket_client.process_request, command_container.process,
    command_container.set_command, command_container.is_processed, hz, hp]

/-- Once the session has stopped an exchange changes nothing. -/
theorem conversation_round_stopped (n_max served : Nat) :
    conversation_round (stopped_conversation n_max served) =
      stopped_conversation n_max served := by
  simp [conversation_round, stopped_conversation]

/-- From `k` served items the conversation stops after the exchanges that remain up to
the threshold and one more. -/
theorem conversation_rounds_from (n_max : Nat) (hmax : n_max < SIZE_MODULUS) (j k : Nat)
    (hk : k + j = n_max) :
    conversation_round^[j + 1] (ready_conversation n_max k) =
      stopped_conversation n_max ((n_max + 1) % SIZE_MODULUS) := by
  induction j generalizing k with
  | zero =>
      have hkn : k = n_max := by omega
      subst hkn
      simp only [Nat.zero_add, Function.iterate_one]
      exact conversation_round_threshold k
  | succ j ih =>
      rw [Function.iterate_succ_apply,
        conversation_round_ready n_max k (by omega) (by omega)]
      exact ih (k + 1) (by omega)

/-- Further exchanges leave a stopped conversation as it is. -/
theorem conversation_rounds_stopped (n_max served m : Nat) :
    conversation_round^[m] (stopped_conversation n_max served) =
      stopped_conversation n_max served := by
  induction m with
  | zero => rfl
  | succ m ih => rw [Function.iterate_succ_apply, conversation_round_stopped, ih]


/-- The method `getNextPayloadItem` leaves the served-count or makes it its successor
modulo 2^64. -/
theorem getNextPayloadItem_served (srv : async_websocket_server)
    (plb_ptr : Option payload_base) :
    (srv.getNextPayloadItem plb_ptr).2.2.m_n_packages_served = srv.m_n_packages_served ∨
    (srv.getNextPayloadItem plb_ptr).2.2.m_n_packages_served =
      (srv.m_n_packages_served + 1) % SIZE_MODULUS := by
  unfold async_websocket_server.getNextPayloadItem queue_pop
  cases srv.m_payload_queue with
  | nil => exact Or.inl rfl
  | cons item rest =>
      right
      simp only
      split <;> rfl

/-- The states a sequence of events leads through are states of the run. -/
theorem reachable_run_events (cfg : async_websocket_server) (es : List event) (w : world)
    (h : reachable cfg w) : reachable cfg (run_events es w) := by
  induction es generalizing w with
  | nil => exact h
  | cons e rest ih => exact ih (step e w) (reachable.next e w h)

/-- An exchange of a conversation leads from a state of the run to a state of the run. -/
theorem conversation_round_reachable (cfg : async_websocket_server) (st : conversation)
    (h : reachable cfg st.w) : reachable cfg (conversation_round st).w := by
  unfold conversation_round
  cases hm : st.message with
  | none => exact h
  | some message =>
      cases hs : st.w.sessions.get? 0 with
      | none => exact h
      | some session =>
          simp only
          by_cases hop : async_op.read ∈ session.outstanding
          · simp only [hop, if_true]
            cases hs2 : (step (.read 0 .success true message)
                (step (.producer 0 fresh_item) st.w)).sessions.get? 0 with
            | none => exact h
            | some session2 =>
                exact reachable.next (.written 0 false) _
                  (reachable.next (.read 0 .success true message) _
                    (reachable.next (.producer 0 fresh_item) _ h))
          · simp only [hop, if_false]
            exact h

/-- The run of a configured server reaches the state in which one session waits for its
first request. -/
theorem ready_world_start (n_max : Nat) :
    run_trace (configured_server n_max .container 4)
      [.accepted false, .connection_accepted 0 false true] = some (ready_world n_max 0) := by
  rfl

/-- Every state in which one session waits after `k` served items, `k` up to the
threshold, is a state of the run. -/
theorem ready_world_reachable (n_max : Nat) (hmax : n_max < SIZE_MODULUS) (k : Nat)
    (hk : k ≤ n_max) :
    reachable (configured_server n_max .container 4) (ready_world n_max k) := by
  induction k with
  | zero =>
      have h0 : reachable (configured_server n_max .container 4)
          (run_events [.accepted false, .connection_accepted 0 false true]
            { server :=
                { configured_server n_max .container 4 with
                  m_acceptor_is_open := true, accept_outstanding := true }
              sessions := []
              producers := [producer_thread.init]
              uncaught := none }) :=
        reachable_run_events _ _ _ (reachable.start _ rfl)
      exact h0
  | succ k ih =>
      have hstep := conversation_round_reachable (configured_server n_max .container 4)
        (ready_conversation n_max k) (ih (by omega))
      rw [conversation_round_ready n_max k (by omega) (by omega)] at hstep
      exact hstep


/-- Witness of C1: a server session that reads a RESULT with a sorted container while the
queue holds one item answers with the COMPUTE of that item. -/
theorem C1_process_request_response_witness :
    (async_websocket_server_session.process_request server_callbacks
      { async_websocket_server_session.init with
        m_buffer := [command_container.to_string
          { m_command := .RESULT, m_payload_ptr := some fresh_item.process }] }
      { configured_server 3 .container 4 with m_payload_queue := [fresh_item] }).2.1.m_buffer =
      [command_container.to_string { m_command := .COMPUTE, m_payload_ptr := some fresh_item }] :=
  (C1_process_request_response server_callbacks
    { async_websocket_server_session.init with
      m_buffer := [command_container.to_string
        { m_command := .RESULT, m_payload_ptr := some fresh_item.process }] }
    { configured_server 3 .container 4 with m_payload_queue := [fresh_item] } 0
    { m_command := .RESULT, m_payload_ptr := some fresh_item.process } rfl
    (Or.inr (Or.inr ⟨rfl, by decide⟩))).2.2.2.1 fresh_item rfl rfl

/-- Witness of C2: a server session that reads a RESULT with an unsorted container throws
and leaves the queue as it was. -/
theorem C2_process_request_failure_witness :
    (∃ what, (async_websocket_server_session.process_request server_callbacks
      { async_websocket_server_session.init with
        m_buffer := [command_container.to_string
          { m_command := .RESULT, m_payload_ptr := some fresh_item }] }
      { configured_server 3 .container 4 with m_payload_queue := [fresh_item] }).1 =
        .thrown what) ∧
    (async_websocket_server_session.process_request server_callbacks
      { async_websocket_server_session.init with
        m_buffer := [command_container.to_string
          { m_command := .RESULT, m_payload_ptr := some fresh_item }] }
      { configured_server 3 .container 4 with m_payload_queue := [fresh_item] }).2.2.m_payload_queue
      = [fresh_item] :=
  have h := C2_process_request_failure
    { async_websocket_server_session.init with
      m_buffer := [command_container.to_string
        { m_command := .RESULT, m_payload_ptr := some fresh_item }] }
    { configured_server 3 .container 4 with m_payload_queue := [fresh_item] }
    { m_command := .RESULT, m_payload_ptr := some fresh_item } rfl
  have hthrown := h.1.2 (Or.inr ⟨rfl, Or.inr ⟨fresh_item, rfl, by decide⟩⟩)
  ⟨hthrown, hthrown.elim (fun what hw => (h.2 what hw).1)⟩

/-- C3, on the code: after a first frame that is a COMPUTE with a container payload, and
likewise after a RESULT with an unsorted payload, the exception of `process_request` has
left the read handler and the event loop; the stream has not been closed (no close code,
still open), the session has not signed off (`m_n_active_sessions` is 1, its value before
the accept was 0), and the completion of the outstanding accept no longer does anything. -/
theorem C3_protocol_violation_escapes :
    (run_trace (configured_server 3 .container 4) []).map
      (fun w => w.server.m_n_active_sessions) = some 0 ∧
    (run_trace (configured_server 3 .container 4) rogue_compute_trace).map
      (fun w => (w.uncaught, w.sessions.map (fun x => (x.m_ws_close_code, x.m_ws_is_open)),
        w.server.m_n_active_sessions)) =
      some (some "process_request(): Got unknown or invalid command", [(none, true)], 1) ∧
    (run_trace (configured_server 3 .container 4) rogue_result_trace).map
      (fun w => (w.uncaught, w.sessions.map (fun x => (x.m_ws_close_code, x.m_ws_is_open)),
        w.server.m_n_active_sessions)) =
      some (some "process_request(): Returned payload is unprocessed", [(none, true)], 1) ∧
    run_trace (configured_server 3 .container 4) (rogue_compute_trace ++ [.accepted false]) =
      run_trace (configured_server 3 .container 4) rogue_compute_trace ∧
    (run_trace (configured_server 3 .container 4) (rogue_compute_trace ++ [.accepted false])).map
      (fun w => w.sessions.length) = some 1 := by
  refine ⟨?_, ?_, ?_, ?_, ?_⟩ <;> decide

/-- C5, on the code: with threshold `n_max`, one client that opens with GETDATA and
answers every COMPUTE with the processed RESULT, and a queue that always has an item, the
session is still reading after `n_max` exchanges and has stopped after `n_max + 1`; from
then on the number of COMPUTE messages dispatched is `n_max + 1`, not `n_max`, and
`m_n_packages_served` is `n_max + 1` modulo 2^64. -/
theorem C5_single_client_dispatches_one_more (n_max : Nat) (hmax : n_max < SIZE_MODULUS)
    (m : Nat) :
    run_trace (configured_server n_max .container 4)
      [.accepted false, .connection_accepted 0 false true] =
        some (ready_conversation n_max 0).w ∧
    (conversation_round^[n_max] (ready_conversation n_max 0)).w.sessions.map
      (fun x => x.outstanding) = [[.read]] ∧
    (conversation_round^[n_max] (ready_conversation n_max 0)).dispatched = n_max ∧
    (conversation_round^[m + (n_max + 1)] (ready_conversation n_max 0)).w.sessions.map
      (fun x => x.outstanding) = [[]] ∧
    (conversation_round^[m + (n_max + 1)] (ready_conversation n_max 0)).w.server.m_server_stopped
      = true ∧
    (conversation_round^[m + (n_max + 1)]
      (ready_conversation n_max 0)).w.server.m_n_packages_served =
        (n_max + 1) % SIZE_MODULUS ∧
    (conversation_round^[m + (n_max + 1)] (ready_conversation n_max 0)).dispatched =
      n_max + 1 := by
  have hbefore : ∀ k, k ≤ n_max →
      conversation_round^[k] (ready_conversation n_max 0) = ready_conversation n_max k := by
    intro k hk
    induction k with
    | zero => rfl
    | succ k ih =>
        rw [Function.iterate_succ_apply', ih (by omega),
          conversation_round_ready n_max k (by omega) (by omega)]
  rw [Function.iterate_add_apply, conversation_rounds_from n_max hmax n_max 0 (by omega),
    conversation_rounds_stopped, hbefore n_max (le_refl _)]
  exact ⟨ready_world_start n_max, rfl, rfl, rfl, rfl, rfl, rfl⟩

/-- Witness of C5: with the threshold 3 of scenario S1 four COMPUTE messages are
dispatched, and with the threshold 0 of scenario S4 one is. -/
theorem C5_single_client_dispatches_one_more_witness :
    (conversation_round^[0 + (3 + 1)] (ready_conversation 3 0)).dispatched = 3 + 1 ∧
    (conversation_round^[0 + (0 + 1)] (ready_conversation 0 0)).dispatched = 0 + 1 ∧
    (conversation_round^[0 + (0 + 1)]
      (ready_conversation 0 0)).w.server.m_n_packages_served = (0 + 1) % SIZE_MODULUS :=
  ⟨(C5_single_client_dispatches_one_more 3 (by decide) 0).2.2.2.2.2.2,
    (C5_single_client_dispatches_one_more 0 (by decide) 0).2.2.2.2.2.2,
    (C5_single_client_dispatches_one_more 0 (by decide) 0).2.2.2.2.2.1⟩

/-- C6, on the code: with threshold 0, after three accepted connections of which the
second fails its handshake (and so signs off without having signed on) and two sessions
that each read one GETDATA, `m_n_packages_served` is 2 while `m_n_active_sessions` has
never been above 1: the served-count exceeds the threshold plus the peak. -/
theorem C6_served_exceeds_bound :
    (run_trace (configured_server 0 .container 4) overshoot_trace).map
      (fun w => (w.server.m_n_packages_served, w.server.m_n_max_packages_served, w.uncaught)) =
      some (2, 0, none) ∧
    (run_trace (configured_server 0 .container 4) []).map
      (active_sessions_peak overshoot_trace) = some 1 ∧
    (run_trace (configured_server 0 .container 4) []).map
      (fun w0 => decide ((run_events overshoot_trace w0).server.m_n_packages_served ≤
        (run_events overshoot_trace w0).server.m_n_max_packages_served +
          active_sessions_peak overshoot_trace w0)) = some false := by
  refine ⟨?_, ?_, ?_⟩ <;> decide

/-- C7, on the code: a session that signed on and then terminates on a close frame, on a
write error, or by stopping after a write leaves `m_n_active_sessions` at 1 (no sign-off);
a session whose handshake fails signs off without having signed on: it takes the count of
another, live session from 1 to 0, and at count 0 the callback throws out of the event
loop. -/
theorem C7_sign_off_mismatch :
    (run_trace (configured_server 3 .container 4) close_frame_trace).map
      (fun w => (w.sessions.map (fun x => x.outstanding), w.server.m_n_active_sessions)) =
      some ([[]], 1) ∧
    (run_trace (configured_server 3 .container 4) write_error_trace).map
      (fun w => (w.sessions.map (fun x => x.outstanding), w.server.m_n_active_sessions)) =
      some ([[]], 1) ∧
    (run_trace (configured_server 0 .container 4) stop_after_write_trace).map
      (fun w => (w.sessions.map (fun x => x.outstanding), w.server.m_n_active_sessions,
        w.server.m_server_stopped)) =
      some ([[]], 1, true) ∧
    (run_trace (configured_server 3 .container 4) failed_handshake_trace).map
      (fun w => (w.sessions.map (fun x => x.outstanding), w.server.m_n_active_sessions)) =
      some ([[.read], []], 0) ∧
    (run_trace (configured_server 3 .container 4) lone_failed_handshake_trace).map
      (fun w => (w.uncaught, w.server.m_n_active_sessions)) =
      some (some "when_accepted(): Tried to decrement #sessions which is already 0", 0) := by
  refine ⟨?_, ?_, ?_, ?_, ?_⟩ <;> decide

/-- Witness of C9: a run starts with the flag false, and in the stopped state of a
conversation with threshold 0 the completions of an accept and of a read leave it true. -/
theorem C9_server_stopped_never_reset_witness :
    ({ server :=
        { configured_server 0 .container 4 with
          m_acceptor_is_open := true, accept_outstanding := true }
       sessions := []
       producers := [producer_thread.init]
       uncaught := none } : world).server.m_server_stopped = false ∧
    (run_events [.accepted false, .read 0 .success true getdata_message]
      (stopped_conversation 0 1).w).server.m_server_stopped = true :=
  C9_server_stopped_never_reset (configured_server 0 .container 4)
    { server :=
        { configured_server 0 .container 4 with
          m_acceptor_is_open := true, accept_outstanding := true }
      sessions := []
      producers := [producer_thread.init]
      uncaught := none }
    rfl [.accepted false, .read 0 .success true getdata_message]
    (stopped_conversation 0 1).w rfl

/-- C10, as stated, fails in a run with the largest threshold: the state in which
2^64 - 1 items have been served is a state of the run, and there the next successful pop
takes `m_n_packages_served` from 2^64 - 1 to 0. -/
theorem C10_counterexample :
    reachable (configured_server (SIZE_MODULUS - 1) .container 4) overflow_world ∧
    overflow_world.server.m_n_packages_served = 18446744073709551615 ∧
    (step overflow_event overflow_world).server.m_n_packages_served = 0 ∧
    (step overflow_event overflow_world).server.m_n_packages_served <
      overflow_world.server.m_n_packages_served := by
  refine ⟨?_, ?_, ?_, ?_⟩
  · exact reachable.next _ _
      (ready_world_reachable (SIZE_MODULUS - 1) (by decide) (SIZE_MODULUS - 1) (le_refl _))
  · decide
  · decide
  · decide

/-- C10, amended: `run()` starts the event loop with `m_n_packages_served` at 0, and every
operation of the server executed while the counter is below 2^64 - 1 leaves it where it
was or exactly one higher, hence at least at its previous value. -/
theorem C10_served_monotone (cfg : async_websocket_server) (w0 : world)
    (hrun : cfg.run false = .ok (some w0)) (e : event) (w : world)
    (hroom : w.server.m_n_packages_served + 1 < SIZE_MODULUS) :
    w0.server.m_n_packages_served = 0 ∧
    w.server.m_n_packages_served ≤ (step e w).server.m_n_packages_served ∧
    ((step e w).server.m_n_packages_served = w.server.m_n_packages_served ∨
      (step e w).server.m_n_packages_served = w.server.m_n_packages_served + 1) := by
  have hcases : (step e w).server.m_n_packages_served = w.server.m_n_packages_served ∨
      (step e w).server.m_n_packages_served = w.server.m_n_packages_served + 1 := by
    rcases step_server e w with hs | hs
    · exact Or.inl hs.2.1
    · rw [hs]
      rcases getNextPayloadItem_served w.server none with h | h
      · exact Or.inl h
      · right
        rw [h]
        exact Nat.mod_eq_of_lt hroom
  refine ⟨?_, ?_, hcases⟩
  · rw [(run_start cfg w0 hrun).1]
  · rcases hcases with h | h <;> omega

/-- Witness of C10: the first successful pop of a run takes the counter from 0 to 1. -/
theorem C10_served_monotone_witness :
    (0 : Nat) ≤ (step (.read 0 .success true getdata_message)
      (step (.producer 0 fresh_item) (ready_world 3 0))).server.m_n_packages_served :=
  (C10_served_monotone (configured_server 3 .container 4)
    { server :=
        { configured_server 3 .container 4 with
          m_acceptor_is_open := true, accept_outstanding := true }
      sessions := []
      producers := [producer_thread.init]
      uncaught := none }
    rfl (.read 0 .success true getdata_message)
    (step (.producer 0 fresh_item) (ready_world 3 0)) (by decide)).2.1


/-- The comparison `<` of two numbers is that of the integers that stand for them. -/
theorem double_lt_number (x y : Int) : double.number x < double.number y ↔ x < y := by
  show double.lt (.number x) (.number y) = true ↔ x < y
  simp [double.lt]

/-- The comparison `<=` of two numbers is that of the integers that stand for them. -/
theorem double_le_number (x y : Int) : double.number x ≤ double.number y ↔ x ≤ y := by
  show double.le (.number x) (.number y) = true ↔ x ≤ y
  simp [double.le]

/-- NaN is less than nothing. -/
theorem double_nan_lt (b : double) : ¬ (double.nan < b) := by
  show ¬ (double.lt .nan b = true)
  simp [double.lt]

/-- Nothing is less than NaN. -/
theorem double_lt_nan (a : double) : ¬ (a < double.nan) := by
  show ¬ (double.lt a .nan = true)
  cases a <;> simp [double.lt]

/-- NaN is at most nothing. -/
theorem double_nan_le (b : double) : ¬ (double.nan ≤ b) := by
  show ¬ (double.le .nan b = true)
  simp [double.le]

/-- Nothing is at most NaN. -/
theorem double_le_nan (a : double) : ¬ (a ≤ double.nan) := by
  show ¬ (double.le a .nan = true)
  cases a <;> simp [double.le]

/-- Of two values at most one is less than the other. -/
theorem double_lt_asymm (a b : double) (h : a < b) : ¬ (b < a) := by
  cases a with
  | nan => exact absurd h (double_nan_lt _)
  | number x =>
      cases b with
      | nan => exact absurd h (double_lt_nan _)
      | number y =>
          rw [double_lt_number] at h ⊢
          omega

/-- Among numbers, not being greater is being at most. -/
theorem double_not_lt_iff_le (a b : double) (ha : a ≠ double.nan) (hb : b ≠ double.nan) :
    ¬ (b < a) ↔ a ≤ b := by
  cases a with
  | nan => exact absurd rfl ha
  | number x =>
      cases b with
      | nan => exact absurd rfl hb
      | number y =>
          rw [double_lt_number, double_le_number]
          omega

/-- A value that is at most another one, or that another one is at most, is no NaN. -/
theorem double_le_not_nan (a b : double) (h : a ≤ b) : a ≠ double.nan ∧ b ≠ double.nan := by
  refine ⟨fun ha => ?_, fun hb => ?_⟩
  · rw [ha] at h
    exact double_nan_le _ h
  · rw [hb] at h
    exact double_le_nan _ h

/-- The comparison of `std_sort` never rejects both arrangements of two elements. -/
theorem value_not_lt_total (x y : stored_number) :
    ¬ (y.value < x.value) ∨ ¬ (x.value < y.value) := by
  by_cases h : y.value < x.value
  · exact Or.inr (double_lt_asymm _ _ h)
  · exact Or.inl h

/-- The order `<=` of the values is transitive. -/
theorem value_le_trans : IsTrans stored_number (fun x y => x.value ≤ y.value) :=
  ⟨fun a b c hab hbc => by
    have hab1 : a.value ≤ b.value := hab
    have hbc1 : b.value ≤ c.value := hbc
    show a.value ≤ c.value
    cases ha : a.value with
    | nan =>
        rw [ha] at hab1
        exact absurd hab1 (double_nan_le _)
    | number x =>
        cases hb : b.value with
        | nan =>
            rw [hb] at hbc1
            exact absurd hbc1 (double_nan_le _)
        | number y =>
            cases hc : c.value with
            | nan =>
                rw [hc] at hbc1
                exact absurd hbc1 (double_le_nan _)
            | number z =>
                rw [ha, hb, double_le_number] at hab1
                rw [hb, hc, double_le_number] at hbc1
                rw [double_le_number]
                omega⟩

/-- Two elements each of which is at most the other are the same. -/
theorem value_le_antisymm : IsAntisymm stored_number (fun x y => x.value ≤ y.value) :=
  ⟨fun a b hab hba => by
    obtain ⟨x⟩ := a
    obtain ⟨y⟩ := b
    have hab1 : x ≤ y := hab
    have hba1 : y ≤ x := hba
    cases x with
    | nan => exact absurd hab1 (double_nan_le _)
    | number n =>
        cases y with
        | nan => exact absurd hab1 (double_le_nan _)
        | number m =>
            rw [double_le_number] at hab1 hba1
            have hnm : n = m := by omega
            rw [hnm]⟩

/-- Inserting into a list in which no element is rejected by its predecessor gives such
a list again: totality of the comparison is all it takes. -/
theorem orderedInsert_chain {α : Type} (r : α → α → Prop) [DecidableRel r]
    (htotal : ∀ a b, r a b ∨ r b a) (a : α) :
    ∀ l : List α, List.Chain' r l → List.Chain' r (l.orderedInsert r a) := by
  intro l
  induction l with
  | nil => intro _; simp
  | cons b rest ih =>
      intro hchain
      rw [List.orderedInsert]
      by_cases hab : r a b
      · rw [if_pos hab]
        exact List.chain'_cons.mpr ⟨hab, hchain⟩
      · rw [if_neg hab]
        have hba : r b a := (htotal a b).resolve_left hab
        rw [List.chain'_cons']
        refine ⟨?_, ih hchain.tail⟩
        intro c hc
        cases rest with
        | nil =>
            simp only [List.orderedInsert, List.head?_cons, Option.mem_def,
              Option.some.injEq] at hc
            rw [← hc]
            exact hba
        | cons d rest2 =>
            rw [List.orderedInsert] at hc
            by_cases had : r a d
            · rw [if_pos had] at hc
              simp only [List.head?_cons, Option.mem_def, Option.some.injEq] at hc
              rw [← hc]
              exact hba
            · rw [if_neg had] at hc
              simp only [List.head?_cons, Option.mem_def, Option.some.injEq] at hc
              rw [← hc]
              exact (List.chain'_cons.mp hchain).1

/-- An insertion sort by a total comparison leaves no element rejected by its
predecessor. -/
theorem insertionSort_chain {α : Type} (r : α → α → Prop) [DecidableRel r]
    (htotal : ∀ a b, r a b ∨ r b a) (l : List α) : List.Chain' r (l.insertionSort r) := by
  induction l with
  | nil => simp
  | cons a rest ih =>
      rw [List.insertionSort]
      exact orderedInsert_chain r htotal a _ ih

/-- After `std_sort` no element is less than its predecessor. -/
theorem std_sort_chain (m_data : List stored_number) :
    List.Chain' (fun x y => ¬ (y.value < x.value)) (std_sort m_data) :=
  insertionSort_chain _ value_not_lt_total m_data

/-- What `std::is_sorted` with the comparison by value decides: no element is less than
its predecessor. -/
theorem is_sorted_iff_chain (m_data : List stored_number) :
    is_sorted (fun x_ptr y_ptr => decide (x_ptr.value < y_ptr.value)) m_data = true ↔
      List.Chain' (fun x y => ¬ (y.value < x.value)) m_data := by
  induction m_data with
  | nil => simp [is_sorted]
  | cons x rest ih =>
      cases rest with
      | nil => simp [is_sorted]
      | cons y rest2 =>
          rw [is_sorted, List.chain'_cons, ← ih]
          by_cases h : y.value < x.value
          · simp [h]
          · simp [h]

/-- On data without NaN, no element being less than its predecessor is every element
being at most its successor. -/
theorem chain_le_of_nan_free (m_data : List stored_number) (hnan : nan_free m_data) :
    List.Chain' (fun x y => ¬ (y.value < x.value)) m_data ↔
      List.Chain' (fun x y => x.value ≤ y.value) m_data := by
  induction m_data with
  | nil => simp
  | cons x rest ih =>
      cases rest with
      | nil => simp
      | cons y rest2 =>
          have hx : x.value ≠ double.nan := hnan x (List.mem_cons_self _ _)
          have hy : y.value ≠ double.nan :=
            hnan y (List.mem_cons_of_mem _ (List.mem_cons_self _ _))
          have hrest : nan_free (y :: rest2) := fun z hz => hnan z (List.mem_cons_of_mem _ hz)
          rw [List.chain'_cons, List.chain'_cons, ih hrest, double_not_lt_iff_le _ _ hx hy]

/-- Data that holds a NaN beside another element has no arrangement in non-decreasing
order. -/
theorem not_sorted_of_nan (l : List stored_number) (x : stored_number) (hx : x ∈ l)
    (hnan : x.value = double.nan) (hlen : 2 ≤ l.length) :
    ¬ List.Sorted (fun a b => a.value ≤ b.value) l := by
  intro hsorted
  obtain ⟨before, after, hl⟩ := List.append_of_mem hx
  rw [hl] at hsorted hlen
  unfold List.Sorted at hsorted
  rw [List.pairwise_append, List.pairwise_cons] at hsorted
  obtain ⟨_, ⟨hafter, _⟩, hbefore⟩ := hsorted
  cases before with
  | cons a before2 =>
      have := hbefore a (List.mem_cons_self _ _) x (List.mem_cons_self _ _)
      exact (double_le_not_nan _ _ this).2 hnan
  | nil =>
      cases after with
      | nil => simp at hlen
      | cons b after2 =>
          have := hafter b (List.mem_cons_self _ _)
          exact (double_le_not_nan _ _ this).1 hnan

/-- On data without NaN the comparison by value is a strict weak ordering. -/
theorem nan_free_strict_weak_ordering (m_data : List stored_number) (hnan : nan_free m_data) :
    strict_weak_ordering (fun x y => decide (x.value < y.value)) m_data := by
  have hnum : ∀ x ∈ m_data, ∃ n, x.value = double.number n := by
    intro x hx
    have := hnan x hx
    cases hv : x.value with
    | number n => exact ⟨n, rfl⟩
    | nan => exact absurd hv this
  refine ⟨?_, ?_, ?_⟩
  · intro x hx
    obtain ⟨n, hn⟩ := hnum x hx
    simp only [hn, double_lt_number, decide_eq_false_iff_not]
    omega
  · intro x hx y hy z hz
    obtain ⟨n, hn⟩ := hnum x hx
    obtain ⟨m, hm⟩ := hnum y hy
    obtain ⟨k, hk⟩ := hnum z hz
    simp only [hn, hm, hk, double_lt_number, decide_eq_true_eq]
    omega
  · intro x hx y hy z hz
    obtain ⟨n, hn⟩ := hnum x hx
    obtain ⟨m, hm⟩ := hnum y hy
    obtain ⟨k, hk⟩ := hnum z hz
    simp only [hn, hm, hk, double_lt_number, decide_eq_false_iff_not]
    omega

/-- On data without NaN, `std_sort` yields the permutation in non-decreasing order. -/
theorem std_sort_sorted (m_data : List stored_number) (hnan : nan_free m_data) :
    List.Sorted (fun x y => x.value ≤ y.value) (std_sort m_data) ∧
    List.Chain' (fun x y => x.value ≤ y.value) (std_sort m_data) := by
  haveI := value_le_trans
  have hperm : (std_sort m_data).Perm m_data := List.perm_insertionSort _ m_data
  have hfree : nan_free (std_sort m_data) := fun x hx => hnan x (hperm.mem_iff.mp hx)
  have hchain := (chain_le_of_nan_free _ hfree).mp (std_sort_chain m_data)
  exact ⟨List.chain'_iff_pairwise.mp hchain, hchain⟩

/-- C13, counterexample: the data [NaN, 1] meets the requirement of `std::sort`, so
`process()` is defined on it and yields a permutation of it, but no permutation of it is
in non-decreasing order. -/
theorem C13_counterexample :
    random_container_payload.sort [{ m_secret := .nan }, { m_secret := 1 }] =
      some [{ m_secret := .nan }, { m_secret := 1 }] ∧
    (payload_base.random_container_payload
      [{ m_secret := .nan }, { m_secret := 1 }]).process =
      .random_container_payload [{ m_secret := .nan }, { m_secret := 1 }] ∧
    ∀ l : List stored_number, l.Perm [{ m_secret := .nan }, { m_secret := 1 }] →
      ¬ List.Sorted (fun x y => x.value ≤ y.value) l := by
  refine ⟨by decide, by decide, ?_⟩
  intro l hperm
  refine not_sorted_of_nan l { m_secret := .nan } ?_ rfl ?_
  · exact hperm.mem_iff.mpr (List.mem_cons_self _ _)
  · rw [hperm.length_eq]
    decide

/-- C13, amended: for a RandomContainer payload whose data holds no NaN, `process()` is
defined and yields a RandomContainer whose data is in non-decreasing order of value (each
element is at most every later one) and is a permutation of the data before the call:
same length, same multiset of values. It is the only arrangement of the data in
non-decreasing order. -/
theorem C13_process_sorts_permutation (m_data : List stored_number)
    (hnan : nan_free m_data) :
    ∃ sorted,
      random_container_payload.sort m_data = some sorted ∧
      (payload_base.random_container_payload m_data).process =
        .random_container_payload sorted ∧
      List.Sorted (fun x y => x.value ≤ y.value) sorted ∧
      List.Chain' (fun x y => x.value ≤ y.value) sorted ∧
      sorted.Perm m_data ∧
      sorted.length = m_data.length ∧
      (sorted.map stored_number.value).Perm (m_data.map stored_number.value) ∧
      (∀ l : List stored_number, l.Perm m_data →
        List.Sorted (fun x y => x.value ≤ y.value) l → l = sorted) := by
  haveI := value_le_antisymm
  have hperm : (std_sort m_data).Perm m_data := List.perm_insertionSort _ m_data
  refine ⟨std_sort m_data, ?_, rfl, (std_sort_sorted m_data hnan).1,
    (std_sort_sorted m_data hnan).2, hperm, ?_, ?_, ?_⟩
  · unfold random_container_payload.sort
    rw [if_pos (nan_free_strict_weak_ordering m_data hnan)]
  · exact List.length_insertionSort _ m_data
  · exact hperm.map _
  · intro l hl hsorted
    exact List.eq_of_perm_of_sorted (hl.trans hperm.symm) hsorted
      (std_sort_sorted m_data hnan).1

/-- Witness of C13: the data [2, 1] holds no NaN and is sorted to [1, 2]. -/
theorem C13_process_sorts_permutation_witness :
    nan_free [{ m_secret := 2 }, { m_secret := 1 }] ∧
    (payload_base.random_container_payload [{ m_secret := 2 }, { m_secret := 1 }]).process =
      .random_container_payload [{ m_secret := 1 }, { m_secret := 2 }] ∧
    ∃ sorted,
      random_container_payload.sort [{ m_secret := 2 }, { m_secret := 1 }] = some sorted ∧
      List.Sorted (fun x y => x.value ≤ y.value) sorted ∧
      sorted.Perm [{ m_secret := 2 }, { m_secret := 1 }] :=
  ⟨by decide, by decide,
    (C13_process_sorts_permutation [{ m_secret := 2 }, { m_secret := 1 }] (by decide)).imp
      (fun _ h => ⟨h.1, h.2.2.1, h.2.2.2.2.1⟩)⟩

/-- C14, counterexample: on the data [2, NaN, 1] `is_processed()` returns true, since
no element is less than its predecessor, although the data is not in non-decreasing
order: 2 is not at most NaN, and 2 is not at most 1. -/
theorem C14_counterexample :
    (payload_base.random_container_payload
      [{ m_secret := 2 }, { m_secret := .nan }, { m_secret := 1 }]).is_processed = true ∧
    ¬ List.Chain' (fun x y => x.value ≤ y.value)
      [({ m_secret := 2 } : stored_number), { m_secret := .nan }, { m_secret := 1 }] ∧
    ¬ List.Sorted (fun x y => x.value ≤ y.value)
      [({ m_secret := 2 } : stored_number), { m_secret := .nan }, { m_secret := 1 }] := by
  refine ⟨by decide, fun h => ?_, fun h => ?_⟩
  · exact double_le_nan _ (List.chain'_cons.mp h).1
  · exact double_le_nan _ ((List.pairwise_cons.mp h).1 _ (List.mem_cons_self _ _))

/-- C14, amended: `is_processed()` of a RandomContainer payload is true if and only if no
element of its data is less than its predecessor; when the data holds no NaN this is the
case if and only if every element is at most its successor, equivalently at most every
later element. It is true for empty data, for a single element and for two elements of
equal value. It is a function of the data to a Boolean: the payload is left as it is. -/
theorem C14_is_processed_iff_sorted (m_data : List stored_number) :
    ((payload_base.random_container_payload m_data).is_processed = true ↔
      List.Chain' (fun x y => ¬ (y.value < x.value)) m_data) ∧
    (nan_free m_data →
      ((payload_base.random_container_payload m_data).is_processed = true ↔
        List.Chain' (fun x y => x.value ≤ y.value) m_data) ∧
      ((payload_base.random_container_payload m_data).is_processed = true ↔
        List.Sorted (fun x y => x.value ≤ y.value) m_data)) ∧
    (payload_base.random_container_payload []).is_processed = true ∧
    (∀ x, (payload_base.random_container_payload [x]).is_processed = true) ∧
    (∀ x y, x.value = y.value →
      (payload_base.random_container_payload [x, y]).is_processed = true) := by
  haveI := value_le_trans
  refine ⟨is_sorted_iff_chain m_data, fun hnan => ?_, rfl, fun _ => rfl, ?_⟩
  · have hchain := (is_sorted_iff_chain m_data).trans (chain_le_of_nan_free m_data hnan)
    exact ⟨hchain, hchain.trans List.chain'_iff_pairwise⟩
  · intro x y hxy
    refine (is_sorted_iff_chain [x, y]).mpr ?_
    rw [List.chain'_cons]
    refine ⟨?_, List.chain'_singleton _⟩
    rw [hxy]
    intro h
    exact double_lt_asymm _ _ h h

/-- Witness of C14: the data [1, 2] holds no NaN, and `is_processed()` is true on it as
every element is at most its successor. -/
theorem C14_is_processed_iff_sorted_witness :
    nan_free [{ m_secret := 1 }, { m_secret := 2 }] ∧
    ((payload_base.random_container_payload
        [{ m_secret := 1 }, { m_secret := 2 }]).is_processed = true ↔
      List.Sorted (fun x y => x.value ≤ y.value)
        [({ m_secret := 1 } : stored_number), { m_secret := 2 }]) ∧
    (payload_base.random_container_payload
      [{ m_secret := 1 }, { m_secret := 2 }]).is_processed = true :=
  ⟨by decide,
    ((C14_is_processed_iff_sorted [{ m_secret := 1 }, { m_secret := 2 }]).2.1
      (by decide)).2,
    by decide⟩

/-- Every sequence of operations on the queue leaves at most `max_queue_size` items. -/
theorem queue_run_length (max_queue_size : Nat) (ops : List queue_op) :
    (queue_run max_queue_size ops).length ≤ max_queue_size := by
  unfold queue_run
  have key : ∀ (q : List payload_base), q.length ≤ max_queue_size →
      (ops.foldl (queue_apply max_queue_size) q).length ≤ max_queue_size := by
    induction ops with
    | nil => exact fun q hq => hq
    | cons op rest ih =>
        intro q hq
        apply ih
        cases op with
        | push item =>
            unfold queue_apply queue_push
            by_cases hfull : q.length < max_queue_size
            · simp only [hfull, if_true, List.length_append, List.length_singleton]
              omega
            · simp only [hfull, if_false]
              exact hq
        | pop =>
            unfold queue_apply queue_pop
            cases q with
            | nil => exact Nat.zero_le _
            | cons item rest2 =>
                simp only [List.length_cons] at hq ⊢
                omega
  exact key [] (Nat.zero_le _)

/-- C12: whatever sequence of pushes and pops is applied to the queue constructed with
`max_queue_size`, it never holds more than `max_queue_size` items; on such a queue `push`
returns false exactly when `max_queue_size` items are held, and then leaves the contents
as they were, and otherwise appends the item; `pop` returns true exactly when the queue
is not empty, and then hands out the front item and removes it. -/
theorem C12_queue_bound (max_queue_size : Nat) (ops : List queue_op) (item : payload_base)
    (plb_ptr : Option payload_base) :
    (queue_run max_queue_size ops).length ≤ max_queue_size ∧
    ((queue_push max_queue_size (queue_run max_queue_size ops) item).1 = false ↔
      (queue_run max_queue_size ops).length = max_queue_size) ∧
    ((queue_push max_queue_size (queue_run max_queue_size ops) item).1 = false →
      (queue_push max_queue_size (queue_run max_queue_size ops) item).2 =
        queue_run max_queue_size ops) ∧
    ((queue_push max_queue_size (queue_run max_queue_size ops) item).1 = true →
      (queue_push max_queue_size (queue_run max_queue_size ops) item).2 =
        queue_run max_queue_size ops ++ [item]) ∧
    ((queue_pop (queue_run max_queue_size ops) plb_ptr).1 = true ↔
      queue_run max_queue_size ops ≠ []) ∧
    (∀ front rest, queue_run max_queue_size ops = front :: rest →
      queue_pop (queue_run max_queue_size ops) plb_ptr = (true, some front, rest)) ∧
    (queue_run max_queue_size ops = [] →
      queue_pop (queue_run max_queue_size ops) plb_ptr = (false, plb_ptr, [])) := by
  have hlen := queue_run_length max_queue_size ops
  generalize queue_run max_queue_size ops = q at hlen ⊢
  refine ⟨hlen, ?_, ?_, ?_, ?_, ?_, ?_⟩
  · unfold queue_push
    by_cases hfull : q.length < max_queue_size
    · simp only [hfull, if_true]
      constructor
      · intro h
        cases h
      · intro h
        omega
    · simp only [hfull, if_false, true_iff]
      omega
  · unfold queue_push
    by_cases hfull : q.length < max_queue_size
    · simp [hfull]
    · simp [hfull]
  · unfold queue_push
    by_cases hfull : q.length < max_queue_size
    · simp [hfull]
    · simp [hfull]
  · unfold queue_pop
    cases q <;> simp
  · intro front rest hq
    rw [hq]
    rfl
  · intro hq
    rw [hq]
    rfl


/-- What the loop body does while the server is not stopped, for a thread that offers an
item: a successful push appends the offered item and sets `produce_new_container`; a
failed push keeps the offered item in the pointer and clears `produce_new_container`. -/
theorem producer_body_running (fresh : payload_base) (p : producer_thread)
    (srv : async_websocket_server) (o : payload_base)
    (hrun : srv.m_server_stopped = false) (ho : offered_item fresh p = some o) :
    producer_body fresh p srv =
      if srv.m_payload_queue.length < srv.m_max_queue_size then
        ({ p with ptr := some o, produce_new_container := true },
          { srv with m_payload_queue := srv.m_payload_queue ++ [o] })
      else
        ({ p with ptr := some o, produce_new_container := false }, srv) := by
  unfold offered_item at ho
  unfold producer_body queue_push
  by_cases hnew : p.produce_new_container = true
  · simp only [hnew, if_true, Option.some.injEq] at ho ⊢
    subst ho
    by_cases hfull : srv.m_payload_queue.length < srv.m_max_queue_size
    · simp [hfull]
    · simp [hfull, hrun]
  · simp only [hnew, if_false] at ho ⊢
    simp only [Bool.not_eq_true] at hnew
    obtain ⟨pn, ptr, finished⟩ := p
    simp only at ho hnew ⊢
    subst ho hnew
    by_cases hfull : srv.m_payload_queue.length < srv.m_max_queue_size
    · simp [hfull]
    · simp [hfull, hrun]


/-- While the server is not stopped and the loop has not been left, an iteration of either
loop is the loop body. -/
theorem producer_loop_running
    (iteration : payload_base → producer_thread → async_websocket_server →
      producer_thread × async_websocket_server)
    (hit : is_producer_loop iteration) (fresh : payload_base) (p : producer_thread)
    (srv : async_websocket_server) (hrun : srv.m_server_stopped = false)
    (hp : p.finished = false) :
    iteration fresh p srv = producer_body fresh p srv := by
  rcases hit with h | h <;> subst h
  · simp [async_websocket_server.container_payload_producer, hp]
  · simp [async_websocket_server.sleep_payload_producer, hp, hrun]

/-- A thread whose record is consistent offers an item, and it is the held one when
`produce_new_container` is cleared. -/
theorem offered_item_of_consistent (fresh : payload_base) (record : producer_record)
    (hinv : record.consistent) :
    ∃ o, offered_item fresh record.thread = some o ∧
      (record.thread.produce_new_container = true → o = fresh) ∧
      (record.thread.produce_new_container = false → record.thread.ptr = some o) := by
  unfold offered_item
  by_cases hnew : record.thread.produce_new_container = true
  · exact ⟨fresh, by simp [hnew], fun _ => rfl, fun h => by simp [hnew] at h⟩
  · simp only [Bool.not_eq_true] at hnew
    cases hptr : record.thread.ptr with
    | none => exact absurd hptr (hinv.2.1 hnew)
    | some o => exact ⟨o, by simp [hnew], fun h => by simp [hnew] at h, fun _ => rfl⟩

/-- One iteration of either loop, met by a server that is not stopped, keeps the record
consistent, and sets `produce_new_container` exactly when its push succeeded. -/
theorem producer_iterate_consistent
    (iteration : payload_base → producer_thread → async_websocket_server →
      producer_thread × async_websocket_server)
    (hit : is_producer_loop iteration) (record : producer_record)
    (input : payload_base × async_websocket_server)
    (hrun : input.2.m_server_stopped = false) (hinv : record.consistent) :
    (record.iterate iteration input).consistent ∧
    ((record.iterate iteration input).thread.produce_new_container = true ↔
      input.2.m_payload_queue.length < input.2.m_max_queue_size) := by
  obtain ⟨o, ho, hfresh, hheld⟩ := offered_item_of_consistent input.1 record hinv
  have hbody := producer_body_running input.1 record.thread input.2 o hrun ho
  have hloop := producer_loop_running iteration hit input.1 record.thread input.2 hrun hinv.1
  obtain ⟨hfin, hptr, hfab⟩ := hinv
  unfold producer_record.consistent producer_record.iterate
  rw [hloop, hbody]
  by_cases hfull : input.2.m_payload_queue.length < input.2.m_max_queue_size
  · simp only [hfull, if_true, producer_thread.held, List.append_nil,
      List.drop_left, true_and, iff_true, hfin, Bool.true_eq_false, false_implies]
    by_cases hnew : record.thread.produce_new_container = true
    · simp only [hnew, if_true]
      rw [hfab, hfresh hnew]
      simp [producer_thread.held, hnew]
    · simp only [hnew, if_false]
      simp only [Bool.not_eq_true] at hnew
      rw [hfab]
      simp [producer_thread.held, hnew, hheld hnew]
  · simp only [hfull, if_false, producer_thread.held, List.drop_length, List.append_nil,
      hfin, true_and, iff_false, Bool.false_eq_true, not_false_eq_true, and_true,
      Option.toList_some]
    refine ⟨fun _ => by simp, ?_⟩
    by_cases hnew : record.thread.produce_new_container = true
    · simp only [hnew, if_true]
      rw [hfab, hfresh hnew]
      simp [producer_thread.held, hnew]
    · simp only [hnew, if_false]
      simp only [Bool.not_eq_true] at hnew
      rw [hfab]
      simp [producer_thread.held, hnew, hheld hnew]

/-- Iterations met by servers that are not stopped keep a record consistent. -/
theorem producer_iterations_consistent
    (iteration : payload_base → producer_thread → async_websocket_server →
      producer_thread × async_websocket_server)
    (hit : is_producer_loop iteration)
    (inputs : List (payload_base × async_websocket_server))
    (hrun : ∀ input ∈ inputs, input.2.m_server_stopped = false)
    (record : producer_record) (hinv : record.consistent) :
    (inputs.foldl (producer_record.iterate iteration) record).consistent := by
  induction inputs generalizing record with
  | nil => exact hinv
  | cons input rest ih =>
      simp only [List.foldl_cons]
      apply ih
      · intro x hx
        exact hrun x (List.mem_cons_of_mem _ hx)
      · exact (producer_iterate_consistent iteration hit record input
          (hrun input (List.mem_cons_self _ _)) hinv).1


/-- C11: in both producer loops, after any iterations during which the server was not
stopped (whatever the queue held at each of them), the loop is still running and the
fabricated items are exactly the pushed items followed by the one held back, so none has
been dropped or replaced; `produce_new_container` is set, and so the next iteration
fabricates, exactly when there has been no iteration yet or the push of the last one
succeeded; and the next iteration offers the held item when a push has failed, appends
the offered item to the queue when its push succeeds, and otherwise keeps that same item
for the iteration after it. -/
theorem C11_producer_retains_item
    (iteration : payload_base → producer_thread → async_websocket_server →
      producer_thread × async_websocket_server)
    (hit : is_producer_loop iteration)
    (inputs : List (payload_base × async_websocket_server))
    (hrun : ∀ input ∈ inputs, input.2.m_server_stopped = false)
    (next : payload_base × async_websocket_server)
    (hnext : next.2.m_server_stopped = false) :
    (producer_record.run iteration inputs).thread.finished = false ∧
    (producer_record.run iteration inputs).fabricated =
      (producer_record.run iteration inputs).pushed ++
        (producer_record.run iteration inputs).thread.held ∧
    ((producer_record.run iteration inputs).thread.produce_new_container = true ↔
      inputs = [] ∨ ∃ earlier last, inputs = earlier ++ [last] ∧
        last.2.m_payload_queue.length < last.2.m_max_queue_size) ∧
    ∃ o, offered_item next.1 (producer_record.run iteration inputs).thread = some o ∧
      ((producer_record.run iteration inputs).thread.produce_new_container = false →
        (producer_record.run iteration inputs).thread.held = [o]) ∧
      (next.2.m_payload_queue.length < next.2.m_max_queue_size →
        (iteration next.1 (producer_record.run iteration inputs).thread
          next.2).2.m_payload_queue = next.2.m_payload_queue ++ [o] ∧
        (iteration next.1 (producer_record.run iteration inputs).thread
          next.2).1.produce_new_container = true) ∧
      (¬ next.2.m_payload_queue.length < next.2.m_max_queue_size →
        (iteration next.1 (producer_record.run iteration inputs).thread next.2).2 = next.2 ∧
        (iteration next.1 (producer_record.run iteration inputs).thread next.2).1.held = [o] ∧
        ∀ fresh, offered_item fresh
          (iteration next.1 (producer_record.run iteration inputs).thread next.2).1 =
            some o) := by
  have hinit : producer_record.init.consistent := by
    refine ⟨rfl, ?_, rfl⟩
    intro h
    cases h
  have hinv : (producer_record.run iteration inputs).consistent :=
    producer_iterations_consistent iteration hit inputs hrun _ hinit
  refine ⟨hinv.1, hinv.2.2, ?_, ?_⟩
  · rcases List.eq_nil_or_concat inputs with hnil | ⟨earlier, last, hcat⟩
    · subst hnil
      simp [producer_record.run, producer_record.init, producer_thread.init]
    · rw [List.concat_eq_append] at hcat
      subst hcat
      have hearlier : (producer_record.run iteration earlier).consistent :=
        producer_iterations_consistent iteration hit earlier
          (fun x hx => hrun x (List.mem_append_left _ hx)) _ hinit
      have hlast := (producer_iterate_consistent iteration hit
        (producer_record.run iteration earlier) last
        (hrun last (List.mem_append_right _ (List.mem_singleton_self _))) hearlier).2
      have hrunlast : producer_record.run iteration (earlier ++ [last]) =
          (producer_record.run iteration earlier).iterate iteration last := by
        simp [producer_record.run, List.foldl_append]
      rw [hrunlast, hlast]
      constructor
      · intro h
        exact Or.inr ⟨earlier, last, rfl, h⟩
      · rintro (h | ⟨e2, l2, heq, h⟩)
        · simp at h
        · obtain ⟨_, hl⟩ := List.append_inj' heq rfl
          simp only [List.cons.injEq, and_true] at hl
          subst hl
          exact h
  · obtain ⟨o, ho, _, hheld⟩ :=
      offered_item_of_consistent next.1 (producer_record.run iteration inputs) hinv
    have hbody := producer_body_running next.1
      (producer_record.run iteration inputs).thread next.2 o hnext ho
    have hloop := producer_loop_running iteration hit next.1
      (producer_record.run iteration inputs).thread next.2 hnext hinv.1
    refine ⟨o, ho, ?_, ?_, ?_⟩
    · intro hnew
      simp [producer_thread.held, hnew, hheld hnew]
    · intro hfree
      rw [hloop, hbody]
      simp [hfree]
    · intro hfull
      rw [hloop, hbody]
      simp [hfull, producer_thread.held, offered_item]

/-- Witness of C11: a container producer that meets a full queue twice has fabricated one
item, pushed none, and holds that item. -/
theorem C11_producer_retains_item_witness :
    (producer_record.run async_websocket_server.container_payload_producer
      [(fresh_item, full_server), (.sleep_payload 2, full_server)]).fabricated =
      (producer_record.run async_websocket_server.container_payload_producer
        [(fresh_item, full_server), (.sleep_payload 2, full_server)]).pushed ++
      (producer_record.run async_websocket_server.container_payload_producer
        [(fresh_item, full_server), (.sleep_payload 2, full_server)]).thread.held :=
  (C11_producer_retains_item async_websocket_server.container_payload_producer
    (Or.inl rfl) [(fresh_item, full_server), (.sleep_payload 2, full_server)]
    (by decide) (fresh_item, full_server) rfl).2.1


/-- The method `process_request` starts and completes no operation. -/
theorem process_request_outstanding {σ : Type} (cb : session_callbacks σ)
    (self : async_websocket_server_session) (s : σ) :
    (self.process_request cb s).2.1.outstanding = self.outstanding := by
  cases hdec : buffers_to_string self.m_buffer with
  | malformed =>
      unfold async_websocket_server_session.process_request
      rw [hdec]
      rfl
  | archive c =>
      by_cases hcmd : c.m_command = .GETDATA ∨ c.m_command = .ERROR ∨
          (c.m_command = .RESULT ∧ c.is_processed = true)
      · rw [process_request_accepted cb self s c hdec hcmd]
      · obtain ⟨cmd, ptr⟩ := c
        simp only at hcmd
        unfold async_websocket_server_session.process_request
        rw [hdec]
        cases cmd <;>
          simp_all [command_container.from_string, command_container.get_command]

/-- The handshake completion of a session on which only the accept is outstanding leaves
a read outstanding when it succeeded and nothing otherwise. -/
theorem when_connection_accepted_outstanding (ec ws_open : Bool)
    (self : async_websocket_server_session) (srv : async_websocket_server)
    (h : self.outstanding = [.accept]) :
    (self.when_connection_accepted server_callbacks ec ws_open srv).2.1.outstanding =
      if ec then [] else [.read] := by
  unfold async_websocket_server_session.when_connection_accepted
  cases ec
  · simp [h, server_callbacks, async_websocket_server.session_sign_on,
      async_websocket_server_session.async_start_read]
  · simp [h, async_websocket_server_session.do_close]
    split <;> rfl

/-- The read completion of a session on which only the read is outstanding leaves a write
outstanding when the read succeeded and the request was accepted, and nothing
otherwise. -/
theorem when_read_outstanding (ec : read_error_code) (ws_open : Bool) (message : wire_string)
    (self : async_websocket_server_session) (srv : async_websocket_server)
    (h : self.outstanding = [.read]) :
    ((self.when_read server_callbacks ec ws_open message srv).2.1.outstanding = [.write] ∧
      ec = .success ∧
      (self.when_read server_callbacks ec ws_open message srv).1 = .returned) ∨
    (self.when_read server_callbacks ec ws_open message srv).2.1.outstanding = [] := by
  unfold async_websocket_server_session.when_read
  cases ec
  · simp only
    have hout := process_request_outstanding server_callbacks
      { self with outstanding := self.outstanding.erase .read,
                  m_buffer := self.m_buffer ++ [message] } srv
    rcases hr : async_websocket_server_session.process_request server_callbacks
      { self with outstanding := self.outstanding.erase .read,
                  m_buffer := self.m_buffer ++ [message] } srv with ⟨r, self1, s1⟩
    rw [hr] at hout
    simp only [h, List.erase_cons_head] at hout
    cases r
    · left
      simp [async_websocket_server_session.async_start_write, hout]
    · right
      exact hout
  · right
    simp [h]
  · right
    simp [h, async_websocket_server_session.do_close]
    split <;> rfl

/-- The write completion of a session on which only the write is outstanding leaves a
read outstanding when the write succeeded and the server is not stopped, and nothing
otherwise. -/
theorem when_written_outstanding (ec : Bool)
    (self : async_websocket_server_session) (srv : async_websocket_server)
    (h : self.outstanding = [.write]) :
    ((self.when_written server_callbacks ec srv).2.1.outstanding = [.read] ∧ ec = false ∧
      srv.m_server_stopped = false) ∨
    (self.when_written server_callbacks ec srv).2.1.outstanding = [] := by
  unfold async_websocket_server_session.when_written
  cases ec
  · cases hstop : srv.m_server_stopped
    · left
      simp [h, server_callbacks, async_websocket_server.server_stopped, hstop,
        async_websocket_server_session.async_start_read]
    · right
      simp [h, server_callbacks, async_websocket_server.server_stopped, hstop]
  · right
    simp [h]


/-- A session handler that does not run on session `i`, or is not enabled there, leaves
that session as it is; one that runs there replaces it by what the handler returns. -/
theorem run_session_handler_get (j : Nat) (op : async_op)
    (handler : async_websocket_server_session → async_websocket_server →
      completion × async_websocket_server_session × async_websocket_server)
    (w : world) (i : Nat) :
    ((run_session_handler j op handler w).sessions.get? i = w.sessions.get? i ∧
      ¬ (j = i ∧ op ∈ outstanding_at w i)) ∨
    (j = i ∧ ∃ session, w.sessions.get? i = some session ∧ op ∈ session.outstanding ∧
      (run_session_handler j op handler w).sessions.get? i =
        some (handler session w.server).2.1) := by
  unfold run_session_handler outstanding_at
  simp only [List.get?_eq_getElem?]
  cases hs : w.sessions[j]? with
  | none =>
      left
      refine ⟨rfl, ?_⟩
      rintro ⟨hji, hop⟩
      subst hji
      simp [hs] at hop
  | some session =>
      simp only
      have hlt : j < w.sessions.length := by
        by_contra hge
        rw [List.getElem?_eq_none (by omega)] at hs
        cases hs
      by_cases hop : op ∈ session.outstanding
      · simp only [hop, if_true]
        by_cases hji : j = i
        · right
          subst hji
          refine ⟨rfl, session, hs, hop, ?_⟩
          rcases handler session w.server with ⟨r, session1, srv1⟩
          cases r <;> simp [List.getElem?_set_self hlt]
        · left
          constructor
          · rcases handler session w.server with ⟨r, session1, srv1⟩
            cases r <;> simp [List.getElem?_set_ne hji]
          · rintro ⟨h, _⟩
            exact hji h
      · left
        simp only [hop, if_false, true_and]
        rintro ⟨hji, hop2⟩
        subst hji
        simp only [hs] at hop2
        exact hop hop2


/-- What one step does to session `i`: a handler of that session runs on it, or the
session is created with its handshake accept outstanding, or it stays as it is and the
step is no successful data completion of it. -/
theorem step_session_cases (e : event) (w : world) (i : Nat) :
    (∃ session, w.sessions.get? i = some session ∧ w.uncaught = none ∧
      ((∃ ec ws_open, e = .connection_accepted i ec ws_open ∧
          async_op.accept ∈ session.outstanding ∧
          (step e w).sessions.get? i =
            some (session.when_connection_accepted server_callbacks ec ws_open
              w.server).2.1) ∨
       (∃ ec ws_open message, e = .read i ec ws_open message ∧
          async_op.read ∈ session.outstanding ∧
          (step e w).sessions.get? i =
            some (session.when_read server_callbacks ec ws_open message w.server).2.1) ∨
       (∃ ec, e = .written i ec ∧ async_op.write ∈ session.outstanding ∧
          (step e w).sessions.get? i =
            some (session.when_written server_callbacks ec w.server).2.1))) ∨
    (w.sessions.get? i = none ∧ (∃ ec, e = .accepted ec) ∧
      (step e w).sessions.get? i =
        some { async_websocket_server_session.init with outstanding := [.accept] }) ∨
    ((step e w).sessions.get? i = w.sessions.get? i ∧
      successful_completion i e w = none) := by
  unfold step
  cases hu : w.uncaught with
  | some what =>
      right; right
      exact ⟨rfl, by simp [successful_completion, hu]⟩
  | none =>
      cases e with
      | accepted ec =>
          simp only
          by_cases hacc : w.server.accept_outstanding = true
          · simp only [hacc, if_true]
            unfold async_websocket_server.when_accepted
            simp only
            by_cases hstop : w.server.m_server_stopped = true
            · right; right
              simp [hstop, successful_completion, hu]
            · simp only [hstop, if_false]
              cases ec
              · simp only [Bool.false_eq_true, if_false, List.get?_eq_getElem?]
                rcases Nat.lt_trichotomy i w.sessions.length with hlt | heq | hgt
                · right; right
                  refine ⟨List.getElem?_append_left hlt, ?_⟩
                  simp [successful_completion, hu]
                · right; left
                  subst heq
                  refine ⟨List.getElem?_eq_none (le_refl _), ⟨false, rfl⟩, ?_⟩
                  exact List.getElem?_concat_length _ _
                · right; right
                  constructor
                  · have h1 : w.sessions[i]? = none := List.getElem?_eq_none (by omega)
                    have h2 : ∀ x : async_websocket_server_session,
                        (w.sessions ++ [x])[i]? = none := fun x =>
                      List.getElem?_eq_none (by
                        simp only [List.length_append, List.length_singleton]
                        omega)
                    rw [h1, h2]
                  · simp [successful_completion, hu]
              · right; right
                simp [successful_completion, hu]
          · right; right
            simp [hacc, successful_completion, hu]
      | connection_accepted j ec ws_open =>
          simp only
          rcases run_session_handler_get j .accept
            (async_websocket_server_session.when_connection_accepted server_callbacks ec
              ws_open) w i with ⟨h, _⟩ | ⟨hji, session, hs, hop, h⟩
          · right; right
            exact ⟨h, by simp [successful_completion, hu]⟩
          · left
            subst hji
            exact ⟨session, hs, trivial, Or.inl ⟨ec, ws_open, rfl, hop, h⟩⟩
      | read j ec ws_open message =>
          simp only
          rcases run_session_handler_get j .read
            (async_websocket_server_session.when_read server_callbacks ec ws_open message)
            w i with ⟨h, hne⟩ | ⟨hji, session, hs, hop, h⟩
          · right; right
            refine ⟨h, ?_⟩
            unfold successful_completion
            rw [hu]
            cases ec <;> simp [hne]
          · left
            subst hji
            exact ⟨session, hs, trivial, Or.inr (Or.inl ⟨ec, ws_open, message, rfl, hop, h⟩)⟩
      | written j ec =>
          simp only
          rcases run_session_handler_get j .write
            (async_websocket_server_session.when_written server_callbacks ec)
            w i with ⟨h, hne⟩ | ⟨hji, session, hs, hop, h⟩
          · right; right
            refine ⟨h, ?_⟩
            unfold successful_completion
            rw [hu]
            cases ec <;> simp [hne]
          · left
            subst hji
            exact ⟨session, hs, trivial, Or.inr (Or.inr ⟨ec, rfl, hop, h⟩)⟩
      | producer j fresh =>
          right; right
          simp only
          constructor
          · cases w.producers.get? j <;> rfl
          · simp [successful_completion, hu]


/-- A list of at most one element that has a member is that member alone. -/
theorem eq_singleton_of_mem {α : Type} {l : List α} {a : α} (hmem : a ∈ l)
    (hlen : l.length ≤ 1) : l = [a] := by
  match l, hmem, hlen with
  | [b], hmem, _ =>
      simp only [List.mem_singleton] at hmem
      rw [hmem]
  | _ :: _ :: _, _, hlen =>
      simp only [List.length_cons] at hlen
      omega

/-- The operations outstanding on a session are those of `pending_at`. -/
theorem outstanding_at_eq (w : world) (i : Nat) :
    outstanding_at w i = (pending_at w i).getD [] := by
  unfold outstanding_at pending_at
  cases w.sessions.get? i <;> rfl

/-- One step moves a session on which at most one operation is outstanding along
`session_transition`. -/
theorem step_session_transition (e : event) (w : world) (i : Nat)
    (hlen : (outstanding_at w i).length ≤ 1) :
    session_transition (pending_at w i) (successful_completion i e w)
      (pending_at (step e w) i) := by
  unfold session_transition
  rcases step_session_cases e w i with
    ⟨session, hs, hu, hcase⟩ | ⟨hs, ⟨ec, he⟩, hafter⟩ | ⟨hsame, hdone⟩
  · have hout : outstanding_at w i = session.outstanding := by
      unfold outstanding_at
      rw [hs]
    rw [hout] at hlen
    have hbefore : pending_at w i = some session.outstanding := by
      unfold pending_at
      rw [hs]
      rfl
    rcases hcase with ⟨ec, ws_open, he, hop, hafter⟩ | ⟨ec, ws_open, message, he, hop, hafter⟩ |
      ⟨ec, he, hop, hafter⟩
    · have hone := eq_singleton_of_mem hop hlen
      have hres := when_connection_accepted_outstanding ec ws_open session w.server hone
      right; left
      refine ⟨by rw [hbefore, hone], ?_, ?_⟩
      · subst he
        simp [successful_completion]
      · unfold pending_at
        rw [hafter]
        cases ec
        · left
          simp [hres]
        · right
          simp [hres]
    · have hone := eq_singleton_of_mem hop hlen
      have hmem : async_op.read ∈ outstanding_at w i := by
        rw [hout]
        exact hop
      rcases when_read_outstanding ec ws_open message session w.server hone with
        ⟨hres, hec, _⟩ | hres
      · right; right; left
        refine ⟨by rw [hbefore, hone], ?_, Or.inl ?_⟩
        · subst he hec
          simp [successful_completion, hu, hmem]
        · unfold pending_at
          rw [hafter]
          simp [hres]
      · cases ec
        · right; right; left
          refine ⟨by rw [hbefore, hone], ?_, Or.inr ?_⟩
          · subst he
            simp [successful_completion, hu, hmem]
          · unfold pending_at
            rw [hafter]
            simp [hres]
        · right; right; right; left
          refine ⟨by rw [hbefore, hone], ?_, ?_⟩
          · subst he
            simp [successful_completion, hu]
          · unfold pending_at
            rw [hafter]
            simp [hres]
        · right; right; right; left
          refine ⟨by rw [hbefore, hone], ?_, ?_⟩
          · subst he
            simp [successful_completion, hu]
          · unfold pending_at
            rw [hafter]
            simp [hres]
    · have hone := eq_singleton_of_mem hop hlen
      have hmem : async_op.write ∈ outstanding_at w i := by
        rw [hout]
        exact hop
      rcases when_written_outstanding ec session w.server hone with ⟨hres, hec, _⟩ | hres
      · right; right; right; right; left
        refine ⟨by rw [hbefore, hone], ?_, Or.inl ?_⟩
        · subst he hec
          simp [successful_completion, hu, hmem]
        · unfold pending_at
          rw [hafter]
          simp [hres]
      · cases ec
        · right; right; right; right; left
          refine ⟨by rw [hbefore, hone], ?_, Or.inr ?_⟩
          · subst he
            simp [successful_completion, hu, hmem]
          · unfold pending_at
            rw [hafter]
            simp [hres]
        · right; right; right; right; right; left
          refine ⟨by rw [hbefore, hone], ?_, ?_⟩
          · subst he
            simp [successful_completion, hu]
          · unfold pending_at
            rw [hafter]
            simp [hres]
  · left
    refine ⟨by unfold pending_at; rw [hs]; rfl, ?_, ?_⟩
    · subst he
      unfold successful_completion
      cases w.uncaught <;> rfl
    · unfold pending_at
      rw [hafter]
      rfl
  · right; right; right; right; right; right
    refine ⟨?_, hdone⟩
    unfold pending_at
    rw [hsame]


/-- A move along `session_transition` keeps at most one operation outstanding. -/
theorem session_transition_length (before after : Option (List async_op))
    (done : Option async_op) (h : session_transition before done after) :
    (before.getD []).length ≤ 1 → (after.getD []).length ≤ 1 := by
  intro hlen
  rcases h with ⟨_, _, h⟩ | ⟨_, _, h | h⟩ | ⟨_, _, h | h⟩ | ⟨_, _, h⟩ | ⟨_, _, h | h⟩ |
    ⟨_, _, h⟩ | ⟨h, _⟩
  all_goals first
    | (rw [h]; exact hlen)
    | (rw [h]; simp)

/-- No completions follow on the empty sequence of events. -/
theorem follows_nil (pending : Option (List async_op)) : follows pending [] := by
  unfold follows
  split <;> simp [alternating]

/-- When a session moves along `session_transition` and the later completions follow
what is outstanding after the move, all completions follow what was outstanding before. -/
theorem follows_of_transition (before after : Option (List async_op))
    (done : Option async_op) (rest : List async_op)
    (h : session_transition before done after) (hrest : follows after rest) :
    follows before (done.toList ++ rest) := by
  rcases h with ⟨hb, hd, ha⟩ | ⟨hb, hd, ha | ha⟩ | ⟨hb, hd, ha | ha⟩ | ⟨hb, hd, ha⟩ |
    ⟨hb, hd, ha | ha⟩ | ⟨hb, hd, ha⟩ | ⟨ha, hd⟩
  all_goals subst hd
  all_goals try subst hb
  all_goals try subst ha
  all_goals simp_all [follows, alternating]

/-- One step keeps at most one operation outstanding on a session. -/
theorem step_outstanding_length (e : event) (w : world) (i : Nat)
    (hlen : (outstanding_at w i).length ≤ 1) :
    (outstanding_at (step e w) i).length ≤ 1 := by
  have h := step_session_transition e w i hlen
  rw [outstanding_at_eq] at hlen ⊢
  exact session_transition_length _ _ _ h hlen

/-- Any sequence of steps keeps at most one operation outstanding on a session. -/
theorem run_events_outstanding_length (es : List event) (w : world) (i : Nat)
    (hlen : (outstanding_at w i).length ≤ 1) :
    (outstanding_at (run_events es w) i).length ≤ 1 := by
  induction es generalizing w with
  | nil => exact hlen
  | cons e rest ih => exact ih (step e w) (step_outstanding_length e w i hlen)

/-- The successful data completions of a session follow what is outstanding on it. -/
theorem completions_follow (i : Nat) (es : List event) (w : world)
    (hlen : (outstanding_at w i).length ≤ 1) :
    follows (pending_at w i) (successful_completions i es w) := by
  induction es generalizing w with
  | nil => exact follows_nil _
  | cons e rest ih =>
      unfold successful_completions
      exact follows_of_transition _ _ _ _ (step_session_transition e w i hlen)
        (ih (step e w) (step_outstanding_length e w i hlen))

/-- The event loop starts without sessions. -/
theorem run_sessions_nil (cfg : async_websocket_server) (w0 : world)
    (hrun : cfg.run false = .ok (some w0)) : w0.sessions = [] := by
  rw [(run_start cfg w0 hrun).1]


/-- A step that puts a write among the outstanding operations of a session is the
successful completion of a read of that session. -/
theorem write_started_by_read (e : event) (w : world) (i : Nat)
    (hlen : (outstanding_at w i).length ≤ 1)
    (hafter : async_op.write ∈ outstanding_at (step e w) i)
    (hbefore : async_op.write ∉ outstanding_at w i) :
    ∃ ws_open message, e = .read i .success ws_open message := by
  rcases step_session_cases e w i with
    ⟨session, hs, hu, hcase⟩ | ⟨hs, ⟨ec, he⟩, hnew⟩ | ⟨hsame, _⟩
  · have hout : outstanding_at w i = session.outstanding := by
      unfold outstanding_at
      rw [hs]
    rw [hout] at hlen
    rcases hcase with ⟨ec, ws_open, he, hop, hres⟩ | ⟨ec, ws_open, message, he, hop, hres⟩ |
      ⟨ec, he, hop, hres⟩
    · exfalso
      unfold outstanding_at at hafter
      rw [hres] at hafter
      simp only at hafter
      rw [when_connection_accepted_outstanding ec ws_open session w.server
        (eq_singleton_of_mem hop hlen)] at hafter
      cases ec <;> simp at hafter
    · unfold outstanding_at at hafter
      rw [hres] at hafter
      simp only at hafter
      rcases when_read_outstanding ec ws_open message session w.server
        (eq_singleton_of_mem hop hlen) with ⟨_, hec, _⟩ | hnone
      · subst hec
        exact ⟨ws_open, message, he⟩
      · rw [hnone] at hafter
        simp at hafter
    · exfalso
      unfold outstanding_at at hafter
      rw [hres] at hafter
      simp only at hafter
      rcases when_written_outstanding ec session w.server
        (eq_singleton_of_mem hop hlen) with ⟨hread, _, _⟩ | hnone
      · rw [hread] at hafter
        simp at hafter
      · rw [hnone] at hafter
        simp at hafter
  · exfalso
    unfold outstanding_at at hafter
    rw [hnew] at hafter
    simp at hafter
  · exfalso
    apply hbefore
    unfold outstanding_at at hafter ⊢
    rw [hsame] at hafter
    exact hafter

/-- A step that puts a read among the outstanding operations of a session is the
successful completion of its handshake accept or of a write of that session. -/
theorem read_started_by_accept_or_write (e : event) (w : world) (i : Nat)
    (hlen : (outstanding_at w i).length ≤ 1)
    (hafter : async_op.read ∈ outstanding_at (step e w) i)
    (hbefore : async_op.read ∉ outstanding_at w i) :
    (∃ ws_open, e = .connection_accepted i false ws_open) ∨ e = .written i false := by
  rcases step_session_cases e w i with
    ⟨session, hs, hu, hcase⟩ | ⟨hs, ⟨ec, he⟩, hnew⟩ | ⟨hsame, _⟩
  · have hout : outstanding_at w i = session.outstanding := by
      unfold outstanding_at
      rw [hs]
    rw [hout] at hlen
    rcases hcase with ⟨ec, ws_open, he, hop, hres⟩ | ⟨ec, ws_open, message, he, hop, hres⟩ |
      ⟨ec, he, hop, hres⟩
    · unfold outstanding_at at hafter
      rw [hres] at hafter
      simp only at hafter
      rw [when_connection_accepted_outstanding ec ws_open session w.server
        (eq_singleton_of_mem hop hlen)] at hafter
      cases ec
      · exact Or.inl ⟨ws_open, he⟩
      · simp at hafter
    · exfalso
      unfold outstanding_at at hafter
      rw [hres] at hafter
      simp only at hafter
      rcases when_read_outstanding ec ws_open message session w.server
        (eq_singleton_of_mem hop hlen) with ⟨hwrite, _, _⟩ | hnone
      · rw [hwrite] at hafter
        simp at hafter
      · rw [hnone] at hafter
        simp at hafter
    · unfold outstanding_at at hafter
      rw [hres] at hafter
      simp only at hafter
      rcases when_written_outstanding ec session w.server
        (eq_singleton_of_mem hop hlen) with ⟨_, hec, _⟩ | hnone
      · subst hec
        exact Or.inr he
      · rw [hnone] at hafter
        simp at hafter
  · exfalso
    unfold outstanding_at at hafter
    rw [hnew] at hafter
    simp at hafter
  · exfalso
    apply hbefore
    unfold outstanding_at at hafter ⊢
    rw [hsame] at hafter
    exact hafter

/-- C20: in a run of the server, whatever events `es` have been executed, no session has
more than one operation outstanding; the successful data completions of every session
during `es` go read, write, read, write in turn, starting with a read; a step that
starts a write on a session is the successful completion of a read of that session; and
a step that starts a read is the successful completion of its handshake accept or of one
of its writes. -/
theorem C20_session_serial (cfg : async_websocket_server) (w0 : world)
    (hrun : cfg.run false = .ok (some w0)) (es : List event) (e : event) (i : Nat) :
    (outstanding_at (run_events es w0) i).length ≤ 1 ∧
    alternating .read (successful_completions i es w0) ∧
    (async_op.write ∈ outstanding_at (step e (run_events es w0)) i →
      async_op.write ∉ outstanding_at (run_events es w0) i →
      ∃ ws_open message, e = .read i .success ws_open message) ∧
    (async_op.read ∈ outstanding_at (step e (run_events es w0)) i →
      async_op.read ∉ outstanding_at (run_events es w0) i →
      (∃ ws_open, e = .connection_accepted i false ws_open) ∨ e = .written i false) := by
  have hnil := run_sessions_nil cfg w0 hrun
  have hstart : (outstanding_at w0 i).length ≤ 1 := by
    unfold outstanding_at
    rw [hnil]
    simp
  have hnone : pending_at w0 i = none := by
    unfold pending_at
    rw [hnil]
    rfl
  have hlen := run_events_outstanding_length es w0 i hstart
  refine ⟨hlen, ?_, write_started_by_read e _ i hlen,
    read_started_by_accept_or_write e _ i hlen⟩
  have hfollow := completions_follow i es w0 hstart
  rw [hnone] at hfollow
  exact hfollow

/-- Witness of C20: in a run in which session 0 is accepted, reads a GETDATA, writes its
answer and reads again, its successful completions are read, write, read, and one
operation is outstanding on it at the end. -/
theorem C20_session_serial_witness :
    (outstanding_at
      (run_events
        [.accepted false, .connection_accepted 0 false true,
          .read 0 .success true getdata_message, .written 0 false,
          .read 0 .success true getdata_message]
        { server :=
            { configured_server 3 .container 4 with
              m_acceptor_is_open := true, accept_outstanding := true }
          sessions := []
          producers := [producer_thread.init]
          uncaught := none }) 0).length ≤ 1 ∧
    alternating .read
      (successful_completions 0
        [.accepted false, .connection_accepted 0 false true,
          .read 0 .success true getdata_message, .written 0 false,
          .read 0 .success true getdata_message]
        { server :=
            { configured_server 3 .container 4 with
              m_acceptor_is_open := true, accept_outstanding := true }
          sessions := []
          producers := [producer_thread.init]
          uncaught := none }) :=
  ⟨(C20_session_serial (configured_server 3 .container 4) _ rfl
      [.accepted false, .connection_accepted 0 false true,
        .read 0 .success true getdata_message, .written 0 false,
        .read 0 .success true getdata_message] (.accepted false) 0).1,
    (C20_session_serial (configured_server 3 .container 4) _ rfl
      [.accepted false, .connection_accepted 0 false true,
        .read 0 .success true getdata_message, .written 0 false,
        .read 0 .success true getdata_message] (.accepted false) 0).2.1⟩

/-- The completions of a session that reads, writes and reads again. -/
theorem session_completions_example :
    successful_completions 0
      [.accepted false, .connection_accepted 0 false true,
        .read 0 .success true getdata_message, .written 0 false,
        .read 0 .success true getdata_message]
      { server :=
          { configured_server 3 .container 4 with
            m_acceptor_is_open := true, accept_outstanding := true }
        sessions := []
        producers := [producer_thread.init]
        uncaught := none } = [.read, .write, .read] := by
  decide


/-- The task `process_request` on the whole client agrees with `process_request` on the
container: same outcome, same container afterwards, and the message written, if any, is
the one it hands to `async_start_write`. -/
theorem process_request_task_container (raw : Nat) (in_data : wire_string)
    (self : async_websocket_client) :
    (self.process_request_task raw in_data).1 =
      (async_websocket_client.process_request self.m_command_container in_data).1 ∧
    (self.process_request_task raw in_data).2.m_command_container =
      (async_websocket_client.process_request self.m_command_container in_data).2.1 ∧
    (self.process_request_task raw in_data).2.sent =
      self.sent ++
        (async_websocket_client.process_request self.m_command_container in_data).2.2.toList := by
  unfold async_websocket_client.process_request_task async_websocket_client.process_request
  cases in_data with
  | malformed => simp [command_container.from_string]
  | archive c =>
      obtain ⟨cmd, ptr⟩ := c
      cases cmd <;> cases ptr <;>
        simp [command_container.from_string, command_container.get_command,
          command_container.process, command_container.set_command,
          command_container.reset, async_websocket_client.async_start_write]

/-- C17, counterexample: a client that receives the COMPUTE of the container [3, NaN],
on which `process()` is defined, answers with a RESULT whose data is a permutation of
[3, NaN], and no permutation of that data is sorted. -/
theorem C17_counterexample :
    random_container_payload.sort [{ m_secret := 3 }, { m_secret := .nan }] =
      some [{ m_secret := 3 }, { m_secret := .nan }] ∧
    (∃ sorted,
      (async_websocket_client.connected.process_request_task 0
        (.archive
          { m_command := .COMPUTE
            m_payload_ptr := some (.random_container_payload
              [{ m_secret := 3 }, { m_secret := .nan }]) })).2.sent =
        [command_container.to_string
          { m_command := .RESULT, m_payload_ptr := some (.random_container_payload sorted) }] ∧
      sorted.Perm [{ m_secret := 3 }, { m_secret := .nan }]) ∧
    ∀ l : List stored_number, l.Perm [{ m_secret := 3 }, { m_secret := .nan }] →
      ¬ List.Sorted (fun x y => x.value ≤ y.value) l := by
  refine ⟨by decide,
    ⟨[{ m_secret := 3 }, { m_secret := .nan }], by decide, List.Perm.refl _⟩, ?_⟩
  intro l hperm
  refine not_sorted_of_nan l { m_secret := .nan } ?_ rfl ?_
  · exact hperm.mem_iff.mpr (List.mem_cons_of_mem _ (List.mem_cons_self _ _))
  · rw [hperm.length_eq]
    decide

/-- C17, amended: when the incoming container is a COMPUTE with payload `p`, the task
`process_request` of the client returns, its container is (RESULT, `p` after `process()`)
and exactly that container is handed to `async_start_write`; after `process()` a sleep
payload has the same duration and a container payload whose data holds no NaN holds the
sorted permutation of its data. When the COMPUTE carries no payload the task throws and
writes nothing. -/
theorem C17_client_compute (raw : Nat) (self : async_websocket_client)
    (c : command_container) (hcmd : c.m_command = .COMPUTE) :
    (∀ p, c.m_payload_ptr = some p →
      self.process_request_task raw (.archive c) =
        (.returned,
          { self with
            m_command_container := { m_command := .RESULT, m_payload_ptr := some p.process }
            m_out_buffer :=
              [command_container.to_string
                { m_command := .RESULT, m_payload_ptr := some p.process }]
            outstanding := self.outstanding ++ [.write]
            sent := self.sent ++
              [command_container.to_string
                { m_command := .RESULT, m_payload_ptr := some p.process }] })) ∧
    (∀ t, (payload_base.sleep_payload t).process = .sleep_payload t) ∧
    (∀ d, nan_free d → ∃ sorted,
      (payload_base.random_container_payload d).process = .random_container_payload sorted ∧
      List.Sorted (fun x y => x.value ≤ y.value) sorted ∧ sorted.Perm d) ∧
    (c.m_payload_ptr = none →
      (∃ what, (self.process_request_task raw (.archive c)).1 = .thrown what) ∧
      (self.process_request_task raw (.archive c)).2.sent = self.sent ∧
      (self.process_request_task raw (.archive c)).2.outstanding = self.outstanding ∧
      (self.process_request_task raw (.archive c)).2.m_out_buffer = self.m_out_buffer) := by
  obtain ⟨cmd, ptr⟩ := c
  simp only at hcmd
  subst hcmd
  refine ⟨?_, fun _ => rfl, ?_, ?_⟩
  · intro p hp
    simp only at hp
    subst hp
    simp [async_websocket_client.process_request_task, command_container.from_string,
      command_container.get_command, command_container.process,
      command_container.set_command, async_websocket_client.async_start_write]
  · intro d hnan
    exact ⟨std_sort d, rfl, (std_sort_sorted d hnan).1, List.perm_insertionSort _ d⟩
  · intro hp
    simp only at hp
    subst hp
    simp [async_websocket_client.process_request_task, command_container.from_string,
      command_container.get_command, command_container.process]

/-- The distribution the client sleeps by yields between 10 and 50. -/
theorem uniform_int_distribution_range (raw : Nat) :
    10 ≤ uniform_int_distribution 10 50 raw ∧ uniform_int_distribution 10 50 raw ≤ 50 := by
  unfold uniform_int_distribution
  omega

/-- C18: when the incoming container is a NODATA or an ERROR, with or without a payload,
then whatever the random engine yields the task `process_request` of the client returns,
has slept once, for a whole number of milliseconds between 10 and 50, and has handed the
container (GETDATA, no payload) to `async_start_write`; the payload that came in is
gone. -/
theorem C18_client_backoff (raw : Nat) (self : async_websocket_client)
    (c : command_container) (hcmd : c.m_command = .NODATA ∨ c.m_command = .ERROR) :
    ∃ d : Int, 10 ≤ d ∧ d ≤ 50 ∧
      self.process_request_task raw (.archive c) =
        (.returned,
          { self with
            m_command_container := { m_command := .GETDATA, m_payload_ptr := none }
            m_out_buffer :=
              [command_container.to_string { m_command := .GETDATA, m_payload_ptr := none }]
            outstanding := self.outstanding ++ [.write]
            sent := self.sent ++
              [command_container.to_string { m_command := .GETDATA, m_payload_ptr := none }]
            slept := self.slept ++ [d] }) := by
  obtain ⟨cmd, ptr⟩ := c
  simp only at hcmd
  refine ⟨uniform_int_distribution 10 50 raw, (uniform_int_distribution_range raw).1,
    (uniform_int_distribution_range raw).2, ?_⟩
  rcases hcmd with h | h <;> subst h <;>
    simp [async_websocket_client.process_request_task, command_container.from_string,
      command_container.get_command, command_container.reset,
      async_websocket_client.async_start_write]

/-- C19: when the incoming container decodes and its command is none of COMPUTE, NODATA,
ERROR, that is, it is GETDATA, RESULT or NONE, the task `process_request` of the client
throws and starts no write: nothing is handed to `async_start_write`, no operation is
added, the out-buffer is untouched. -/
theorem C19_client_rejects (raw : Nat) (self : async_websocket_client)
    (c : command_container)
    (hcmd : c.m_command ≠ .COMPUTE ∧ c.m_command ≠ .NODATA ∧ c.m_command ≠ .ERROR) :
    (c.m_command = .GETDATA ∨ c.m_command = .RESULT ∨ c.m_command = .NONE) ∧
    (∃ what, (self.process_request_task raw (.archive c)).1 = .thrown what) ∧
    (self.process_request_task raw (.archive c)).2.sent = self.sent ∧
    (self.process_request_task raw (.archive c)).2.outstanding = self.outstanding ∧
    (self.process_request_task raw (.archive c)).2.m_out_buffer = self.m_out_buffer := by
  obtain ⟨cmd, ptr⟩ := c
  simp only at hcmd
  cases cmd <;>
    simp_all [async_websocket_client.process_request_task, command_container.from_string,
      command_container.get_command]


/-- The container `getAndSerializeWorkItem` resets to is one the server may send. -/
theorem work_item_container_server_message (r : Bool) (plb_ptr : Option payload_base) :
    server_message (work_item_container r plb_ptr).to_string := by
  unfold server_message command_container.to_string
  refine ⟨work_item_container r plb_ptr, rfl, ?_⟩
  cases r <;> cases plb_ptr <;> simp [work_item_container]

/-- A successful read completion that returns leaves in the buffer a single message the
server may send. -/
theorem when_read_buffer {σ : Type} (cb : session_callbacks σ) (ws_open : Bool)
    (message : wire_string) (self : async_websocket_server_session) (s : σ)
    (hret : (self.when_read cb .success ws_open message s).1 = .returned) :
    ∃ m, (self.when_read cb .success ws_open message s).2.1.m_buffer = [m] ∧
      server_message m := by
  unfold async_websocket_server_session.when_read at hret ⊢
  simp only at hret ⊢
  cases hdec : buffers_to_string (self.m_buffer ++ [message]) with
  | malformed =>
      exfalso
      unfold async_websocket_server_session.process_request at hret
      simp only [hdec, command_container.from_string] at hret
      cases hret
  | archive c =>
      by_cases hcmd : c.m_command = .GETDATA ∨ c.m_command = .ERROR ∨
          (c.m_command = .RESULT ∧ c.is_processed = true)
      · rw [process_request_accepted cb _ s c hdec hcmd]
        exact ⟨_, rfl, work_item_container_server_message _ _⟩
      · exfalso
        obtain ⟨⟨what, hthrown⟩, _⟩ := process_request_rejected cb
          { self with outstanding := self.outstanding.erase .read,
                      m_buffer := self.m_buffer ++ [message] } s c hdec hcmd
        rcases hr : async_websocket_server_session.process_request cb
          { self with outstanding := self.outstanding.erase .read,
                      m_buffer := self.m_buffer ++ [message] } s with ⟨r, self1, s1⟩
        rw [hr] at hret hthrown
        simp only at hthrown
        subst hthrown
        simp at hret

/-- In every state of a run every session has at most one operation outstanding, and
what it hands to `async_write` is a single message the server may send. -/
theorem reachable_sessions_ok (cfg : async_websocket_server) (w : world)
    (hreach : reachable cfg w) (i : Nat) (session : async_websocket_server_session)
    (hs : w.sessions.get? i = some session) :
    session.outstanding.length ≤ 1 ∧ session_sends_ok session := by
  induction hreach generalizing i session with
  | start w0 hrun =>
      rw [run_sessions_nil cfg w0 hrun] at hs
      cases hs
  | next e w _ ih =>
      rcases step_session_cases e w i with
        ⟨before, hb, hu, hcase⟩ | ⟨hb, _, hnew⟩ | ⟨hsame, _⟩
      · have hlen := (ih i before hb).1
        rcases hcase with ⟨ec, ws_open, he, hop, hres⟩ |
          ⟨ec, ws_open, message, he, hop, hres⟩ | ⟨ec, he, hop, hres⟩
        · rw [hres] at hs
          cases hs
          have hout := when_connection_accepted_outstanding ec ws_open before w.server
            (eq_singleton_of_mem hop hlen)
          unfold session_sends_ok
          rw [hout]
          cases ec <;> simp
        · rw [hres] at hs
          cases hs
          rcases when_read_outstanding ec ws_open message before w.server
            (eq_singleton_of_mem hop hlen) with ⟨hout, hec, hret⟩ | hout
          · subst hec
            refine ⟨by rw [hout]; simp, fun _ => ?_⟩
            exact when_read_buffer server_callbacks ws_open message before w.server hret
          · unfold session_sends_ok
            rw [hout]
            simp
        · rw [hres] at hs
          cases hs
          unfold session_sends_ok
          rcases when_written_outstanding ec before w.server
            (eq_singleton_of_mem hop hlen) with ⟨hout, _, _⟩ | hout
          · rw [hout]
            simp
          · rw [hout]
            simp
      · rw [hnew] at hs
        cases hs
        unfold session_sends_ok
        simp
      · rw [hsame] at hs
        exact ih i session hs


/-- The task `process_request` of the client hands nothing to `async_start_write`, or one
message the client may send. -/
theorem process_request_task_sent (raw : Nat) (in_data : wire_string)
    (self : async_websocket_client) :
    (self.process_request_task raw in_data).2.sent = self.sent ∨
    ∃ m, client_message m ∧ (self.process_request_task raw in_data).2.sent = self.sent ++ [m] := by
  unfold async_websocket_client.process_request_task client_message
  cases in_data with
  | malformed => simp [command_container.from_string]
  | archive c =>
      obtain ⟨cmd, ptr⟩ := c
      cases cmd <;> cases ptr <;>
        simp [command_container.from_string, command_container.get_command,
          command_container.process, command_container.set_command,
          command_container.reset, async_websocket_client.async_start_write,
          command_container.to_string]

/-- A message appended to sent messages that follow the grammar keeps them following it,
provided it is one the client may send. -/
theorem client_sent_ok_append (c c1 : async_websocket_client) (m : wire_string)
    (hm : client_message m) (hsent : c1.sent = c.sent ++ [m])
    (h : ∃ rest,
      c.sent = command_container.to_string { m_command := .GETDATA, m_payload_ptr := none } ::
        rest ∧ ∀ x ∈ rest, client_message x) :
    client_sent_ok c1 := by
  obtain ⟨rest, hrest, hall⟩ := h
  right
  refine ⟨rest ++ [m], by rw [hsent, hrest]; rfl, ?_⟩
  intro x hx
  rcases List.mem_append.mp hx with hx | hx
  · exact hall x hx
  · rw [List.mem_singleton.mp hx]
    exact hm

/-- The request GETDATA without a payload is a message the client may send. -/
theorem getdata_client_message :
    client_message
      (command_container.to_string { m_command := .GETDATA, m_payload_ptr := none }) :=
  ⟨_, rfl, Or.inr ⟨rfl, rfl⟩⟩

/-- Running a posted task keeps the sent messages following the grammar. -/
theorem process_task_sent_ok (raw : Nat) (in_data : wire_string)
    (c0 c : async_websocket_client) (hsame : c0.sent = c.sent)
    (h : ∃ rest,
      c.sent = command_container.to_string { m_command := .GETDATA, m_payload_ptr := none } ::
        rest ∧ ∀ x ∈ rest, client_message x) :
    client_sent_ok
      (match async_websocket_client.process_request_task raw in_data c0 with
        | (.returned, c1) => c1
        | (.thrown what, c1) => { c1 with uncaught := some what }) := by
  have hsent := process_request_task_sent raw in_data c0
  rcases hr : async_websocket_client.process_request_task raw in_data c0 with ⟨r, c1⟩
  rw [hr] at hsent
  simp only at hsent
  rw [hsame] at hsent
  rcases hsent with hsent | ⟨m, hm, happ⟩
  · right
    cases r <;> simp only [hsent] <;> exact h
  · cases r
    · exact client_sent_ok_append c c1 m hm happ h
    · exact client_sent_ok_append c { c1 with uncaught := _ } m hm happ h

/-- One step of the client keeps its sent messages following the grammar. -/
theorem client_step_sent_ok (e : client_event) (c : async_websocket_client)
    (h : client_sent_ok c) : client_sent_ok (client_step e c) := by
  unfold client_step
  cases hu : c.uncaught with
  | some what => exact h
  | none =>
      cases e with
      | handshake_succeeded ec =>
          simp only
          by_cases hh : c.handshake_outstanding = true
          · simp only [hh, if_true]
            unfold async_websocket_client.when_handshake_succeeded
            cases ec
            · simp only [Bool.false_eq_true, if_false]
              rcases h with ⟨hsent, _, _⟩ | h
              · right
                refine ⟨[], ?_, by simp⟩
                simp [async_websocket_client.async_start_read,
                  async_websocket_client.async_start_write, hsent, command_container.reset]
              · exact client_sent_ok_append c _ _ getdata_client_message
                  (by simp [async_websocket_client.async_start_read,
                    async_websocket_client.async_start_write, command_container.reset]) h
            · simp only [if_true]
              exact h
          · simp only [hh, if_false]
            exact h
      | read ec message =>
          simp only
          by_cases hop : async_op.read ∈ c.outstanding
          · simp only [hop, if_true]
            rcases h with ⟨_, hout, _⟩ | h
            · rw [hout] at hop
              simp at hop
            · right
              unfold async_websocket_client.when_read
              cases ec <;> exact h
          · simp only [hop, if_false]
            exact h
      | written ec =>
          simp only
          by_cases hop : async_op.write ∈ c.outstanding
          · simp only [hop, if_true]
            rcases h with ⟨_, hout, _⟩ | h
            · rw [hout] at hop
              simp at hop
            · right
              unfold async_websocket_client.when_written
              cases ec <;> exact h
          · simp only [hop, if_false]
            exact h
      | process k raw =>
          simp only
          cases hk : c.posted.get? k with
          | none => exact h
          | some in_data =>
              simp only
              rcases h with ⟨_, _, hposted⟩ | h
              · rw [hposted] at hk
                simp at hk
              · exact process_task_sent_ok raw in_data _ c rfl h

/-- Whatever events the client executes, its sent messages follow the grammar. -/
theorem client_run_sent_ok (es : List client_event) : client_sent_ok (client_run es) := by
  unfold client_run
  have key : ∀ c, client_sent_ok c →
      client_sent_ok (es.foldl (fun acc e => client_step e acc) c) := by
    induction es with
    | nil => exact fun c h => h
    | cons e rest ih => exact fun c h => ih _ (client_step_sent_ok e c h)
  exact key _ (Or.inl ⟨rfl, rfl, rfl⟩)


/-- C16: every container `getAndSerializeWorkItem` serialises is (COMPUTE, payload) or
(NODATA, no payload), and in every state of a run a session with a write outstanding
sends a single such message; whatever events a client executes, the messages it has
handed to `async_write` are none, or a first (GETDATA, no payload) followed only by
(RESULT, payload) and (GETDATA, no payload); and none of these messages has the command
NONE. -/
theorem C16_protocol_grammar {σ : Type} (cb : session_callbacks σ)
    (self : async_websocket_server_session) (s : σ)
    (cfg : async_websocket_server) (w : world) (hreach : reachable cfg w)
    (i : Nat) (session : async_websocket_server_session)
    (hs : w.sessions.get? i = some session)
    (hwrite : async_op.write ∈ session.outstanding)
    (es : List client_event) :
    server_message (self.getAndSerializeWorkItem cb s).1 ∧
    (∃ m, session.m_buffer = [m] ∧ server_message m) ∧
    ((client_run es).sent = [] ∨
      ∃ rest,
        (client_run es).sent =
          command_container.to_string { m_command := .GETDATA, m_payload_ptr := none } ::
            rest ∧
        ∀ m ∈ rest, client_message m) ∧
    (∀ c, session.m_buffer = [.archive c] → c.m_command ≠ .NONE) ∧
    (∀ m ∈ (client_run es).sent, ∀ c, m = .archive c → c.m_command ≠ .NONE) := by
  have hserver := (reachable_sessions_ok cfg w hreach i session hs).2 hwrite
  have hclient : (client_run es).sent = [] ∨
      ∃ rest,
        (client_run es).sent =
          command_container.to_string { m_command := .GETDATA, m_payload_ptr := none } ::
            rest ∧
        ∀ m ∈ rest, client_message m := by
    rcases client_run_sent_ok es with ⟨h, _, _⟩ | h
    · exact Or.inl h
    · exact Or.inr h
  refine ⟨?_, hserver, hclient, ?_, ?_⟩
  · rw [getAndSerializeWorkItem_eq]
    exact work_item_container_server_message _ _
  · intro c hc
    obtain ⟨m, hm, c2, hc2, hgrammar⟩ := hserver
    rw [hm] at hc
    simp only [List.cons.injEq, and_true] at hc
    rw [hc2] at hc
    cases hc
    rcases hgrammar with ⟨h, _⟩ | ⟨h, _⟩ <;> rw [h] <;> decide
  · intro m hm c hc
    rcases hclient with hnil | ⟨rest, hsent, hall⟩
    · rw [hnil] at hm
      cases hm
    · rw [hsent] at hm
      rcases List.mem_cons.mp hm with hfirst | hrest
      · rw [hfirst, command_container.to_string] at hc
        cases hc
        decide
      · obtain ⟨c2, hc2, hgrammar⟩ := hall m hrest
        rw [hc2] at hc
        cases hc
        rcases hgrammar with ⟨h, _⟩ | ⟨h, _⟩ <;> rw [h] <;> decide

/-- Witness of C16: a session that answers a GETDATA on an empty queue sends a single
message the server may send, and a client that has processed a NODATA has sent GETDATA
first. -/
theorem C16_protocol_grammar_witness :
    (∃ m, ({ m_ws_is_open := true, m_ws_close_code := none, outstanding := [.write],
             m_command_container := { m_command := .NODATA, m_payload_ptr := none },
             m_buffer := [command_container.to_string
               { m_command := .NODATA, m_payload_ptr := none }] } :
          async_websocket_server_session).m_buffer = [m] ∧ server_message m) ∧
    ((client_run client_nodata_trace).sent = [] ∨
      ∃ rest,
        (client_run client_nodata_trace).sent =
          command_container.to_string { m_command := .GETDATA, m_payload_ptr := none } ::
            rest ∧
        ∀ m ∈ rest, client_message m) :=
  have h := C16_protocol_grammar server_callbacks async_websocket_server_session.init
    example_start.server (configured_server 3 .container 4)
    (run_events nodata_trace example_start)
    (reachable_run_events _ _ _ (reachable.start _ rfl)) 0
    { m_ws_is_open := true, m_ws_close_code := none, outstanding := [.write],
      m_command_container := { m_command := .NODATA, m_payload_ptr := none },
      m_buffer := [command_container.to_string
        { m_command := .NODATA, m_payload_ptr := none }] }
    (by decide) (by decide) client_nodata_trace
  ⟨h.2.1, h.2.2.1⟩

/-- The run of the witness of the client grammar: GETDATA, then GETDATA again after the
NODATA, with one sleep of 17 ms. -/
theorem client_nodata_trace_sent :
    (client_run client_nodata_trace).sent =
      [command_container.to_string { m_command := .GETDATA, m_payload_ptr := none },
        command_container.to_string { m_command := .GETDATA, m_payload_ptr := none }] ∧
    (client_run client_nodata_trace).slept = [17] := by
  decide

/-- Witness of C17: a client that receives the COMPUTE of the container [2, 1] answers
with the RESULT of the container [1, 2]. -/
theorem C17_client_compute_witness :
    (async_websocket_client.connected.process_request_task 0
      (.archive { m_command := .COMPUTE, m_payload_ptr := some fresh_item })).2.sent =
      [command_container.to_string
        { m_command := .RESULT,
          m_payload_ptr := some (.random_container_payload
            [{ m_secret := 1 }, { m_secret := 2 }]) }] :=
  (congrArg (fun r => r.2.sent)
    ((C17_client_compute 0 async_websocket_client.connected
      { m_command := .COMPUTE, m_payload_ptr := some fresh_item } rfl).1 fresh_item rfl)).trans
    (by decide)

/-- Witness of C18: on a NODATA the client sleeps between 10 and 50 ms and sends
GETDATA. -/
theorem C18_client_backoff_witness :
    ∃ d : Int, 10 ≤ d ∧ d ≤ 50 ∧
      async_websocket_client.connected.process_request_task 48
          (.archive { m_command := .NODATA, m_payload_ptr := some fresh_item }) =
        (.returned,
          { async_websocket_client.connected with
            m_command_container := { m_command := .GETDATA, m_payload_ptr := none }
            m_out_buffer :=
              [command_container.to_string { m_command := .GETDATA, m_payload_ptr := none }]
            outstanding := async_websocket_client.connected.outstanding ++ [.write]
            sent := async_websocket_client.connected.sent ++
              [command_container.to_string { m_command := .GETDATA, m_payload_ptr := none }]
            slept := async_websocket_client.connected.slept ++ [d] }) :=
  C18_client_backoff 48 async_websocket_client.connected
    { m_command := .NODATA, m_payload_ptr := some fresh_item } (Or.inl rfl)

/-- Witness of C19: a client that receives a RESULT throws and writes nothing. -/
theorem C19_client_rejects_witness :
    (∃ what, (async_websocket_client.connected.process_request_task 0
      (.archive { m_command := .RESULT, m_payload_ptr := some fresh_item })).1 =
        .thrown what) ∧
    (async_websocket_client.connected.process_request_task 0
      (.archive { m_command := .RESULT, m_payload_ptr := some fresh_item })).2.sent =
      async_websocket_client.connected.sent :=
  have h := C19_client_rejects 0 async_websocket_client.connected
    { m_command := .RESULT, m_payload_ptr := some fresh_item } (by decide)
  ⟨h.2.1, h.2.2.1⟩


/-- A session with nothing outstanding keeps nothing outstanding through any events. -/
theorem run_events_pending_nil (es : List event) (w : world) (i : Nat)
    (h : pending_at w i = some []) : pending_at (run_events es w) i = some [] := by
  induction es generalizing w with
  | nil => exact h
  | cons e rest ih =>
      apply ih
      have hlen : (outstanding_at w i).length ≤ 1 := by
        rw [outstanding_at_eq, h]
        simp
      have ht := step_session_transition e w i hlen
      rw [h] at ht
      unfold session_transition at ht
      rcases ht with ⟨hb, _⟩ | ⟨hb, _⟩ | ⟨hb, _⟩ | ⟨hb, _⟩ | ⟨hb, _⟩ | ⟨hb, _⟩ | ⟨ha, _⟩
      · cases hb
      · simp at hb
      · simp at hb
      · simp at hb
      · simp at hb
      · simp at hb
      · exact ha

/-- The write completion of session `i`, executed while only that write is outstanding on
it, replaces the session by what `when_written` returns. -/
theorem step_written_session (w : world) (i : Nat) (ec : Bool)
    (session : async_websocket_server_session)
    (hs : w.sessions.get? i = some session) (hout : session.outstanding = [.write])
    (hu : w.uncaught = none) :
    (step (.written i ec) w).sessions.get? i =
      some (session.when_written server_callbacks ec w.server).2.1 := by
  have hstep : step (.written i ec) w =
      run_session_handler i .write
        (async_websocket_server_session.when_written server_callbacks ec) w := by
    unfold step
    rw [hu]
  rw [hstep]
  rcases run_session_handler_get i .write
    (async_websocket_server_session.when_written server_callbacks ec) w i with
    ⟨_, hne⟩ | ⟨_, before, hb, _, hafter⟩
  · exfalso
    apply hne
    refine ⟨rfl, ?_⟩
    unfold outstanding_at
    rw [hs]
    simp only [hout, List.mem_singleton]
  · rw [hs] at hb
    cases hb
    exact hafter


/-- After a successful write completion of a session on which only the write was
outstanding, a read is outstanding when the server is not stopped and nothing is when it
is. -/
theorem when_written_success_outstanding (self : async_websocket_server_session)
    (srv : async_websocket_server) (hout : self.outstanding = [.write]) :
    (self.when_written server_callbacks false srv).2.1.outstanding =
      if srv.m_server_stopped then [] else [.read] := by
  unfold async_websocket_server_session.when_written
  cases hstop : srv.m_server_stopped <;>
    simp [hout, server_callbacks, async_websocket_server.server_stopped, hstop,
      async_websocket_server_session.async_start_read]

/-- C21: when the write of a session completes successfully, the session has a new read
outstanding afterwards if and only if `m_server_stopped` is false in that state, and
then the read is the only operation outstanding; when `m_server_stopped` is true the
session has nothing outstanding afterwards, and whatever events follow it never has a
read or a write outstanding again. -/
theorem C21_read_after_write (w : world) (i : Nat)
    (session : async_websocket_server_session)
    (hs : w.sessions.get? i = some session) (hout : session.outstanding = [.write])
    (hu : w.uncaught = none) (es : List event) :
    (async_op.read ∈ outstanding_at (step (.written i false) w) i ↔
      w.server.m_server_stopped = false) ∧
    (w.server.m_server_stopped = false →
      outstanding_at (step (.written i false) w) i = [.read]) ∧
    (w.server.m_server_stopped = true →
      outstanding_at (step (.written i false) w) i = [] ∧
      outstanding_at (run_events es (step (.written i false) w)) i = []) := by
  have hafter := step_written_session w i false session hs hout hu
  have hres := when_written_success_outstanding session w.server hout
  have hnow : outstanding_at (step (.written i false) w) i =
      if w.server.m_server_stopped then [] else [.read] := by
    unfold outstanding_at
    rw [hafter]
    exact hres
  refine ⟨?_, ?_, ?_⟩
  · rw [hnow]
    cases w.server.m_server_stopped <;> simp
  · intro h
    rw [hnow, h]
    rfl
  · intro h
    refine ⟨by rw [hnow, h]; rfl, ?_⟩
    have hpending : pending_at (step (.written i false) w) i = some [] := by
      unfold pending_at
      rw [hafter]
      simp only [Option.map_some', hres, h, if_true]
    rw [outstanding_at_eq, run_events_pending_nil es _ i hpending]
    rfl

/-- Witness of C21: a session whose NODATA has been written while the server is running
has a read outstanding afterwards. -/
theorem C21_read_after_write_witness :
    outstanding_at (step (.written 0 false) (run_events nodata_trace example_start)) 0 =
      [.read] :=
  (C21_read_after_write (run_events nodata_trace example_start) 0
    { m_ws_is_open := true, m_ws_close_code := none, outstanding := [.write],
      m_command_container := { m_command := .NODATA, m_payload_ptr := none },
      m_buffer := [command_container.to_string
        { m_command := .NODATA, m_payload_ptr := none }] }
    (by decide) rfl (by decide) []).2.1 (by decide)

/-- A processed payload passes `is_processed()`. -/
theorem process_is_processed (p : payload_base) : p.process.is_processed = true := by
  cases p with
  | sleep_payload t => rfl
  | random_container_payload d =>
      exact (is_sorted_iff_chain (std_sort d)).mpr (std_sort_chain d)

/-- C28: for every payload `p` (a container with any data, a sleep of any duration), the
client that receives (COMPUTE, `p`) hands (RESULT, `p` after `process()`) to
`async_start_write`; `is_processed()` is true on that payload; and a server session
whose buffer holds that reply does not throw in `process_request`: it goes on to fetch
the next work item as for a GETDATA. -/
theorem C28_reply_passes_check (p : payload_base) (raw : Nat)
    (client : async_websocket_client) {σ : Type} (cb : session_callbacks σ)
    (self : async_websocket_server_session) (s : σ) :
    (client.process_request_task raw
      (command_container.to_string { m_command := .COMPUTE, m_payload_ptr := some p })).2.sent =
      client.sent ++
        [command_container.to_string { m_command := .RESULT, m_payload_ptr := some p.process }] ∧
    p.process.is_processed = true ∧
    (command_container.is_processed
      { m_command := .RESULT, m_payload_ptr := some p.process }) = true ∧
    (async_websocket_server_session.process_request cb
      { self with m_buffer := [command_container.to_string
          { m_command := .RESULT, m_payload_ptr := some p.process }] } s).1 = .returned ∧
    async_websocket_server_session.process_request cb
      { self with m_buffer := [command_container.to_string
          { m_command := .RESULT, m_payload_ptr := some p.process }] } s =
      async_websocket_server_session.process_request cb
        { self with m_buffer := [command_container.to_string
            { m_command := .GETDATA, m_payload_ptr := none }] } s := by
  have hp := process_is_processed p
  have hc : (command_container.is_processed
      { m_command := .RESULT, m_payload_ptr := some p.process }) = true := hp
  have hresult := process_request_accepted cb
    { self with m_buffer := [command_container.to_string
        { m_command := .RESULT, m_payload_ptr := some p.process }] } s
    { m_command := .RESULT, m_payload_ptr := some p.process } rfl
    (Or.inr (Or.inr ⟨rfl, hc⟩))
  have hgetdata := process_request_accepted cb
    { self with m_buffer := [command_container.to_string
        { m_command := .GETDATA, m_payload_ptr := none }] } s
    { m_command := .GETDATA, m_payload_ptr := none } rfl (Or.inl rfl)
  refine ⟨?_, hp, hc, by rw [hresult], by rw [hresult, hgetdata]⟩
  simp [async_websocket_client.process_request_task, command_container.from_string,
    command_container.to_string, command_container.get_command, command_container.process,
    command_container.set_command, async_websocket_client.async_start_write]


/-- The method `getNextPayloadItem` keeps the relation between the stop flag and the
served-count, as long as the increment does not wrap. -/
theorem getNextPayloadItem_stop_iff (srv : async_websocket_server)
    (plb_ptr : Option payload_base)
    (hinv : srv.m_server_stopped = true ↔
      srv.m_n_max_packages_served < srv.m_n_packages_served)
    (hroom : srv.m_n_packages_served + 1 < SIZE_MODULUS) :
    ((srv.getNextPayloadItem plb_ptr).2.2.m_server_stopped = true ↔
      (srv.getNextPayloadItem plb_ptr).2.2.m_n_max_packages_served <
        (srv.getNextPayloadItem plb_ptr).2.2.m_n_packages_served) ∧
    (srv.getNextPayloadItem plb_ptr).2.2.m_n_max_packages_served =
      srv.m_n_max_packages_served := by
  have hmod : (srv.m_n_packages_served + 1) % SIZE_MODULUS = srv.m_n_packages_served + 1 :=
    Nat.mod_eq_of_lt hroom
  unfold async_websocket_server.getNextPayloadItem queue_pop
  cases srv.m_payload_queue with
  | nil => exact ⟨hinv, rfl⟩
  | cons item rest =>
      simp only
      by_cases hlt : srv.m_n_packages_served < srv.m_n_max_packages_served
      · simp only [hlt, if_true, hmod, and_true]
        rw [hinv]
        omega
      · simp only [hlt, if_false, hmod, and_true, true_iff]
        omega

/-- The event loop starts with the counter at 0 and the flag false. -/
theorem run_counters (cfg : async_websocket_server) (w0 : world)
    (hrun : cfg.run false = .ok (some w0)) :
    w0.server.m_n_packages_served = 0 ∧ w0.server.m_server_stopped = false ∧
    w0.server.m_n_max_packages_served = cfg.m_n_max_packages_served ∧
    w0.server.accept_outstanding = true := by
  rw [(run_start cfg w0 hrun).1]
  exact ⟨rfl, rfl, rfl, rfl⟩

/-- In every state of a run without overflow the stop flag is set exactly when the
served-count exceeds the threshold, and the threshold is the configured one. -/
theorem stop_iff_of_reachable (cfg : async_websocket_server) (w : world)
    (h : reachable_without_overflow cfg w) :
    (w.server.m_server_stopped = true ↔
      w.server.m_n_max_packages_served < w.server.m_n_packages_served) ∧
    w.server.m_n_max_packages_served = cfg.m_n_max_packages_served := by
  induction h with
  | start w0 hrun =>
      obtain ⟨hserved, hstop, hmax, _⟩ := run_counters cfg w0 hrun
      rw [hserved, hstop]
      exact ⟨by simp, hmax⟩
  | next e w _ hroom ih =>
      rcases step_server e w with hs | hs
      · obtain ⟨h1, h2, h3⟩ := hs
        rw [h1, h2, h3]
        exact ih
      · rw [hs]
        obtain ⟨hiff, hmax⟩ := getNextPayloadItem_stop_iff w.server none ih.1 hroom
        exact ⟨hiff, hmax.trans ih.2⟩

/-- C29: in every state reachable from the start of `run()` without an overflow of the
counter, `m_server_stopped` is true if and only if `m_n_packages_served` exceeds
`m_n_max_packages_served`; and a call of `getNextPayloadItem` that sets the flag is made
with the counter exactly at the threshold, so it is the successful dispatch number
threshold plus one, and it returns true with its item. -/
theorem C29_stop_iff_served_exceeds (cfg : async_websocket_server) (w : world)
    (h : reachable_without_overflow cfg w) (plb_ptr : Option payload_base) :
    (w.server.m_server_stopped = true ↔
      cfg.m_n_max_packages_served < w.server.m_n_packages_served) ∧
    (w.server.m_server_stopped = false →
      (w.server.getNextPayloadItem plb_ptr).2.2.m_server_stopped = true →
      w.server.m_n_packages_served = cfg.m_n_max_packages_served ∧
      (w.server.getNextPayloadItem plb_ptr).1 = true ∧
      (∃ item rest, w.server.m_payload_queue = item :: rest ∧
        (w.server.getNextPayloadItem plb_ptr).2.1 = some item) ∧
      (w.server.getNextPayloadItem plb_ptr).2.2.m_n_packages_served =
        (cfg.m_n_max_packages_served + 1) % SIZE_MODULUS) := by
  obtain ⟨hiff, hmax⟩ := stop_iff_of_reachable cfg w h
  rw [hmax] at hiff
  refine ⟨hiff, ?_⟩
  intro hrunning hset
  have hle : w.server.m_n_packages_served ≤ cfg.m_n_max_packages_served := by
    by_contra hgt
    have := hiff.mpr (by omega)
    rw [hrunning] at this
    cases this
  unfold async_websocket_server.getNextPayloadItem queue_pop at hset ⊢
  cases hq : w.server.m_payload_queue with
  | nil =>
      rw [hq] at hset
      simp only at hset
      rw [hrunning] at hset
      cases hset
  | cons item rest =>
      rw [hq] at hset
      simp only at hset ⊢
      by_cases hlt : w.server.m_n_packages_served < w.server.m_n_max_packages_served
      · simp only [hlt, if_true] at hset
        rw [hrunning] at hset
        cases hset
      · have heq : w.server.m_n_packages_served = cfg.m_n_max_packages_served := by
          rw [hmax] at hlt
          omega
        simp only [hlt, if_false]
        exact ⟨heq, trivial, ⟨item, rest, rfl, rfl⟩, by rw [heq]⟩


/-- Witness of C29: with threshold 0, after the first session has been served one item
the flag is set and the counter is 1. -/
theorem C29_stop_iff_served_exceeds_witness :
    (step (.read 0 .success true getdata_message)
      (step (.producer 0 fresh_item)
        (step (.connection_accepted 0 false true)
          (step (.accepted false) zero_start)))).server.m_server_stopped = true ↔
    (configured_server 0 .container 4).m_n_max_packages_served <
      (step (.read 0 .success true getdata_message)
        (step (.producer 0 fresh_item)
          (step (.connection_accepted 0 false true)
            (step (.accepted false) zero_start)))).server.m_n_packages_served :=
  (C29_stop_iff_served_exceeds (configured_server 0 .container 4) _
    (.next (.read 0 .success true getdata_message) _
      (.next (.producer 0 fresh_item) _
        (.next (.connection_accepted 0 false true) _
          (.next (.accepted false) _ (.start zero_start rfl) (by decide))
          (by decide))
        (by decide))
      (by decide))
    none).1

/-- The method `getNextPayloadItem` leaves the outstanding accept as it is. -/
theorem getNextPayloadItem_accept (srv : async_websocket_server)
    (plb_ptr : Option payload_base) :
    (srv.getNextPayloadItem plb_ptr).2.2.accept_outstanding = srv.accept_outstanding := by
  unfold async_websocket_server.getNextPayloadItem queue_pop
  cases srv.m_payload_queue with
  | nil => rfl
  | cons item rest =>
      simp only
      split <;> rfl

/-- The sign-on callback leaves the outstanding accept and the stop flag as they are. -/
theorem session_sign_on_accept (sign_on : Bool) (srv : async_websocket_server) :
    (srv.session_sign_on sign_on).2.accept_outstanding = srv.accept_outstanding := by
  unfold async_websocket_server.session_sign_on
  split
  · rfl
  · split <;> rfl

/-- The handshake completion of a session leaves the outstanding accept as it is. -/
theorem when_connection_accepted_accept (ec ws_open : Bool)
    (self : async_websocket_server_session) (srv : async_websocket_server) :
    (self.when_connection_accepted server_callbacks ec ws_open srv).2.2.accept_outstanding =
      srv.accept_outstanding := by
  unfold async_websocket_server_session.when_connection_accepted
  cases ec
  · simp only [Bool.false_eq_true, if_false]
    have h := session_sign_on_accept true srv
    change (server_callbacks.f_server_sign_on true srv).2.accept_outstanding = _ at h
    rcases hr : server_callbacks.f_server_sign_on true srv with ⟨r, s1⟩
    rw [hr] at h
    cases r <;> exact h
  · simp only [if_true]
    rw [do_close_server]
    exact session_sign_on_accept false srv

/-- The read completion of a session leaves the outstanding accept as it is. -/
theorem when_read_accept (ec : read_error_code) (ws_open : Bool) (message : wire_string)
    (self : async_websocket_server_session) (srv : async_websocket_server) :
    (self.when_read server_callbacks ec ws_open message srv).2.2.accept_outstanding =
      srv.accept_outstanding := by
  unfold async_websocket_server_session.when_read
  cases ec
  · simp only
    have hsrv := process_request_server
      { m_ws_is_open := self.m_ws_is_open, m_ws_close_code := self.m_ws_close_code,
        outstanding := self.outstanding.erase .read,
        m_command_container := self.m_command_container,
        m_buffer := self.m_buffer ++ [message] } srv
    rcases hr : async_websocket_server_session.process_request server_callbacks
      { m_ws_is_open := self.m_ws_is_open, m_ws_close_code := self.m_ws_close_code,
        outstanding := self.outstanding.erase .read,
        m_command_container := self.m_command_container,
        m_buffer := self.m_buffer ++ [message] } srv with ⟨r, self1, s1⟩
    rw [hr] at hsrv
    simp only at hsrv
    have hacc : s1.accept_outstanding = srv.accept_outstanding := by
      rcases hsrv with h | h
      · rw [h]
      · rw [h]
        exact getNextPayloadItem_accept srv none
    cases r <;> exact hacc
  · rfl
  · simp only
    rw [do_close_server]
    exact session_sign_on_accept false srv

/-- A producer iteration leaves the outstanding accept as it is. -/
theorem producer_body_accept (fresh : payload_base) (p : producer_thread)
    (srv : async_websocket_server) :
    (producer_body fresh p srv).2.accept_outstanding = srv.accept_outstanding := by
  unfold producer_body queue_push
  simp only
  split
  · rfl
  · split
    · split at * <;> simp_all
    · split at * <;> simp_all <;> split <;> simp


/-- A step that is not the completion of an accept leaves the outstanding accept as it
is. -/
theorem step_accept_same (e : event) (w : world) (hne : ∀ ec, e ≠ .accepted ec) :
    (step e w).server.accept_outstanding = w.server.accept_outstanding := by
  unfold step
  cases hu : w.uncaught with
  | some what => rfl
  | none =>
      cases e with
      | accepted ec => exact absurd rfl (hne ec)
      | connection_accepted i ec ws_open =>
          simp only
          rcases run_session_handler_server i .accept
            (async_websocket_server_session.when_connection_accepted server_callbacks ec ws_open)
            w with h | ⟨session, h⟩
          · rw [h]
          · rw [h]
            exact when_connection_accepted_accept ec ws_open session w.server
      | read i ec ws_open message =>
          simp only
          rcases run_session_handler_server i .read
            (async_websocket_server_session.when_read server_callbacks ec ws_open message)
            w with h | ⟨session, h⟩
          · rw [h]
          · rw [h]
            exact when_read_accept ec ws_open message session w.server
      | written i ec =>
          simp only
          rcases run_session_handler_server i .write
            (async_websocket_server_session.when_written server_callbacks ec)
            w with h | ⟨session, h⟩
          · rw [h]
          · rw [h, when_written_server]
      | producer j fresh =>
          simp only
          cases hp : w.producers.get? j with
          | none => rfl
          | some p =>
              simp only
              cases ht : w.server.m_payload_type with
              | sleep =>
                  simp only
                  unfold async_websocket_server.sleep_payload_producer
                  split
                  · rfl
                  · split
                    · rfl
                    · exact producer_body_accept fresh p w.server
              | container =>
                  simp only
                  unfold async_websocket_server.container_payload_producer
                  split
                  · rfl
                  · exact producer_body_accept fresh p w.server
              | command =>
                  simp only
                  unfold async_websocket_server.container_payload_producer
                  split
                  · rfl
                  · exact producer_body_accept fresh p w.server

/-- One step keeps an accept outstanding as long as the server is not stopped. -/
theorem step_accept_armed (e : event) (w : world)
    (h : w.server.m_server_stopped = false → w.server.accept_outstanding = true) :
    (step e w).server.m_server_stopped = false →
      (step e w).server.accept_outstanding = true := by
  intro hrunning
  have hbefore : w.server.m_server_stopped = false := by
    cases hstop : w.server.m_server_stopped
    · rfl
    · rw [step_stopped e w hstop] at hrunning
      cases hrunning
  by_cases hacc : ∃ ec, e = .accepted ec
  · obtain ⟨ec, he⟩ := hacc
    subst he
    unfold step at hrunning ⊢
    cases hu : w.uncaught with
    | some what => exact h hbefore
    | none =>
        simp only [h hbefore, if_true]
        unfold async_websocket_server.when_accepted
        simp [hbefore]
  · rw [step_accept_same e w (fun ec he => hacc ⟨ec, he⟩)]
    exact h hbefore

/-- C30: in every state of a run (the acceptor having been opened) in which
`m_server_stopped` is false an accept is outstanding on the acceptor: `run()` issues the
first one and `when_accepted` issues the next whenever the server is not stopped, with or
without an accept error. Hence a state in which the event loop has no work left, neither
an accept nor an operation of a session, has `m_server_stopped` true, which is what
`run()` asserts after the loop. -/
theorem C30_assertion_valid (cfg : async_websocket_server) (w : world)
    (hreach : reachable cfg w) (ec : Bool) :
    (w.server.m_server_stopped = false → w.server.accept_outstanding = true) ∧
    (out_of_work w → w.server.m_server_stopped = true) ∧
    (w.uncaught = none → w.server.accept_outstanding = true →
      w.server.m_server_stopped = false →
      (step (.accepted ec) w).server.accept_outstanding = true) := by
  have harmed : w.server.m_server_stopped = false → w.server.accept_outstanding = true := by
    induction hreach with
    | start w0 hrun =>
        intro _
        exact (run_counters cfg w0 hrun).2.2.2
    | next e w _ ih => exact step_accept_armed e w ih
  refine ⟨harmed, ?_, ?_⟩
  · intro hout
    cases hstop : w.server.m_server_stopped
    · have := harmed hstop
      rw [hout.1] at this
      cases this
    · rfl
  · intro hu hacc hrunning
    unfold step
    rw [hu]
    simp only [hacc, if_true]
    unfold async_websocket_server.when_accepted
    simp [hrunning]

/-- Witness of C30: after an accept error at the start of a run the accept is
outstanding again. -/
theorem C30_assertion_valid_witness :
    (step (.accepted true) example_start).server.accept_outstanding = true :=
  (C30_assertion_valid (configured_server 3 .container 4) example_start
    (reachable.start _ rfl) true).2.2 rfl rfl rfl


/-- The task `process_request` of the client starts at most a write, and leaves the
posted tasks and the handshake alone. -/
theorem process_request_task_outstanding (raw : Nat) (in_data : wire_string)
    (self : async_websocket_client) :
    ((self.process_request_task raw in_data).2.outstanding = self.outstanding ∨
      (self.process_request_task raw in_data).2.outstanding = self.outstanding ++ [.write]) ∧
    (self.process_request_task raw in_data).2.posted = self.posted ∧
    (self.process_request_task raw in_data).2.handshake_outstanding =
      self.handshake_outstanding := by
  unfold async_websocket_client.process_request_task
  cases in_data with
  | malformed => simp [command_container.from_string]
  | archive c =>
      obtain ⟨cmd, ptr⟩ := c
      cases cmd <;> cases ptr <;>
        simp [command_container.from_string, command_container.get_command,
          command_container.process, command_container.set_command,
          command_container.reset, async_websocket_client.async_start_write]

/-- C22, as stated, fails for a peer that sends two frames without waiting: once both
have been processed two writes are outstanding on the client. -/
theorem C22_counterexample :
    (client_run burst_trace).outstanding = [.read, .write, .write] ∧
    (client_run burst_trace).outstanding.count .write = 2 ∧
    ¬ (client_run burst_trace).outstanding.count .write ≤ 1 := by
  refine ⟨?_, ?_, ?_⟩ <;> decide


/-- Running a posted task starts at most a write, and leaves the posted tasks and the
handshake alone. -/
theorem process_task_fields (raw : Nat) (in_data : wire_string)
    (c0 : async_websocket_client) :
    ((match async_websocket_client.process_request_task raw in_data c0 with
        | (.returned, c1) => c1
        | (.thrown what, c1) => { c1 with uncaught := some what }).outstanding =
        c0.outstanding ∨
      (match async_websocket_client.process_request_task raw in_data c0 with
        | (.returned, c1) => c1
        | (.thrown what, c1) => { c1 with uncaught := some what }).outstanding =
        c0.outstanding ++ [.write]) ∧
    (match async_websocket_client.process_request_task raw in_data c0 with
        | (.returned, c1) => c1
        | (.thrown what, c1) => { c1 with uncaught := some what }).posted = c0.posted ∧
    (match async_websocket_client.process_request_task raw in_data c0 with
        | (.returned, c1) => c1
        | (.thrown what, c1) => { c1 with uncaught := some what }).handshake_outstanding =
      c0.handshake_outstanding := by
  have h := process_request_task_outstanding raw in_data c0
  rcases hr : async_websocket_client.process_request_task raw in_data c0 with ⟨r, c1⟩
  rw [hr] at h
  cases r <;> exact h

/-- One step of the client keeps its reads in order. -/
theorem client_step_reads_ok (e : client_event) (c : async_websocket_client)
    (h : client_reads_ok c) : client_reads_ok (client_step e c) := by
  obtain ⟨hcount, hhand⟩ := h
  unfold client_step
  cases hu : c.uncaught with
  | some what => exact ⟨hcount, hhand⟩
  | none =>
      cases e with
      | handshake_succeeded ec =>
          simp only
          by_cases hh : c.handshake_outstanding = true
          · obtain ⟨hout, hposted⟩ := hhand hh
            simp only [hh, if_true]
            unfold async_websocket_client.when_handshake_succeeded client_reads_ok
            cases ec <;>
              simp [async_websocket_client.async_start_read,
                async_websocket_client.async_start_write, hout]
          · simp only [hh, if_false]
            exact ⟨hcount, hhand⟩
      | read ec message =>
          simp only
          by_cases hop : async_op.read ∈ c.outstanding
          · have hnot : c.handshake_outstanding ≠ true := by
              intro hh
              rw [(hhand hh).1] at hop
              simp at hop
            simp only [hop, if_true]
            unfold async_websocket_client.when_read client_reads_ok
            cases ec
            · simp only [Bool.false_eq_true, if_false,
                async_websocket_client.async_start_read, List.count_append,
                List.count_erase_self]
              refine ⟨?_, fun hh => absurd hh hnot⟩
              have hpos : 0 < c.outstanding.count .read := List.count_pos_iff.mpr hop
              simp
              omega
            · simp only [if_true, List.count_erase_self]
              refine ⟨by omega, fun hh => absurd hh hnot⟩
          · simp only [hop, if_false]
            exact ⟨hcount, hhand⟩
      | written ec =>
          simp only
          by_cases hop : async_op.write ∈ c.outstanding
          · have hnot : c.handshake_outstanding ≠ true := by
              intro hh
              rw [(hhand hh).1] at hop
              simp at hop
            simp only [hop, if_true]
            unfold async_websocket_client.when_written client_reads_ok
            have hne : async_op.read ≠ async_op.write := by decide
            cases ec
            · simp only [Bool.false_eq_true, if_false, List.count_erase_of_ne hne]
              exact ⟨hcount, fun hh => absurd hh hnot⟩
            · simp only [if_true, List.count_erase_of_ne hne]
              exact ⟨hcount, fun hh => absurd hh hnot⟩
          · simp only [hop, if_false]
            exact ⟨hcount, hhand⟩
      | process k raw =>
          simp only
          cases hk : c.posted.get? k with
          | none => exact ⟨hcount, hhand⟩
          | some in_data =>
              simp only
              have hnot : c.handshake_outstanding ≠ true := by
                intro hh
                rw [(hhand hh).2] at hk
                simp at hk
              obtain ⟨hout, _, hflag⟩ := process_task_fields raw in_data
                { c with posted := c.posted.eraseIdx k, uncaught := none }
              unfold client_reads_ok
              rw [hflag]
              refine ⟨?_, fun hh => absurd hh hnot⟩
              rcases hout with ho | ho
              · rw [ho]
                exact hcount
              · rw [ho]
                simp only [List.count_append]
                have : List.count async_op.read [async_op.write] = 0 := by decide
                omega


/-- One step of the client for a peer that waits keeps its writes in order. -/
theorem client_step_writes_ok (e : client_event) (c : async_websocket_client)
    (hr : client_reads_ok c) (hw : client_writes_ok c) (hpeer : peer_waits e c) :
    client_writes_ok (client_step e c) := by
  obtain ⟨_, hhand⟩ := hr
  unfold client_writes_ok at hw ⊢
  unfold client_step
  cases hu : c.uncaught with
  | some what => exact hw
  | none =>
      cases e with
      | handshake_succeeded ec =>
          simp only
          by_cases hh : c.handshake_outstanding = true
          · obtain ⟨hout, hposted⟩ := hhand hh
            simp only [hh, if_true]
            unfold async_websocket_client.when_handshake_succeeded
            cases ec <;>
              simp [async_websocket_client.async_start_read,
                async_websocket_client.async_start_write, hout, hposted]
          · simp only [hh, if_false]
            exact hw
      | read ec message =>
          simp only
          by_cases hop : async_op.read ∈ c.outstanding
          · simp only [hop, if_true]
            unfold async_websocket_client.when_read
            have hne : async_op.write ≠ async_op.read := by decide
            cases ec
            · obtain ⟨hnowrite, hposted⟩ := hpeer
              have hzero : c.outstanding.count .write = 0 :=
                List.count_eq_zero_of_not_mem hnowrite
              simp only [Bool.false_eq_true, if_false,
                async_websocket_client.async_start_read, List.count_append,
                List.count_erase_of_ne hne, hzero, hposted, List.nil_append,
                List.length_singleton]
              have : List.count async_op.write [async_op.read] = 0 := by decide
              omega
            · simp only [if_true, List.count_erase_of_ne hne]
              exact hw
          · simp only [hop, if_false]
            exact hw
      | written ec =>
          simp only
          by_cases hop : async_op.write ∈ c.outstanding
          · simp only [hop, if_true]
            unfold async_websocket_client.when_written
            cases ec
            · simp only [Bool.false_eq_true, if_false, List.count_erase_self]
              omega
            · simp only [if_true, List.count_erase_self]
              omega
          · simp only [hop, if_false]
            exact hw
      | process k raw =>
          simp only
          cases hk : c.posted.get? k with
          | none => exact hw
          | some in_data =>
              simp only
              have hlt : k < c.posted.length := by
                by_contra hge
                rw [List.get?_eq_none.mpr (by omega)] at hk
                cases hk
              obtain ⟨hout, hposted, _⟩ := process_task_fields raw in_data
                { c with posted := c.posted.eraseIdx k, uncaught := none }
              rw [hposted]
              simp only [List.length_eraseIdx_of_lt hlt]
              rcases hout with ho | ho
              · rw [ho]
                simp only
                omega
              · rw [ho]
                simp only [List.count_append]
                have : List.count async_op.write [async_op.write] = 1 := by decide
                omega

/-- Whatever events the client executes, its reads are in order. -/
theorem client_run_reads_ok (es : List client_event) : client_reads_ok (client_run es) := by
  unfold client_run
  have key : ∀ c, client_reads_ok c →
      client_reads_ok (es.foldl (fun acc e => client_step e acc) c) := by
    induction es with
    | nil => exact fun c h => h
    | cons e rest ih => exact fun c h => ih _ (client_step_reads_ok e c h)
  apply key
  refine ⟨by decide, fun _ => ⟨rfl, rfl⟩⟩

/-- Whatever events of a peer that waits the client executes, its writes are in order. -/
theorem client_run_writes_ok (es : List client_event)
    (hpeer : peer_serial es async_websocket_client.connected) :
    client_writes_ok (client_run es) := by
  unfold client_run
  have key : ∀ c, client_reads_ok c → client_writes_ok c → peer_serial es c →
      client_writes_ok (es.foldl (fun acc e => client_step e acc) c) := by
    clear hpeer
    induction es with
    | nil => exact fun c _ h _ => h
    | cons e rest ih =>
        intro c hr hw hp
        exact ih _ (client_step_reads_ok e c hr) (client_step_writes_ok e c hr hw hp.1) hp.2
  apply key _ _ _ hpeer
  · exact ⟨by decide, fun _ => ⟨rfl, rfl⟩⟩
  · unfold client_writes_ok
    decide

/-- C22, amended: whatever events the client executes, at most one read is outstanding
on it; and when the peer sends each frame only after the client has written its answer
to the previous one, at most one write is outstanding as well, and none while a frame
waits to be processed. -/
theorem C22_client_outstanding (es : List client_event) :
    (client_run es).outstanding.count .read ≤ 1 ∧
    (peer_serial es async_websocket_client.connected →
      (client_run es).outstanding.count .write ≤ 1 ∧
      (client_run es).outstanding.count .write + (client_run es).posted.length ≤ 1) := by
  refine ⟨(client_run_reads_ok es).1, fun hpeer => ?_⟩
  have h := client_run_writes_ok es hpeer
  unfold client_writes_ok at h
  exact ⟨by omega, h⟩

/-- Witness of C22: a client that gets one NODATA after its GETDATA has been written has
one read and one write outstanding once it has processed the frame. -/
theorem C22_client_outstanding_witness :
    peer_serial serial_trace async_websocket_client.connected ∧
    (client_run serial_trace).outstanding = [.read, .write] ∧
    (client_run serial_trace).outstanding.count .write ≤ 1 :=
  ⟨by
      simp only [serial_trace, peer_serial, peer_waits]
      decide,
    by decide,
    ((C22_client_outstanding serial_trace).2 (by
      simp only [serial_trace, peer_serial, peer_waits]
      decide)).1⟩


/-- The modulus of `unsigned int` is positive. -/
theorem UINT_MODULUS_pos : 0 < UINT_MODULUS := by decide

/-- With a size that no `unsigned int` reaches, the loop of the constructor is never
left: the counter stays below the size. -/
theorem constructor_loop_stuck (size : Nat) (draw : Nat → Int) (hsize : UINT_MODULUS ≤ size)
    (fuel : Nat) : ∀ (i : Nat) (m_data : List stored_number), i < UINT_MODULUS →
      random_container_payload.constructor_loop size draw fuel i m_data = none := by
  induction fuel with
  | zero => intro i m_data _; rfl
  | succ fuel ih =>
      intro i m_data hi
      unfold random_container_payload.constructor_loop
      rw [if_pos (by omega)]
      exact ih _ _ (Nat.mod_lt _ UINT_MODULUS_pos)

/-- With a size below the modulus of `unsigned int`, the loop is left after `size - i`
more elements, the calls of `dist(rng)` in their order. -/
theorem constructor_loop_done (size : Nat) (draw : Nat → Int) (hsize : size < UINT_MODULUS) :
    ∀ (n i : Nat) (m_data : List stored_number), i + n = size →
      random_container_payload.constructor_loop size draw (n + 1) i m_data =
        some (m_data ++ (List.range n).map (fun k => { m_secret := draw (m_data.length + k) })) := by
  intro n
  induction n with
  | zero =>
      intro i m_data hi
      unfold random_container_payload.constructor_loop
      rw [if_neg (by omega)]
      simp
  | succ n ih =>
      intro i m_data hi
      unfold random_container_payload.constructor_loop
      rw [if_pos (by omega), Nat.mod_eq_of_lt (by omega), ih _ _ (by omega)]
      simp only [random_container_payload.add, List.length_append, List.length_singleton,
        List.append_assoc, List.singleton_append, List.range_succ_eq_map, List.map_cons,
        List.map_map, Nat.add_zero]
      congr 3
      apply List.map_congr_left
      intro k _
      simp only [Function.comp]
      have hindex : m_data.length + 1 + k = m_data.length + k.succ := by omega
      rw [hindex]

/-- C26: the constructor of a random container returns a payload of exactly `size`
elements, the values drawn from the distribution in their order, when `size` is below
2^32; for a size of 2^32 or more, which the command line accepts, it never returns,
whatever bound is put on the number of loop tests. -/
theorem C26_container_of_size (size : Nat) (draw : Nat → Int) :
    (size < UINT_MODULUS →
      random_container_payload.make size draw (size + 1) =
        some (.random_container_payload
          ((List.range size).map (fun k => { m_secret := draw k })))) ∧
    (UINT_MODULUS ≤ size → ∀ fuel, random_container_payload.make size draw fuel = none) := by
  refine ⟨fun hsize => ?_, fun hsize fuel => ?_⟩
  · unfold random_container_payload.make
    rw [constructor_loop_done size draw hsize size 0 [] (by omega)]
    simp
  · unfold random_container_payload.make
    rw [constructor_loop_stuck size draw hsize fuel 0 [] UINT_MODULUS_pos]
    rfl

/-- Witness of C26: for the size 2^32 the constructor has not returned after ten loop
tests, and for the size 3 it returns three elements. -/
theorem C26_container_of_size_witness :
    UINT_MODULUS ≤ 4294967296 ∧
    random_container_payload.make 4294967296 (fun k => k) 10 = none ∧
    random_container_payload.make 3 (fun k => k) 4 =
      some (.random_container_payload [{ m_secret := 0 }, { m_secret := 1 }, { m_secret := 2 }]) :=
  ⟨by decide,
    (C26_container_of_size 4294967296 (fun k => k)).2 (by decide) 10,
    (C26_container_of_size 3 (fun k => k)).1 (by decide)⟩

/-- What the body of a producer loop does on a stopped server: the flag, the capacity and
the payload type stay, the queue stays or grows by one item below the capacity, and a
thread that offers an item either leaves the loop or has pushed and offers again. -/
theorem producer_body_stopped (fresh : payload_base) (p : producer_thread)
    (srv : async_websocket_server) (hstopped : srv.m_server_stopped = true)
    (hfinished : p.finished = false)
    (hoffer : p.produce_new_container = true ∨ p.ptr ≠ none) :
    (producer_body fresh p srv).2.m_server_stopped = true ∧
    (producer_body fresh p srv).2.m_max_queue_size = srv.m_max_queue_size ∧
    (producer_body fresh p srv).2.m_payload_type = srv.m_payload_type ∧
    (((producer_body fresh p srv).1.finished = true ∧
        (producer_body fresh p srv).2.m_payload_queue.length = srv.m_payload_queue.length ∧
        ¬ srv.m_payload_queue.length < srv.m_max_queue_size) ∨
      ((producer_body fresh p srv).1.finished = false ∧
        (producer_body fresh p srv).1.produce_new_container = true ∧
        (producer_body fresh p srv).2.m_payload_queue.length =
          srv.m_payload_queue.length + 1 ∧
        srv.m_payload_queue.length < srv.m_max_queue_size)) := by
  unfold producer_body queue_push
  by_cases hfull : srv.m_payload_queue.length < srv.m_max_queue_size
  · cases hnew : p.produce_new_container with
    | true => simp [hfull, hstopped, hfinished]
    | false =>
        rcases hoffer with h | h
        · rw [hnew] at h
          cases h
        · cases hptr : p.ptr with
          | none => exact absurd hptr h
          | some item => simp [hptr, hfull, hstopped, hfinished]
  · cases hnew : p.produce_new_container with
    | true => simp [hfull, hstopped]
    | false =>
        rcases hoffer with h | h
        · rw [hnew] at h
          cases h
        · cases hptr : p.ptr with
          | none => exact absurd hptr h
          | some item => simp [hptr, hfull, hstopped]


/-- What the body of a producer loop does to the server, whatever the thread holds: the
stop flag, the capacity and the payload type stay, and the queue stays or grows by one
item below the capacity. -/
theorem producer_body_server (fresh : payload_base) (p : producer_thread)
    (srv : async_websocket_server) :
    (producer_body fresh p srv).2.m_server_stopped = srv.m_server_stopped ∧
    (producer_body fresh p srv).2.m_max_queue_size = srv.m_max_queue_size ∧
    (producer_body fresh p srv).2.m_payload_type = srv.m_payload_type ∧
    ((producer_body fresh p srv).2.m_payload_queue.length = srv.m_payload_queue.length ∨
      ((producer_body fresh p srv).2.m_payload_queue.length =
          srv.m_payload_queue.length + 1 ∧
        srv.m_payload_queue.length < srv.m_max_queue_size)) := by
  unfold producer_body queue_push
  simp only
  split
  · simp
  · by_cases hfull : srv.m_payload_queue.length < srv.m_max_queue_size
    · simp [hfull]
    · cases hstopped : srv.m_server_stopped <;> simp [hfull, hstopped]

/-- One loop iteration of either producer on a stopped server. -/
theorem producer_iteration_stopped
    (iteration : payload_base → producer_thread → async_websocket_server →
      producer_thread × async_websocket_server)
    (hloop : is_producer_loop iteration)
    (fresh : payload_base) (p : producer_thread) (srv : async_websocket_server)
    (hstopped : srv.m_server_stopped = true) :
    (iteration fresh p srv).2.m_server_stopped = true ∧
    (iteration fresh p srv).2.m_max_queue_size = srv.m_max_queue_size ∧
    (iteration fresh p srv).2.m_payload_type = srv.m_payload_type ∧
    ((iteration fresh p srv).2.m_payload_queue.length = srv.m_payload_queue.length ∨
      ((iteration fresh p srv).2.m_payload_queue.length = srv.m_payload_queue.length + 1 ∧
        srv.m_payload_queue.length < srv.m_max_queue_size)) ∧
    (p.finished = true → (iteration fresh p srv).1.finished = true) ∧
    (iteration = async_websocket_server.sleep_payload_producer →
      (iteration fresh p srv).1.finished = true) ∧
    (p.produce_new_container = true ∨ p.ptr ≠ none →
      (iteration fresh p srv).1.finished = true ∨
      ((iteration fresh p srv).1.produce_new_container = true ∧
        (iteration fresh p srv).2.m_payload_queue.length = srv.m_payload_queue.length + 1 ∧
        srv.m_payload_queue.length < srv.m_max_queue_size)) := by
  cases hfinished : p.finished with
  | true =>
      have hsame : iteration fresh p srv = (p, srv) := by
        rcases hloop with h | h
        · rw [h]
          unfold async_websocket_server.container_payload_producer
          rw [if_pos hfinished]
        · rw [h]
          unfold async_websocket_server.sleep_payload_producer
          rw [if_pos hfinished]
      rw [hsame]
      simp [hstopped, hfinished]
  | false =>
      rcases hloop with h | h
      · have hbody : iteration fresh p srv = producer_body fresh p srv := by
          rw [h]
          unfold async_websocket_server.container_payload_producer
          rw [if_neg (by simp [hfinished])]
        rw [hbody]
        obtain ⟨h1, h2, h3, h4⟩ := producer_body_server fresh p srv
        refine ⟨by rw [h1, hstopped], h2, h3, h4, (fun hc => by cases hc), ?_, fun hoffer => ?_⟩
        · intro hsleep
          rw [h] at hsleep
          have := congrFun (congrFun (congrFun hsleep (.sleep_payload 0))
            { produce_new_container := true, ptr := none, finished := false })
            { srv with m_payload_queue := [], m_max_queue_size := 1 }
          simp [async_websocket_server.container_payload_producer,
            async_websocket_server.sleep_payload_producer, producer_body, queue_push,
            hstopped] at this
        · obtain ⟨_, _, _, h5⟩ := producer_body_stopped fresh p srv hstopped hfinished hoffer
          rcases h5 with ⟨hf, _, _⟩ | ⟨_, hn, hl, hlt⟩
          · exact Or.inl hf
          · exact Or.inr ⟨hn, hl, hlt⟩
      · have hleft : iteration fresh p srv = ({ p with finished := true }, srv) := by
          rw [h]
          unfold async_websocket_server.sleep_payload_producer
          rw [if_neg (by simp [hfinished]), if_pos hstopped]
        rw [hleft]
        simp [hstopped]


/-- A producer event runs one iteration of the loop the payload type selects. -/
theorem step_producer (k : Nat) (fresh : payload_base) (w : world) (p : producer_thread)
    (huncaught : w.uncaught = none) (hp : w.producers.get? k = some p) :
    ∃ iteration, is_producer_loop iteration ∧
      (w.server.m_payload_type = .sleep →
        iteration = async_websocket_server.sleep_payload_producer) ∧
      step (.producer k fresh) w =
        { w with
          server := (iteration fresh p w.server).2
          producers := w.producers.set k (iteration fresh p w.server).1 } := by
  cases ht : w.server.m_payload_type with
  | sleep =>
      refine ⟨async_websocket_server.sleep_payload_producer, Or.inr rfl, fun _ => rfl, ?_⟩
      unfold step
      rw [huncaught]
      simp only
      rw [hp]
      simp only [ht]
  | container =>
      refine ⟨async_websocket_server.container_payload_producer, Or.inl rfl,
        (fun hc => by cases hc), ?_⟩
      unfold step
      rw [huncaught]
      simp only
      rw [hp]
      simp only [ht]
  | command =>
      refine ⟨async_websocket_server.container_payload_producer, Or.inl rfl,
        (fun hc => by cases hc), ?_⟩
      unfold step
      rw [huncaught]
      simp only
      rw [hp]
      simp only [ht]

/-- One producer event on a stopped server: the server stays stopped, the queue stays or
grows by one item below the capacity, the other threads are as before, and the thread
that ran has left its loop or has pushed. -/
theorem step_producer_stopped (k : Nat) (fresh : payload_base) (w : world)
    (huncaught : w.uncaught = none) (hstopped : w.server.m_server_stopped = true) :
    (step (.producer k fresh) w).uncaught = none ∧
    (step (.producer k fresh) w).server.m_server_stopped = true ∧
    (step (.producer k fresh) w).server.m_max_queue_size = w.server.m_max_queue_size ∧
    (step (.producer k fresh) w).server.m_payload_type = w.server.m_payload_type ∧
    ((step (.producer k fresh) w).server.m_payload_queue.length =
        w.server.m_payload_queue.length ∨
      ((step (.producer k fresh) w).server.m_payload_queue.length =
          w.server.m_payload_queue.length + 1 ∧
        w.server.m_payload_queue.length < w.server.m_max_queue_size)) ∧
    (∀ j, j ≠ k → (step (.producer k fresh) w).producers.get? j = w.producers.get? j) ∧
    (∀ p, w.producers.get? k = some p →
      ∃ p1, (step (.producer k fresh) w).producers.get? k = some p1 ∧
        (p.finished = true → p1.finished = true) ∧
        (w.server.m_payload_type = .sleep → p1.finished = true) ∧
        (p.produce_new_container = true ∨ p.ptr ≠ none →
          p1.finished = true ∨
          ((p1.produce_new_container = true ∨ p1.ptr ≠ none) ∧
            (step (.producer k fresh) w).server.m_payload_queue.length =
              w.server.m_payload_queue.length + 1 ∧
            w.server.m_payload_queue.length < w.server.m_max_queue_size))) := by
  cases hp : w.producers.get? k with
  | none =>
      have hstep : step (.producer k fresh) w = w := by
        unfold step
        rw [huncaught]
        simp only
        rw [hp]
      rw [hstep]
      refine ⟨huncaught, hstopped, rfl, rfl, Or.inl rfl, fun _ _ => rfl, ?_⟩
      intro p hc
      cases hc
  | some p =>
      obtain ⟨iteration, hloop, hsleep, hstep⟩ := step_producer k fresh w p huncaught hp
      obtain ⟨h1, h2, h3, h4, h5, h6, h7⟩ :=
        producer_iteration_stopped iteration hloop fresh p w.server hstopped
      have hlt : k < w.producers.length := by
        by_contra hge
        rw [List.get?_eq_none.mpr (by omega)] at hp
        cases hp
      rw [hstep]
      refine ⟨huncaught, h1, h2, h3, h4, ?_, ?_⟩
      · intro j hj
        simp only [List.get?_eq_getElem?]
        exact List.getElem?_set_ne (Ne.symm hj)
      · intro q hq
        cases hq
        refine ⟨(iteration fresh p w.server).1, ?_, h5, fun ht => h6 (hsleep ht), ?_⟩
        · simp only [List.get?_eq_getElem?]
          rw [List.getElem?_set_self hlt]
        · intro hoffer
          rcases h7 hoffer with hf | ⟨hn, hl, hcap⟩
          · exact Or.inl hf
          · exact Or.inr ⟨Or.inl hn, hl, hcap⟩


/-- On a stopped server on which only producers run, a thread that offers an item has
left its loop once it has run often enough: once for the sleep producer, once more than
the queue has free slots for the container producer. -/
theorem producers_leave (j : Nat) (es : List event) :
    ∀ (w : world) (p : producer_thread), w.uncaught = none →
      w.server.m_server_stopped = true →
      (∀ e ∈ es, is_producer_event e = true) → w.producers.get? j = some p →
      (p.finished = true ∨
        ((p.produce_new_container = true ∨ p.ptr ≠ none) ∧
          ((w.server.m_payload_type = .sleep ∧ 1 ≤ iterations_of j es) ∨
            w.server.m_max_queue_size - w.server.m_payload_queue.length + 1 ≤
              iterations_of j es))) →
      producer_finished (run_events es w) j := by
  induction es with
  | nil =>
      intro w p _ _ _ hp hinv
      rcases hinv with hf | ⟨_, hcount⟩
      · exact ⟨p, hp, hf⟩
      · simp only [iterations_of] at hcount
        omega
  | cons e es ih =>
      intro w p hu hs hes hp hinv
      have hrest : ∀ e1 ∈ es, is_producer_event e1 = true :=
        fun e1 he1 => hes e1 (List.mem_cons_of_mem e he1)
      have hhead := hes e (List.mem_cons_self e es)
      cases e with
      | accepted ec => cases hhead
      | connection_accepted i ec ws_open => cases hhead
      | read i ec ws_open message => cases hhead
      | written i ec => cases hhead
      | producer k fresh =>
          obtain ⟨hu1, hs1, hmax, htype, hqueue, hothers, hthread⟩ :=
            step_producer_stopped k fresh w hu hs
          have hrun : run_events (.producer k fresh :: es) w =
              run_events es (step (.producer k fresh) w) := rfl
          rw [hrun]
          by_cases hk : k = j
          · subst hk
            obtain ⟨p1, hp1, hfin, hsleep, hpush⟩ := hthread p hp
            apply ih _ p1 hu1 hs1 hrest hp1
            rcases hinv with hf | ⟨hoffer, hcount⟩
            · exact Or.inl (hfin hf)
            · rcases hcount with ⟨ht, _⟩ | hcount
              · exact Or.inl (hsleep ht)
              · rcases hpush hoffer with hf | ⟨hoffer1, hl, hcap⟩
                · exact Or.inl hf
                · refine Or.inr ⟨hoffer1, Or.inr ?_⟩
                  simp only [iterations_of, if_true] at hcount
                  rw [hmax, hl]
                  omega
          · have hp1 : (step (.producer k fresh) w).producers.get? j = some p := by
              rw [hothers j (Ne.symm hk), hp]
            apply ih _ p hu1 hs1 hrest hp1
            rcases hinv with hf | ⟨hoffer, hcount⟩
            · exact Or.inl hf
            · simp only [iterations_of, if_neg hk, Nat.zero_add] at hcount
              refine Or.inr ⟨hoffer, ?_⟩
              rcases hcount with ⟨ht, hone⟩ | hcount
              · exact Or.inl ⟨by rw [htype, ht], hone⟩
              · refine Or.inr ?_
                rw [hmax]
                rcases hqueue with hl | ⟨hl, _⟩
                · rw [hl]
                  exact hcount
                · rw [hl]
                  omega

/-- On a stopped server on which only producers run, the queue does not shrink and grows
by no more items than it has free slots. -/
theorem producers_fill (es : List event) :
    ∀ (w : world), w.uncaught = none → w.server.m_server_stopped = true →
      (∀ e ∈ es, is_producer_event e = true) →
      w.server.m_payload_queue.length ≤ (run_events es w).server.m_payload_queue.length ∧
      (run_events es w).server.m_payload_queue.length - w.server.m_payload_queue.length ≤
        w.server.m_max_queue_size - w.server.m_payload_queue.length := by
  induction es with
  | nil =>
      intro w _ _ _
      have hrun : run_events [] w = w := rfl
      rw [hrun]
      omega
  | cons e es ih =>
      intro w hu hs hes
      have hrest : ∀ e1 ∈ es, is_producer_event e1 = true :=
        fun e1 he1 => hes e1 (List.mem_cons_of_mem e he1)
      have hhead := hes e (List.mem_cons_self e es)
      cases e with
      | accepted ec => cases hhead
      | connection_accepted i ec ws_open => cases hhead
      | read i ec ws_open message => cases hhead
      | written i ec => cases hhead
      | producer k fresh =>
          obtain ⟨hu1, hs1, hmax, _, hqueue, _, _⟩ := step_producer_stopped k fresh w hu hs
          have hrun : run_events (.producer k fresh :: es) w =
              run_events es (step (.producer k fresh) w) := rfl
          rw [hrun]
          obtain ⟨hle, hgrow⟩ := ih _ hu1 hs1 hrest
          rw [hmax] at hgrow
          rcases hqueue with hl | ⟨hl, hcap⟩
          · rw [hl] at hle hgrow
            exact ⟨hle, hgrow⟩
          · rw [hl] at hle hgrow
            omega

/-- C25: on a stopped server whose queue is popped no more (only producer iterations
run), a producer thread that has an item to offer leaves its loop after finitely many
of its iterations: the sleep producer with its next iteration, the container producer
with at most one iteration more than the queue has free slots; all producers together
push at most as many items as the queue has free slots, and an iteration that meets the
full queue leaves the loop. -/
theorem C25_producers_terminate (es : List event) (w : world) (j : Nat) (p : producer_thread)
    (hstopped : w.server.m_server_stopped = true)
    (huncaught : w.uncaught = none)
    (hes : ∀ e ∈ es, is_producer_event e = true)
    (hp : w.producers.get? j = some p)
    (hoffer : p.produce_new_container = true ∨ p.ptr ≠ none) :
    (w.server.m_payload_type = .sleep → 1 ≤ iterations_of j es →
      producer_finished (run_events es w) j) ∧
    (w.server.m_max_queue_size - w.server.m_payload_queue.length + 1 ≤ iterations_of j es →
      producer_finished (run_events es w) j) ∧
    (run_events es w).server.m_payload_queue.length - w.server.m_payload_queue.length ≤
      w.server.m_max_queue_size - w.server.m_payload_queue.length ∧
    (∀ fresh, ¬ w.server.m_payload_queue.length < w.server.m_max_queue_size →
      (w.server.container_payload_producer fresh p).1.finished = true ∧
      (w.server.sleep_payload_producer fresh p).1.finished = true) := by
  refine ⟨fun ht hone => ?_, fun hcount => ?_, (producers_fill es w huncaught hstopped hes).2,
    fun fresh hfull => ⟨?_, ?_⟩⟩
  · exact producers_leave j es w p huncaught hstopped hes hp
      (Or.inr ⟨hoffer, Or.inl ⟨ht, hone⟩⟩)
  · exact producers_leave j es w p huncaught hstopped hes hp
      (Or.inr ⟨hoffer, Or.inr hcount⟩)
  · obtain ⟨_, _, _, _, _, _, h7⟩ :=
      producer_iteration_stopped async_websocket_server.container_payload_producer
        (Or.inl rfl) fresh p w.server hstopped
    rcases h7 hoffer with hf | ⟨_, _, hcap⟩
    · exact hf
    · exact absurd hcap hfull
  · exact (producer_iteration_stopped async_websocket_server.sleep_payload_producer
      (Or.inr rfl) fresh p w.server hstopped).2.2.2.2.2.1 rfl

/-- Witness of C25: with one free slot in the queue of the stopped server, the container
producer pushes once, fails once and has left its loop after two iterations. -/
theorem C25_producers_terminate_witness :
    stopping_world.server.m_max_queue_size - stopping_world.server.m_payload_queue.length + 1
      ≤ iterations_of 0 [.producer 0 (.sleep_payload 2), .producer 0 (.sleep_payload 3)] ∧
    producer_finished
      (run_events [.producer 0 (.sleep_payload 2), .producer 0 (.sleep_payload 3)]
        stopping_world) 0 :=
  ⟨by decide,
    (C25_producers_terminate [.producer 0 (.sleep_payload 2), .producer 0 (.sleep_payload 3)]
      stopping_world 0 producer_thread.init rfl rfl (by decide) rfl (Or.inl rfl)).2.1
      (by decide)⟩

/-- C27: the constructor takes each thread count as given when it is positive and the
hardware concurrency otherwise, and `run()` starts that many producers; with a positive
listener count the event loop runs on that many threads, but when the count is 0 and the
hardware concurrency is not computable (0), the number of context threads to spawn,
`m_n_listener_threads - 1`, wraps around to 2^64 - 1. -/
theorem C27_thread_counts (hardware_concurrency n_context_threads n_producer_threads
    n_max_packages_served : Nat) (type : payload_type) (container_size : Nat)
    (sleep_time : double) (full_queue_sleep_ms max_queue_size : Nat)
    (self : async_websocket_server)
    (hmake : async_websocket_server.make hardware_concurrency n_context_threads
      n_producer_threads n_max_packages_served type container_size sleep_time
      full_queue_sleep_ms max_queue_size = .ok self) :
    self.m_n_listener_threads =
      (if n_context_threads > 0 then n_context_threads else hardware_concurrency) ∧
    self.m_n_producer_threads =
      (if n_producer_threads > 0 then n_producer_threads else hardware_concurrency) ∧
    (∀ w, self.run false = .ok (some w) → w.producers.length = self.m_n_producer_threads) ∧
    (0 < self.m_n_listener_threads →
      self.n_context_threads_spawned = self.m_n_listener_threads - 1 ∧
      self.n_event_loop_threads = self.m_n_listener_threads) ∧
    (n_context_threads = 0 → hardware_concurrency = 0 →
      self.m_n_listener_threads = 0 ∧
      self.n_context_threads_spawned = SIZE_MODULUS - 1 ∧
      self.n_event_loop_threads ≠ self.m_n_listener_threads) := by
  unfold async_websocket_server.make at hmake
  simp only at hmake
  by_cases hbig : INT_MAX <
      (if n_context_threads > 0 then n_context_threads else hardware_concurrency)
  · rw [if_pos hbig] at hmake
    cases hmake
  · rw [if_neg hbig] at hmake
    injection hmake with hmake
    have hlisten : self.m_n_listener_threads =
        (if n_context_threads > 0 then n_context_threads else hardware_concurrency) := by
      rw [← hmake]
    have hproduce : self.m_n_producer_threads =
        (if n_producer_threads > 0 then n_producer_threads else hardware_concurrency) := by
      rw [← hmake]
    refine ⟨hlisten, hproduce, ?_, ?_, ?_⟩
    · intro w hw
      rw [(run_start self w hw).1]
      simp
    · intro hpos
      unfold async_websocket_server.n_event_loop_threads
        async_websocket_server.n_context_threads_spawned size_t_decrement
      rw [if_neg (by omega)]
      omega
    · intro hn hh
      have hzero : self.m_n_listener_threads = 0 := by
        rw [hlisten, hn, hh]
        rfl
      unfold async_websocket_server.n_event_loop_threads
        async_websocket_server.n_context_threads_spawned size_t_decrement
      rw [if_pos hzero, hzero]
      refine ⟨rfl, rfl, ?_⟩
      decide

/-- Witness of C27: without a computable hardware concurrency and with both counts left
at 0, the server is made with no listener thread, and `run()` is to spawn 2^64 - 1
context threads. -/
theorem C27_thread_counts_witness :
    async_websocket_server.make 0 0 0 3 .container 2 1 5 4 = .ok unknown_concurrency_server ∧
    unknown_concurrency_server.m_n_listener_threads = 0 ∧
    unknown_concurrency_server.n_context_threads_spawned = 18446744073709551615 :=
  ⟨rfl,
    ((C27_thread_counts 0 0 0 3 .container 2 1 5 4 unknown_concurrency_server rfl).2.2.2.2
      rfl rfl).1,
    ((C27_thread_counts 0 0 0 3 .container 2 1 5 4 unknown_concurrency_server rfl).2.2.2.2
      rfl rfl).2.1⟩


/-- Reading back the elements that were stored gives the elements and what follows
them. -/
theorem stored_number_load_serialize (m_data : List stored_number)
    (rest : List archive_item) :
    stored_number.load m_data.length (stored_number.serialize m_data ++ rest) =
      some (m_data, rest) := by
  induction m_data with
  | nil => rfl
  | cons x more ih =>
      obtain ⟨m_secret⟩ := x
      simp only [List.length_cons, stored_number.serialize, List.cons_append,
        stored_number.load, List.append_eq, ih]

/-- Reading back the payload pointer that was stored gives the pointer. -/
theorem payload_base_load_serialize (p : payload_base) :
    payload_base.load p.serialize = some (some p, []) := by
  cases p with
  | sleep_payload t => rfl
  | random_container_payload m_data =>
      have h := stored_number_load_serialize m_data []
      rw [List.append_nil] at h
      simp only [payload_base.serialize, payload_base.load, h]

/-- Reading back the container that was stored gives the container. -/
theorem command_container_load_serialize (c : command_container) :
    command_container.load c.serialize = .ok c := by
  obtain ⟨m_command, m_payload_ptr⟩ := c
  cases m_payload_ptr with
  | none => rfl
  | some p =>
      simp only [command_container.serialize, command_container.load,
        payload_base_load_serialize]

/-- C23: for every container `c`, whatever its command and its payload (none, a container
of any data, a sleep of any duration), reading back the archive that `serialize` fills
gives `c`; the message `to_string()` returns stands for that archive; and `from_string`
on it yields `c` whatever the receiving container held before. -/
theorem C23_round_trip (c prev : command_container) :
    command_container.load c.serialize = .ok c ∧
    wire_string.of_archive c.serialize = c.to_string ∧
    prev.from_string c.to_string = .ok c ∧
    prev.from_string (wire_string.of_archive c.serialize) = .ok c := by
  have hload := command_container_load_serialize c
  have hwire : wire_string.of_archive c.serialize = c.to_string := by
    unfold wire_string.of_archive
    rw [hload]
    rfl
  refine ⟨hload, hwire, rfl, ?_⟩
  rw [hwire]
  rfl

end Estray
